import Mathlib

/-!
# Segregated-size memory pools (`memory_pools.c`)

A shallow embedding of the pool allocator of
`07-memory-management/w07/lab2/memory_pools/main/memory_pools.c`.

* Memory is a byte-addressed map `Mem`; the block headers (`memory_block_t`) live in it,
  exactly as the C code keeps them inside the arena, so that a header can be read at any
  address a caller hands to `pool_free`.
* The target is the 32-bit ESP32: `size_t`, `uint32_t` and pointers are 32 bits wide
  (arithmetic modulo `2^32`), `uint64_t` is 64 bits wide (modulo `2^64`), `NULL` is address `0`.
* The outside world (heap allocator, FreeRTOS semaphore, timer) is an explicit input of every
  operation: `InitEnv`, `MallocEnv`, `FreeEnv`.
* Semaphore and GPIO calls are recorded as a list of `Event`s returned with the result.
-/

namespace MemoryPools

/-! ## Machine words and memory -/

/-- Modulus of `size_t`, `uint32_t` and of pointers on the target. -/
def W32 : Nat := 2 ^ 32

/-- Modulus of `uint64_t`. -/
def W64 : Nat := 2 ^ 64

/-- Subtraction of two `size_t` values (or of two pointers), wrapping around. -/
def sub32 (x y : Nat) : Nat :=
  if y % W32 ≤ x % W32 then x % W32 - y % W32 else x % W32 + W32 - y % W32

/-- Subtraction of two `uint64_t` values, wrapping around. -/
def sub64 (x y : Nat) : Nat :=
  if y % W64 ≤ x % W64 then x % W64 - y % W64 else x % W64 + W64 - y % W64

/-- The statement `total += (esp_timer_get_time() - start_time)` on a `uint64_t` counter. -/
def elapsed (total t_start t_end : Nat) : Nat :=
  (total + sub64 t_end t_start) % W64

/-- Byte-addressed memory: the byte stored at every address. -/
abbrev Mem := Nat → Nat

/-- Store one byte. -/
def store8 (m : Mem) (a v : Nat) : Mem := fun x => if x = a then v % 256 else m x

/-- Little-endian 32-bit load. -/
def load32 (m : Mem) (a : Nat) : Nat :=
  m a % 256 + 256 * (m (a + 1) % 256) + 65536 * (m (a + 2) % 256) + 16777216 * (m (a + 3) % 256)

/-- Little-endian 32-bit store. -/
def store32 (m : Mem) (a v : Nat) : Mem :=
  store8 (store8 (store8 (store8 m a v) (a + 1) (v / 256)) (a + 2) (v / 65536)) (a + 3)
    (v / 16777216)

/-- Little-endian 64-bit store. -/
def store64 (m : Mem) (a v : Nat) : Mem :=
  store32 (store32 m a v) (a + 4) (v / 4294967296)

/-! ## Constants and data structures of the source -/

def LED_SMALL_POOL : Nat := 2
def LED_MEDIUM_POOL : Nat := 4
def LED_LARGE_POOL : Nat := 5
def LED_POOL_FULL : Nat := 18
def LED_POOL_ERROR : Nat := 19

def SMALL_POOL_BLOCK_SIZE : Nat := 64
def SMALL_POOL_BLOCK_COUNT : Nat := 32
def MEDIUM_POOL_BLOCK_SIZE : Nat := 256
def MEDIUM_POOL_BLOCK_COUNT : Nat := 16
def LARGE_POOL_BLOCK_SIZE : Nat := 1024
def LARGE_POOL_BLOCK_COUNT : Nat := 8
def HUGE_POOL_BLOCK_SIZE : Nat := 4096
def HUGE_POOL_BLOCK_COUNT : Nat := 4

def POOL_MAGIC_FREE : Nat := 0xDEADBEEF
def POOL_MAGIC_ALLOC : Nat := 0xCAFEBABE

/-- Number of tiers, the enumerator `POOL_COUNT`. -/
def POOL_COUNT : Nat := 4

/-- Layout of `memory_block_t` on the target: `next` (4-byte pointer) at offset 0. -/
def OFF_NEXT : Nat := 0
/-- Offset of `magic` (`uint32_t`). -/
def OFF_MAGIC : Nat := 4
/-- Offset of `pool_id` (`uint32_t`). -/
def OFF_POOL_ID : Nat := 8
/-- Offset of `alloc_time` (`uint64_t`, 8-byte aligned, after 4 bytes of padding). -/
def OFF_ALLOC_TIME : Nat := 16
/-- The value of `sizeof(memory_block_t)`. -/
def header_size : Nat := 24

/-- The record `memory_pool_t`.  The `name` string (used for logging only) and the capability
flags (they only select the heap region asked of the external allocator, whose answer is an
input here) are left out.  `usage_bitmap` is the byte array the pointer refers to, `mutex` tells
whether the semaphore handle is non-null. -/
structure memory_pool_t where
  block_size : Nat
  block_count : Nat
  alignment : Nat
  pool_memory : Nat
  free_list : Nat
  usage_bitmap : List Nat
  allocated_blocks : Nat
  peak_usage : Nat
  total_allocations : Nat
  total_deallocations : Nat
  allocation_time_total : Nat
  deallocation_time_total : Nat
  allocation_failures : Nat
  mutex : Bool
  pool_id : Nat
  deriving DecidableEq, Repr

/-- The record `pool_config_t` (without `name` and `caps`, see `memory_pool_t`). -/
structure pool_config_t where
  block_size : Nat
  block_count : Nat
  led_pin : Nat
  deriving DecidableEq, Repr

/-- The table `pool_configs[POOL_COUNT]`. -/
def pool_configs : List pool_config_t :=
  [ ⟨SMALL_POOL_BLOCK_SIZE, SMALL_POOL_BLOCK_COUNT, LED_SMALL_POOL⟩,
    ⟨MEDIUM_POOL_BLOCK_SIZE, MEDIUM_POOL_BLOCK_COUNT, LED_MEDIUM_POOL⟩,
    ⟨LARGE_POOL_BLOCK_SIZE, LARGE_POOL_BLOCK_COUNT, LED_LARGE_POOL⟩,
    ⟨HUGE_POOL_BLOCK_SIZE, HUGE_POOL_BLOCK_COUNT, LED_POOL_FULL⟩ ]

/-- Observable calls into FreeRTOS and the GPIO driver, in program order. -/
inductive Event where
  | sem_take (pool_id : Nat) (ok : Bool)
  | sem_give (pool_id : Nat)
  | gpio_set_level (pin level : Nat)
  | task_delay (ms : Nat)
  | heap_caps_malloc (size : Nat)
  | heap_caps_free (ptr : Nat)
  deriving DecidableEq, Repr

/-- What the platform answers during `init_memory_pool`: the address returned by
`heap_caps_malloc` for the arena (`0` is `NULL`), whether `heap_caps_calloc` for the bitmap and
`xSemaphoreCreateMutex` succeed. -/
structure InitEnv where
  arena : Nat
  bitmap_ok : Bool
  mutex_ok : Bool
  deriving DecidableEq, Repr

/-- What the platform answers during `pool_malloc`: whether `xSemaphoreTake` returns `pdTRUE`
within its 100 ms, and the three readings of `esp_timer_get_time`. -/
structure MallocEnv where
  lock : Bool
  t_start : Nat
  t_alloc : Nat
  t_end : Nat
  deriving DecidableEq, Repr

/-- What the platform answers during `pool_free`. -/
structure FreeEnv where
  lock : Bool
  t_start : Nat
  t_end : Nat
  deriving DecidableEq, Repr

/-! ## Pool management -/

/-- The function `align_up`: `(v + (a - 1)) & ~(a - 1)` in `size_t` arithmetic. -/
def align_up (v a : Nat) : Nat :=
  ((v + sub32 a 1) % W32) &&& (W32 - 1 - sub32 a 1)

/-- The local `total_block_size` of the three pool functions: header plus aligned payload. -/
def total_block_size (block_size alignment : Nat) : Nat :=
  (header_size + align_up block_size alignment) % W32

/-- The stride of a pool's arena. -/
def stride (p : memory_pool_t) : Nat := total_block_size p.block_size p.alignment

/-- Address of the block with index `i`. -/
def block_addr (p : memory_pool_t) (i : Nat) : Nat := p.pool_memory + i * stride p

/-- Bit `i` of a bitmap, as `usage_bitmap[i / 8] & (1 << (i % 8))`. -/
def bit_at (bm : List Nat) (i : Nat) : Bool := (bm.getD (i / 8) 0).testBit (i % 8)

/-- The statement `usage_bitmap[i / 8] |= (1U << (i % 8))`, stored back to a `uint8_t`. -/
def bitmap_set (bm : List Nat) (i : Nat) : List Nat :=
  bm.set (i / 8) ((bm.getD (i / 8) 0 ||| (1 <<< (i % 8))) % 256)

/-- The statement `usage_bitmap[i / 8] &= ~(1U << (i % 8))`, stored back to a `uint8_t`. -/
def bitmap_clear (bm : List Nat) (i : Nat) : List Nat :=
  bm.set (i / 8) ((bm.getD (i / 8) 0 &&& (W32 - 1 - (1 <<< (i % 8)))) % 256)

/-- Number of set bits of a bitmap. -/
def popcount (bm : List Nat) : Nat := (List.range (8 * bm.length)).countP (bit_at bm)

/-- One iteration of the loop that builds the free list in `init_memory_pool`. -/
def init_block (memory_ptr tbs pool_id : Nat) (s : Nat × Mem) (i : Nat) : Nat × Mem :=
  let block := (memory_ptr + (i * tbs) % W32) % W32
  let m1 := store32 s.2 (block + OFF_MAGIC) POOL_MAGIC_FREE
  let m2 := store32 m1 (block + OFF_POOL_ID) pool_id
  let m3 := store64 m2 (block + OFF_ALLOC_TIME) 0
  let m4 := store32 m3 (block + OFF_NEXT) s.1
  (block, m4)

/-- Result of `init_memory_pool`: the returned flag, the pool, the memory, and whether the
calls `heap_caps_free(pool->pool_memory)` and `heap_caps_free(pool->usage_bitmap)` were
made. -/
structure InitResult where
  ok : Bool
  pool : memory_pool_t
  mem : Mem
  arena_released : Bool
  bitmap_released : Bool

/-- The function `init_memory_pool`. -/
def init_memory_pool (config : pool_config_t) (pool_id : Nat) (env : InitEnv) (m : Mem) :
    InitResult :=
  -- memset(pool, 0, ...) followed by the field assignments
  let pool : memory_pool_t :=
    { block_size := config.block_size, block_count := config.block_count, alignment := 4,
      pool_memory := 0, free_list := 0, usage_bitmap := [], allocated_blocks := 0,
      peak_usage := 0, total_allocations := 0, total_deallocations := 0,
      allocation_time_total := 0, deallocation_time_total := 0, allocation_failures := 0,
      mutex := false, pool_id := pool_id }
  let tbs := total_block_size config.block_size pool.alignment
  let pool := { pool with pool_memory := env.arena }
  if env.arena = 0 then ⟨false, pool, m, false, false⟩
  else
    let bitmap_bytes := (config.block_count + 7) % W32 / 8
    if !env.bitmap_ok then ⟨false, pool, m, true, false⟩
    else
      let pool := { pool with usage_bitmap := List.replicate bitmap_bytes 0 }
      -- for (int i = 0; i < (int)config->block_count; i++)
      let iterations := if config.block_count < 2 ^ 31 then config.block_count else 0
      let s := (List.range iterations).foldl (init_block env.arena tbs pool_id) (0, m)
      let pool := { pool with free_list := s.1 }
      if !env.mutex_ok then ⟨false, pool, s.2, true, true⟩
      else ⟨true, { pool with mutex := true }, s.2, false, false⟩

/-- Result of `pool_malloc`: the returned pointer (`0` is `NULL`), the pool, the memory and
the calls made. -/
structure MallocResult where
  ptr : Nat
  pool : memory_pool_t
  mem : Mem
  events : List Event

/-- The function `pool_malloc`. -/
def pool_malloc (pool : memory_pool_t) (m : Mem) (env : MallocEnv) : MallocResult :=
  if !pool.mutex then ⟨0, pool, m, []⟩
  else if env.lock then
    if pool.free_list ≠ 0 then
      let block := pool.free_list
      let pool1 := { pool with free_list := load32 m (block + OFF_NEXT) }
      if load32 m (block + OFF_MAGIC) ≠ POOL_MAGIC_FREE ∨
          load32 m (block + OFF_POOL_ID) ≠ pool.pool_id then
        ⟨0, pool1, m,
          [.sem_take pool.pool_id true, .gpio_set_level LED_POOL_ERROR 1,
           .sem_give pool.pool_id]⟩
      else
        let m1 := store32 m (block + OFF_MAGIC) POOL_MAGIC_ALLOC
        let m2 := store64 m1 (block + OFF_ALLOC_TIME) (env.t_alloc % W64)
        let m3 := store32 m2 (block + OFF_NEXT) 0
        let allocated := (pool1.allocated_blocks + 1) % W32
        let peak := if allocated > pool1.peak_usage then allocated else pool1.peak_usage
        let tbs := total_block_size pool.block_size pool.alignment
        let block_index := sub32 block pool.pool_memory / tbs
        let bitmap :=
          if block_index < pool.block_count then bitmap_set pool.usage_bitmap block_index
          else pool.usage_bitmap
        let pool2 := { pool1 with
          allocated_blocks := allocated, peak_usage := peak,
          total_allocations := (pool1.total_allocations + 1) % W64,
          usage_bitmap := bitmap }
        ⟨(block + header_size) % W32,
          { pool2 with allocation_time_total :=
              (elapsed pool2.allocation_time_total env.t_start env.t_end) },
          m3, [.sem_take pool.pool_id true, .sem_give pool.pool_id]⟩
    else
      ⟨0,
        { pool with
          allocation_failures := (pool.allocation_failures + 1) % W32,
          allocation_time_total := (elapsed pool.allocation_time_total env.t_start env.t_end) },
        m,
        [.sem_take pool.pool_id true, .gpio_set_level LED_POOL_FULL 1, .sem_give pool.pool_id]⟩
  else
    ⟨0,
      { pool with allocation_time_total :=
          (elapsed pool.allocation_time_total env.t_start env.t_end) },
      m, [.sem_take pool.pool_id false]⟩

/-- Result of `pool_free`. -/
structure FreeResult where
  ok : Bool
  pool : memory_pool_t
  mem : Mem
  events : List Event

/-- The function `pool_free`. -/
def pool_free (pool : memory_pool_t) (m : Mem) (ptr : Nat) (env : FreeEnv) : FreeResult :=
  if ptr = 0 ∨ !pool.mutex then ⟨false, pool, m, []⟩
  else if env.lock then
    let block := sub32 ptr header_size
    if load32 m (block + OFF_MAGIC) ≠ POOL_MAGIC_ALLOC ∨
        load32 m (block + OFF_POOL_ID) ≠ pool.pool_id then
      ⟨false, pool, m,
        [.sem_take pool.pool_id true, .gpio_set_level LED_POOL_ERROR 1, .sem_give pool.pool_id]⟩
    else
      let tbs := total_block_size pool.block_size pool.alignment
      let time_total := (elapsed pool.deallocation_time_total env.t_start env.t_end)
      if block ≥ pool.pool_memory ∧
          block < (pool.pool_memory + (tbs * pool.block_count) % W32) % W32 then
        let block_index := sub32 block pool.pool_memory / tbs
        let bitmap :=
          if block_index < pool.block_count then bitmap_clear pool.usage_bitmap block_index
          else pool.usage_bitmap
        let m1 := store32 m (block + OFF_MAGIC) POOL_MAGIC_FREE
        let m2 := store32 m1 (block + OFF_NEXT) pool.free_list
        ⟨true,
          { pool with
            usage_bitmap := bitmap, free_list := block,
            allocated_blocks := sub32 pool.allocated_blocks 1,
            total_deallocations := (pool.total_deallocations + 1) % W64,
            deallocation_time_total := time_total },
          m2, [.sem_take pool.pool_id true, .sem_give pool.pool_id]⟩
      else
        ⟨false, { pool with deallocation_time_total := time_total }, m,
          [.sem_take pool.pool_id true, .gpio_set_level LED_POOL_ERROR 1,
           .sem_give pool.pool_id]⟩
  else
    ⟨false,
      { pool with deallocation_time_total :=
          (elapsed pool.deallocation_time_total env.t_start env.t_end) },
      m, [.sem_take pool.pool_id false]⟩


/-! ## Well-formed pools -/

/-- Sizes and addresses of a pool fit the 32-bit address space: the arena pointer is not
`NULL`, the stride does not wrap, the arena ends below the top of the address space, and the
bitmap has `ceil(block_count / 8)` bytes.  `init_memory_pool` establishes this whenever the
external allocator hands out a region of the size it was asked for. -/
def Geometry (p : memory_pool_t) : Prop :=
  0 < p.pool_memory ∧
  header_size + align_up p.block_size p.alignment < W32 ∧
  p.pool_memory + p.block_count * stride p < W32 ∧
  p.pool_id < W32 ∧
  p.usage_bitmap.length = (p.block_count + 7) / 8

/-- The nodes reached from `head` by following the `next` fields are exactly the addresses
`l`, in this order, and the last `next` is `NULL`. -/
def Chain (m : Mem) : Nat → List Nat → Prop
  | h, [] => h = 0
  | h, a :: l => h = a ∧ a ≠ 0 ∧ Chain m (load32 m (a + OFF_NEXT)) l

/-- The free list of pool `p` consists of the blocks with indices `fl`, in this order. -/
def FreeList (p : memory_pool_t) (m : Mem) (fl : List Nat) : Prop :=
  Chain m p.free_list (fl.map (block_addr p))

/-- The state invariant of an initialised pool whose free blocks are `fl`. -/
structure PoolInv (p : memory_pool_t) (m : Mem) (fl : List Nat) : Prop where
  mutex : p.mutex = true
  geom : Geometry p
  chain : FreeList p m fl
  nodup : fl.Nodup
  in_range : ∀ i ∈ fl, i < p.block_count
  ids : ∀ i, i < p.block_count → load32 m (block_addr p i + OFF_POOL_ID) = p.pool_id
  magic_free : ∀ i ∈ fl, load32 m (block_addr p i + OFF_MAGIC) = POOL_MAGIC_FREE
  magic_alloc : ∀ i, i < p.block_count → i ∉ fl →
    load32 m (block_addr p i + OFF_MAGIC) = POOL_MAGIC_ALLOC
  bit_free : ∀ i ∈ fl, bit_at p.usage_bitmap i = false
  bit_alloc : ∀ i, i < p.block_count → i ∉ fl → bit_at p.usage_bitmap i = true
  count : p.allocated_blocks + fl.length = p.block_count
  pop : popcount p.usage_bitmap = p.allocated_blocks
  bytes : ∀ b ∈ p.usage_bitmap, b < 256

/-- The memory written by a successful `pool_malloc` on the block at `b`. -/
def malloc_mem (m : Mem) (b t : Nat) : Mem :=
  store32 (store64 (store32 m (b + OFF_MAGIC) POOL_MAGIC_ALLOC) (b + OFF_ALLOC_TIME) (t % W64))
    (b + OFF_NEXT) 0

/-- The memory written by a successful `pool_free` on the block at `b`. -/
def free_mem (m : Mem) (b head : Nat) : Mem :=
  store32 (store32 m (b + OFF_MAGIC) POOL_MAGIC_FREE) (b + OFF_NEXT) head

/-- What a successful `init_memory_pool` needs from its inputs: the three platform calls
succeed, the region handed out by the allocator lies inside the address space, and the sizes
computed from the configuration do not wrap. -/
def InitOK (config : pool_config_t) (pool_id : Nat) (env : InitEnv) : Prop :=
  0 < env.arena ∧ env.bitmap_ok = true ∧ env.mutex_ok = true ∧
  config.block_count < 2 ^ 31 ∧
  header_size + align_up config.block_size 4 < W32 ∧
  env.arena + config.block_count * total_block_size config.block_size 4 < W32 ∧
  pool_id < W32

/-! ## Sequences of calls on one pool -/

/-- Result of a sequence of `pool_malloc` calls: the returned pointers in call order and the
final pool and memory. -/
structure SeqResult where
  ptrs : List Nat
  pool : memory_pool_t
  mem : Mem

/-- Consecutive `pool_malloc` calls on one pool with no other call in between, one call per
platform answer. -/
def malloc_seq (pool : memory_pool_t) (m : Mem) : List MallocEnv → SeqResult
  | [] => ⟨[], pool, m⟩
  | env :: envs =>
    let r := pool_malloc pool m env
    let s := malloc_seq r.pool r.mem envs
    ⟨r.ptr :: s.ptrs, s.pool, s.mem⟩

/-! ## The registry and the smart allocator -/

/-- An entry of the static array `pools[POOL_COUNT]` before `app_main` runs (all zero). -/
def zero_pool : memory_pool_t :=
  { block_size := 0, block_count := 0, alignment := 0, pool_memory := 0, free_list := 0,
    usage_bitmap := [], allocated_blocks := 0, peak_usage := 0, total_allocations := 0,
    total_deallocations := 0, allocation_time_total := 0, deallocation_time_total := 0,
    allocation_failures := 0, mutex := false, pool_id := 0 }

/-- The array `pools[POOL_COUNT]`, indexed by tier. -/
abbrev Pools := Nat → memory_pool_t

/-- The assignment `pools[i] = p`. -/
def set_pool (pools : Pools) (i : Nat) (p : memory_pool_t) : Pools :=
  fun k => if k = i then p else pools k

/-- The entry `pool_configs[i]`. -/
def config_at (i : Nat) : pool_config_t := pool_configs.getD i ⟨0, 0, 0⟩

/-- The initialisation loop of `app_main`, over the tiers listed:
`init_memory_pool(&pools[i], &pool_configs[i], i + 1)`; `envs i` is what the platform answers
while tier `i` is set up.  A failed tier is skipped and the loop goes on. -/
def init_pools_loop (envs : Nat → InitEnv) : List Nat → Pools → Mem → Pools × Mem
  | [], pools, m => (pools, m)
  | i :: is, pools, m =>
    let r := init_memory_pool (config_at i) ((i + 1) % W32) (envs i) m
    init_pools_loop envs is (set_pool pools i r.pool) r.mem

/-- The loop `for (int i = 0; i < POOL_COUNT; i++)` of `app_main` on the zeroed array. -/
def init_pools (envs : Nat → InitEnv) (m : Mem) : Pools × Mem :=
  init_pools_loop envs (List.range POOL_COUNT) (fun _ => zero_pool) m

/-- What the platform answers during `smart_pool_malloc`: the answers for the `pool_malloc`
call on each tier, and the pointer returned by `heap_caps_malloc` should it be called. -/
structure SmartMallocEnv where
  pool : Nat → MallocEnv
  heap : Nat

/-- Result of `smart_pool_malloc`.  `tried` lists the tiers on which `pool_malloc` was called,
in call order, and `served_by` is the tier whose block is returned (`none` when the pointer
comes from `heap_caps_malloc`). -/
structure SmartMallocResult where
  ptr : Nat
  pools : Pools
  mem : Mem
  events : List Event
  tried : List Nat
  served_by : Option Nat

/-- The loop of `smart_pool_malloc` over the tiers listed, followed by the heap fallback. -/
def smart_pool_malloc_loop (required_size size : Nat) (env : SmartMallocEnv) :
    List Nat → Pools → Mem → SmartMallocResult
  | [], pools, m => ⟨env.heap, pools, m, [.heap_caps_malloc size], [], none⟩
  | i :: is, pools, m =>
    if required_size ≤ (pools i).block_size then
      let r := pool_malloc (pools i) m (env.pool i)
      if r.ptr ≠ 0 then
        ⟨r.ptr, set_pool pools i r.pool, r.mem,
          r.events ++ [.gpio_set_level (config_at i).led_pin 1, .task_delay 50,
            .gpio_set_level (config_at i).led_pin 0],
          [i], some i⟩
      else
        let s := smart_pool_malloc_loop required_size size env is (set_pool pools i r.pool) r.mem
        ⟨s.ptr, s.pools, s.mem, r.events ++ s.events, i :: s.tried, s.served_by⟩
    else smart_pool_malloc_loop required_size size env is pools m

/-- The function `smart_pool_malloc`. -/
def smart_pool_malloc (pools : Pools) (m : Mem) (size : Nat) (env : SmartMallocEnv) :
    SmartMallocResult :=
  smart_pool_malloc_loop ((size + 16) % W32) size env (List.range POOL_COUNT) pools m

/-- Result of `smart_pool_free`; `freed_by` is the tier whose `pool_free` returned true. -/
structure SmartFreeResult where
  ok : Bool
  pools : Pools
  mem : Mem
  events : List Event
  freed_by : Option Nat

/-- The loop of `smart_pool_free` over the tiers listed, followed by `heap_caps_free`. -/
def smart_pool_free_loop (ptr : Nat) (env : Nat → FreeEnv) :
    List Nat → Pools → Mem → SmartFreeResult
  | [], pools, m => ⟨true, pools, m, [.heap_caps_free ptr], none⟩
  | i :: is, pools, m =>
    let r := pool_free (pools i) m ptr (env i)
    if r.ok then ⟨true, set_pool pools i r.pool, r.mem, r.events, some i⟩
    else
      let s := smart_pool_free_loop ptr env is (set_pool pools i r.pool) r.mem
      ⟨s.ok, s.pools, s.mem, r.events ++ s.events, s.freed_by⟩

/-- The function `smart_pool_free`; `env i` is what the platform answers during the
`pool_free` call on tier `i`. -/
def smart_pool_free (pools : Pools) (m : Mem) (ptr : Nat) (env : Nat → FreeEnv) :
    SmartFreeResult :=
  if ptr = 0 then ⟨false, pools, m, [], none⟩
  else smart_pool_free_loop ptr env (List.range POOL_COUNT) pools m

/-! ## The integrity check -/

/-- The loop `while (current && free_count < pool->block_count)` of `check_pool_integrity`
on one free list; `remaining` is `block_count - free_count`.  Returns `pool_ok` and
`free_count`.  The counter is an `int` in the source; it never exceeds `block_count`, so it
does not overflow when `block_count < 2 ^ 31`. -/
def integrity_walk (m : Mem) (pool_id : Nat) : Nat → Nat → Nat → Bool × Nat
  | 0, _, free_count => (true, free_count)
  | remaining + 1, current, free_count =>
    if current = 0 then (true, free_count)
    else if load32 m (current + OFF_MAGIC) ≠ POOL_MAGIC_FREE ∨
        load32 m (current + OFF_POOL_ID) ≠ pool_id then (false, free_count)
    else integrity_walk m pool_id remaining (load32 m (current + OFF_NEXT)) (free_count + 1)

/-- What the loop over the tiers of `check_pool_integrity` yields: `all_ok`, the calls made,
and for every tier that passed its walk the pair (tier, `free_count`) of the log line
"free blocks verified". -/
structure CheckResult where
  all_ok : Bool
  events : List Event
  verified : List (Nat × Nat)

/-- The loop over the tiers listed; `lock i` tells whether `xSemaphoreTake` on tier `i`
returns `pdTRUE` within its 1000 ms. -/
def check_pool_loop (pools : Pools) (m : Mem) (lock : Nat → Bool) : List Nat → CheckResult
  | [] => ⟨true, [], []⟩
  | i :: is =>
    let rest := check_pool_loop pools m lock is
    if (pools i).mutex then
      if lock i then
        let w := integrity_walk m (pools i).pool_id (pools i).block_count (pools i).free_list 0
        if w.1 then
          ⟨rest.all_ok,
            [.sem_take (pools i).pool_id true, .sem_give (pools i).pool_id] ++ rest.events,
            (i, w.2) :: rest.verified⟩
        else
          ⟨false,
            [.sem_take (pools i).pool_id true, .sem_give (pools i).pool_id,
              .gpio_set_level LED_POOL_ERROR 1] ++ rest.events,
            rest.verified⟩
      else ⟨rest.all_ok, .sem_take (pools i).pool_id false :: rest.events, rest.verified⟩
    else rest

/-- Result of `check_pool_integrity`, with the pools and the memory as the call leaves
them. -/
structure IntegrityResult where
  all_ok : Bool
  pools : Pools
  mem : Mem
  events : List Event
  verified : List (Nat × Nat)

/-- The function `check_pool_integrity`. -/
def check_pool_integrity (pools : Pools) (m : Mem) (lock : Nat → Bool) : IntegrityResult :=
  let r := check_pool_loop pools m lock (List.range POOL_COUNT)
  ⟨r.all_ok, pools, m,
    r.events ++ (if r.all_ok then [.gpio_set_level LED_POOL_ERROR 0] else []), r.verified⟩

/-- The `j`-th node reached from `head` by following the `next` links, `0` once the list has
ended. -/
def nth_node (m : Mem) : Nat → Nat → Nat
  | head, 0 => head
  | head, j + 1 => if head = 0 then 0 else nth_node m (load32 m (head + OFF_NEXT)) j

/-- The node at address `a` (not `NULL`) does not carry magic FREE and the id `pool_id`. -/
def BadNode (m : Mem) (pool_id a : Nat) : Prop :=
  a ≠ 0 ∧ (load32 m (a + OFF_MAGIC) ≠ POOL_MAGIC_FREE ∨ load32 m (a + OFF_POOL_ID) ≠ pool_id)

/-! ## Lock discipline -/

/-- The lock held after a trace of calls that starts with `held` (`none`: no lock is held).
The result is `none` when the trace breaks the discipline: a lock is requested while one is
held, or a lock is released that is not the one held. -/
def lock_run : Option Nat → List Event → Option (Option Nat)
  | held, [] => some held
  | held, .sem_take id ok :: evs =>
    if held = none then lock_run (if ok then some id else none) evs else none
  | held, .sem_give id :: evs => if held = some id then lock_run none evs else none
  | held, .gpio_set_level _ _ :: evs => lock_run held evs
  | held, .task_delay _ :: evs => lock_run held evs
  | held, .heap_caps_malloc _ :: evs => lock_run held evs
  | held, .heap_caps_free _ :: evs => lock_run held evs

/-- A trace of a call that starts and ends with no lock held, takes no lock while one is
held and releases every lock it acquired. -/
def LockDiscipline (evs : List Event) : Prop := lock_run none evs = some none

/-! ## Histories of calls on the registry -/

/-- The registry together with the history the claims speak of: `live` holds the pairs
(tier, pointer) handed out by `pool_malloc` on that tier and not released since, `returned`
every non-null pointer handed out so far by `pool_malloc` or `smart_pool_malloc`. -/
structure State where
  pools : Pools
  mem : Mem
  live : List (Nat × Nat)
  returned : List Nat

/-- A call of the allocator interface together with what the platform answers during it. -/
inductive Op where
  | malloc (tier : Nat) (env : MallocEnv)
  | free (tier : Nat) (ptr : Nat) (env : FreeEnv)
  | smart_malloc (size : Nat) (env : SmartMallocEnv)
  | smart_free (ptr : Nat) (env : Nat → FreeEnv)

/-- The effect of one call. -/
def step (s : State) : Op → State
  | .malloc k env =>
    let r := pool_malloc (s.pools k) s.mem env
    ⟨set_pool s.pools k r.pool, r.mem,
      if r.ptr ≠ 0 then (k, r.ptr) :: s.live else s.live,
      if r.ptr ≠ 0 then r.ptr :: s.returned else s.returned⟩
  | .free k ptr env =>
    let r := pool_free (s.pools k) s.mem ptr env
    ⟨set_pool s.pools k r.pool, r.mem,
      if r.ok then s.live.filter (fun x => decide (x ≠ (k, ptr))) else s.live, s.returned⟩
  | .smart_malloc size env =>
    let r := smart_pool_malloc s.pools s.mem size env
    ⟨r.pools, r.mem,
      match r.served_by with
      | some k => (k, r.ptr) :: s.live
      | none => s.live,
      if r.ptr ≠ 0 then r.ptr :: s.returned else s.returned⟩
  | .smart_free ptr env =>
    let r := smart_pool_free s.pools s.mem ptr env
    ⟨r.pools, r.mem,
      match r.freed_by with
      | some k => s.live.filter (fun x => decide (x ≠ (k, ptr)))
      | none => s.live,
      s.returned⟩

/-- Address `a` lies in the arena of pool `p`. -/
def in_arena (p : memory_pool_t) (a : Nat) : Prop :=
  p.pool_memory ≤ a ∧ a < p.pool_memory + p.block_count * stride p

/-- The arenas of two pools do not overlap. -/
def ArenaSep (p q : memory_pool_t) : Prop :=
  p.pool_memory + p.block_count * stride p ≤ q.pool_memory ∨
    q.pool_memory + q.block_count * stride q ≤ p.pool_memory

/-- Assumption on the generic allocator: the header address `h - header_size` of a pointer `h`
it hands out lies in no arena of an initialised tier. -/
def HeapOK (pools : Pools) (h : Nat) : Prop :=
  ∀ k, k < POOL_COUNT → (pools k).mutex = true → ¬ in_arena (pools k) (sub32 h header_size)

/-- Pointer `ptr` is the payload address of a block of an initialised tier. -/
def BlockPtr (pools : Pools) (ptr : Nat) : Prop :=
  ∃ k i, k < POOL_COUNT ∧ (pools k).mutex = true ∧ i < (pools k).block_count ∧
    ptr = block_addr (pools k) i + header_size

/-- The calls considered: the tier exists, a pointer passed to a free operation was handed
out before by the allocator, request sizes are `size_t` values, and the generic allocator
respects the arenas. -/
def Admissible (s : State) : Op → Prop
  | .malloc k _ => k < POOL_COUNT
  | .free k ptr _ => k < POOL_COUNT ∧ ptr ∈ s.returned
  | .smart_malloc size env => size < W32 ∧ HeapOK s.pools env.heap
  | .smart_free ptr _ => ptr ∈ s.returned

/-- States reached from `s0` by admissible calls. -/
inductive Reach (s0 : State) : State → Prop
  | init : Reach s0 s0
  | step {s : State} (op : Op) : Reach s0 s → Admissible s op → Reach s0 (step s op)

/-- End of the region asked of the allocator for a tier. -/
def arena_end (c : pool_config_t) (env : InitEnv) : Nat :=
  env.arena + c.block_count * total_block_size c.block_size 4

/-- The region handed out for the arena lies in the address space and the sizes computed from
the configuration do not wrap. -/
def InitFits (c : pool_config_t) (env : InitEnv) : Prop :=
  0 < env.arena ∧ c.block_count < 2 ^ 31 ∧ header_size + align_up c.block_size 4 < W32 ∧
    arena_end c env < W32

/-- Assumptions on the platform during start-up: whenever a tier gets its arena and bitmap,
the arena lies in the address space and is disjoint from the arena of every tier initialised
successfully before. -/
def BootOK (envs : Nat → InitEnv) : Prop :=
  ∀ i, i < POOL_COUNT →
    (envs i).arena = 0 ∨ (envs i).bitmap_ok = false ∨
      (InitFits (config_at i) (envs i) ∧
        ∀ j, j < i → (envs j).arena ≠ 0 → (envs j).bitmap_ok = true →
          (envs j).mutex_ok = true →
            arena_end (config_at j) (envs j) ≤ (envs i).arena ∨
              arena_end (config_at i) (envs i) ≤ (envs j).arena)

/-- The state in which `app_main` leaves the registry. -/
def boot (envs : Nat → InitEnv) (m : Mem) : State :=
  ⟨(init_pools envs m).1, (init_pools envs m).2, [], []⟩

/-- States reachable from start-up. -/
def Reachable (s : State) : Prop :=
  ∃ envs m, BootOK envs ∧ Reach (boot envs m) s

/-- The fields of a pool that no operation after `init_memory_pool` changes. -/
def SameArena (p q : memory_pool_t) : Prop :=
  q.block_size = p.block_size ∧ q.block_count = p.block_count ∧ q.alignment = p.alignment ∧
    q.pool_memory = p.pool_memory ∧ q.mutex = p.mutex ∧ q.pool_id = p.pool_id

/-- The invariant of the pools of the registry: only tiers below `POOL_COUNT` are
initialised, the id of an initialised tier is its index plus one, it satisfies the pool
invariant with free blocks `fl k`, and the arenas of initialised tiers are pairwise
disjoint. -/
structure CoreInv (pools : Pools) (m : Mem) (fl : Nat → List Nat) : Prop where
  ids : ∀ k, (pools k).mutex = true → (pools k).pool_id = k + 1
  inv : ∀ k, k < POOL_COUNT → (pools k).mutex = true → PoolInv (pools k) m (fl k)
  sep : ∀ j k, j < POOL_COUNT → k < POOL_COUNT → j ≠ k → (pools j).mutex = true →
    (pools k).mutex = true → ArenaSep (pools j) (pools k)
  lt : ∀ k, (pools k).mutex = true → k < POOL_COUNT

/-- The invariant of a state: the pools are well formed, the live pointers are exactly the
payload addresses of the allocated blocks, and every pointer handed out is a block pointer
or a pointer of the generic allocator. -/
structure RegInv (s : State) (fl : Nat → List Nat) : Prop where
  core : CoreInv s.pools s.mem fl
  live : ∀ k ptr, (k, ptr) ∈ s.live ↔
    k < POOL_COUNT ∧ (s.pools k).mutex = true ∧
      ∃ i, i < (s.pools k).block_count ∧ i ∉ fl k ∧
        ptr = block_addr (s.pools k) i + header_size
  returned : ∀ ptr ∈ s.returned, BlockPtr s.pools ptr ∨ HeapOK s.pools ptr

/-- Loop invariant of the initialisation loop of `app_main` once the tiers below `n` are
done: the registry invariant holds, only those tiers can be initialised, an initialised
tier got its arena, bitmap and lock from the platform, its arena is the region handed out,
and all of its blocks are free. -/
structure BootInv (envs : Nat → InitEnv) (n : Nat) (pools : Pools) (m : Mem)
    (fl : Nat → List Nat) : Prop where
  core : CoreInv pools m fl
  done : ∀ j, (pools j).mutex = true →
    j < n ∧ (envs j).arena ≠ 0 ∧ (envs j).bitmap_ok = true ∧ (envs j).mutex_ok = true ∧
      (pools j).pool_memory = (envs j).arena ∧
      (pools j).pool_memory + (pools j).block_count * stride (pools j) =
        arena_end (config_at j) (envs j)
  full : ∀ j, (pools j).mutex = true → ∀ i, i < (pools j).block_count → i ∈ fl j

/-! ## A small pool for concrete instances

Two blocks of 32 bytes at address 4096 (stride 56), pool id 1, built by `init_memory_pool`
on zeroed memory.  After initialisation the free list is block 1 (at 4152), then block 0
(at 4096). -/

def demo_config : pool_config_t := ⟨32, 2, LED_SMALL_POOL⟩

def demo_init_env : InitEnv := ⟨4096, true, true⟩

def demo_init : InitResult := init_memory_pool demo_config 1 demo_init_env (fun _ => 0)

def demo_pool : memory_pool_t := demo_init.pool

def demo_mem : Mem := demo_init.mem

/-- The lock is acquired and the timer reads 10, 11, 12. -/
def demo_malloc_env : MallocEnv := ⟨true, 10, 11, 12⟩

/-- The lock is acquired and the timer reads 20, 21. -/
def demo_free_env : FreeEnv := ⟨true, 20, 21⟩

/-- The demo pool after one `pool_malloc`: block 1 is handed out at pointer 4176. -/
def demo_alloc : MallocResult := pool_malloc demo_pool demo_mem demo_malloc_env

/-- The demo memory with the magic of the free-list head (block 1, at 4152) overwritten by 0. -/
def demo_tampered_mem : Mem := store32 demo_mem (4152 + OFF_MAGIC) 0

/-- The memory of `demo_alloc` after the owner of block 1 has written, at the start of its
payload (address 4176), bytes that read as a header with magic ALLOC and pool id 1. -/
def demo_forged_mem : Mem :=
  store32 (store32 demo_alloc.mem (4176 + OFF_MAGIC) POOL_MAGIC_ALLOC) (4176 + OFF_POOL_ID) 1

/-- The demo pool after block 1 has been handed out and released again. -/
def demo_freed : FreeResult :=
  pool_free demo_alloc.pool demo_alloc.mem demo_alloc.ptr demo_free_env

/-- The memory of `demo_alloc` with bytes that read as a header with magic ALLOC and pool id 1
at address 7976, outside the arena (which ends at 4208). -/
def demo_far_mem : Mem :=
  store32 (store32 demo_alloc.mem (7976 + OFF_MAGIC) POOL_MAGIC_ALLOC) (7976 + OFF_POOL_ID) 1

/-- Start-up in which tier `i` gets the region at `65536 * (i + 1)`, its bitmap and lock. -/
def demo_boot_envs : Nat → InitEnv := fun i => ⟨65536 * (i + 1), true, true⟩

/-- The registry after start-up on zeroed memory. -/
def demo_state0 : State := boot demo_boot_envs (fun _ => 0)

/-- The registry after one `pool_malloc` on the Small tier: block 31 is handed out at
pointer 68288. -/
def demo_state1 : State := step demo_state0 (.malloc 0 demo_malloc_env)

/-- The registry after that pointer has been released again with `pool_free`. -/
def demo_state2 : State := step demo_state1 (.free 0 68288 demo_free_env)

/-- Every lock is acquired, the timer reads 10, 11, 12, and `heap_caps_malloc` answers with
address 2000000. -/
def demo_smart_env : SmartMallocEnv := ⟨fun _ => demo_malloc_env, 2000000⟩

/-- The memory of the demo registry after start-up with the magic of the free-list head of
the Small tier (block 31, at 68264) overwritten by 0. -/
def demo_tampered_registry_mem : Mem := store32 demo_state0.mem (68264 + OFF_MAGIC) 0

/-- Start-up in which the arena of the Small tier cannot be reserved and the other tiers get
the regions of `demo_boot_envs`. -/
def demo_failed_envs : Nat → InitEnv :=
  fun i => if i = 0 then ⟨0, true, true⟩ else ⟨65536 * (i + 1), true, true⟩

/-- The registry after that start-up on zeroed memory. -/
def demo_failed_state : State := boot demo_failed_envs (fun _ => 0)

instance (c : pool_config_t) (env : InitEnv) : Decidable (InitFits c env) := by
  unfold InitFits; infer_instance

instance (p : memory_pool_t) : Decidable (Geometry p) := by
  unfold Geometry; infer_instance

instance (p : memory_pool_t) (a : Nat) : Decidable (in_arena p a) := by
  unfold in_arena; infer_instance

instance (c : pool_config_t) (id : Nat) (env : InitEnv) : Decidable (InitOK c id env) := by
  unfold InitOK; infer_instance

/-! ## Memory lemmas -/

theorem sub32_eq (x y : Nat) (hx : x < W32) (h : y ≤ x) : sub32 x y = x - y := by
  unfold sub32
  rw [Nat.mod_eq_of_lt hx, Nat.mod_eq_of_lt (by omega), if_pos h]

theorem sub32_lt (x y : Nat) : sub32 x y < W32 := by
  unfold sub32
  have h1 : x % W32 < W32 := Nat.mod_lt _ (by unfold W32; norm_num)
  have h2 : y % W32 < W32 := Nat.mod_lt _ (by unfold W32; norm_num)
  split_ifs <;> omega

theorem load32_lt (m : Mem) (a : Nat) : load32 m a < W32 := by
  unfold load32 W32
  omega

theorem store32_outside (m : Mem) (a v x : Nat) (h : x < a ∨ a + 4 ≤ x) :
    store32 m a v x = m x := by
  simp only [store32, store8]
  split_ifs <;> first | rfl | omega

theorem store64_outside (m : Mem) (a v x : Nat) (h : x < a ∨ a + 8 ≤ x) :
    store64 m a v x = m x := by
  unfold store64
  rw [store32_outside _ _ _ _ (by omega), store32_outside _ _ _ _ (by omega)]

theorem load32_congr (m m' : Mem) (a : Nat) (h : ∀ x, a ≤ x → x < a + 4 → m' x = m x) :
    load32 m' a = load32 m a := by
  unfold load32
  rw [h a (by omega) (by omega), h (a + 1) (by omega) (by omega),
    h (a + 2) (by omega) (by omega), h (a + 3) (by omega) (by omega)]

theorem load32_store32_same (m : Mem) (a v : Nat) : load32 (store32 m a v) a = v % W32 := by
  simp only [load32, store32, store8, W32]
  simp
  omega

theorem load32_store32_other (m : Mem) (a v b : Nat) (h : b + 4 ≤ a ∨ a + 4 ≤ b) :
    load32 (store32 m a v) b = load32 m b := by
  apply load32_congr
  intro x h1 h2
  exact store32_outside _ _ _ _ (by omega)

theorem load32_store64_other (m : Mem) (a v b : Nat) (h : b + 4 ≤ a ∨ a + 8 ≤ b) :
    load32 (store64 m a v) b = load32 m b := by
  apply load32_congr
  intro x h1 h2
  exact store64_outside _ _ _ _ (by omega)

/-! ## Bitmap lemmas -/

theorem bitmap_set_length (bm : List Nat) (i : Nat) : (bitmap_set bm i).length = bm.length := by
  simp [bitmap_set]

theorem bitmap_clear_length (bm : List Nat) (i : Nat) :
    (bitmap_clear bm i).length = bm.length := by
  simp [bitmap_clear]

theorem bitmap_set_bytes (bm : List Nat) (i : Nat) (h : ∀ b ∈ bm, b < 256) :
    ∀ b ∈ bitmap_set bm i, b < 256 := by
  intro b hb
  unfold bitmap_set at hb
  rcases List.mem_or_eq_of_mem_set hb with hb | hb
  · exact h b hb
  · rw [hb]; exact Nat.mod_lt _ (by norm_num)

theorem bitmap_clear_bytes (bm : List Nat) (i : Nat) (h : ∀ b ∈ bm, b < 256) :
    ∀ b ∈ bitmap_clear bm i, b < 256 := by
  intro b hb
  unfold bitmap_clear at hb
  rcases List.mem_or_eq_of_mem_set hb with hb | hb
  · exact h b hb
  · rw [hb]; exact Nat.mod_lt _ (by norm_num)

theorem getD_set_same (bm : List Nat) (k v : Nat) (h : k < bm.length) :
    (bm.set k v).getD k 0 = v := by
  simp [List.getD_eq_getElem?_getD, List.getElem?_set, h]

theorem getD_set_other (bm : List Nat) (k k' v : Nat) (h : k ≠ k') :
    (bm.set k v).getD k' 0 = bm.getD k' 0 := by
  simp [List.getD_eq_getElem?_getD, List.getElem?_set, h]

theorem bit_at_bitmap_set (bm : List Nat) (i j : Nat) (h : i / 8 < bm.length) :
    bit_at (bitmap_set bm i) j = (decide (j = i) || bit_at bm j) := by
  unfold bit_at bitmap_set
  by_cases hq : i / 8 = j / 8
  · rw [← hq, getD_set_same _ _ _ h, Nat.testBit_mod_two_pow _ 8, Nat.testBit_or,
      Nat.one_shiftLeft, Nat.testBit_two_pow]
    have h8 : j % 8 < 8 := Nat.mod_lt _ (by norm_num)
    by_cases hr : i % 8 = j % 8
    · have : j = i := by omega
      simp [h8, hr, this]
    · have : j ≠ i := by intro e; exact hr (by rw [e])
      simp [h8, hr, this]
  · rw [getD_set_other _ _ _ _ hq]
    have : j ≠ i := by intro e; exact hq (by rw [e])
    simp [this]

theorem bit_at_bitmap_clear (bm : List Nat) (i j : Nat) (h : i / 8 < bm.length) :
    bit_at (bitmap_clear bm i) j = (!decide (j = i) && bit_at bm j) := by
  unfold bit_at bitmap_clear
  by_cases hq : i / 8 = j / 8
  · have h8 : j % 8 < 8 := Nat.mod_lt _ (by norm_num)
    have h8i : i % 8 < 8 := Nat.mod_lt _ (by norm_num)
    have hlt : 2 ^ (i % 8) < 2 ^ 32 :=
      Nat.pow_lt_pow_right (by norm_num) (by omega)
    have hmask : W32 - 1 - 1 <<< (i % 8) = 2 ^ 32 - (2 ^ (i % 8) + 1) := by
      rw [Nat.one_shiftLeft]; unfold W32; omega
    rw [← hq, getD_set_same _ _ _ h, Nat.testBit_mod_two_pow _ 8, Nat.testBit_and, hmask,
      Nat.testBit_two_pow_sub_succ hlt, Nat.testBit_two_pow]
    by_cases hr : i % 8 = j % 8
    · have : j = i := by omega
      simp [h8, hr, this]
    · have : j ≠ i := by intro e; exact hr (by rw [e])
      have h32 : j % 8 < 32 := by omega
      simp [h8, hr, this, h32]
  · rw [getD_set_other _ _ _ _ hq]
    have : j ≠ i := by intro e; exact hq (by rw [e])
    simp [this]

theorem countP_range_update (P Q : Nat → Bool) (n i : Nat) (hi : i < n)
    (hP : P i = false) (hQ : Q i = true) (hother : ∀ j, j ≠ i → Q j = P j) :
    (List.range n).countP Q = (List.range n).countP P + 1 := by
  induction n with
  | zero => omega
  | succ n ih =>
    rw [List.range_succ, List.countP_append, List.countP_append]
    by_cases hin : i = n
    · subst hin
      have hsame : (List.range i).countP Q = (List.range i).countP P := by
        apply List.countP_congr
        intro x hx
        have hx' : x < i := List.mem_range.mp hx
        rw [hother x (by omega)]
      simp [hsame, hP, hQ]
    · have := ih (by omega)
      have hn : Q n = P n := hother n (by omega)
      simp [this, hn, List.countP_cons]
      omega

theorem popcount_bitmap_set (bm : List Nat) (i : Nat) (hi : i < 8 * bm.length)
    (hclear : bit_at bm i = false) : popcount (bitmap_set bm i) = popcount bm + 1 := by
  have hlen : i / 8 < bm.length := by omega
  unfold popcount
  rw [bitmap_set_length]
  apply countP_range_update _ _ _ i hi hclear
  · rw [bit_at_bitmap_set _ _ _ hlen]; simp
  · intro j hj
    rw [bit_at_bitmap_set _ _ _ hlen]; simp [hj]

theorem popcount_bitmap_clear (bm : List Nat) (i : Nat) (hi : i < 8 * bm.length)
    (hset : bit_at bm i = true) : popcount (bitmap_clear bm i) + 1 = popcount bm := by
  have hlen : i / 8 < bm.length := by omega
  unfold popcount
  rw [bitmap_clear_length]
  symm
  apply countP_range_update _ _ _ i hi
  · rw [bit_at_bitmap_clear _ _ _ hlen]; simp
  · exact hset
  · intro j hj
    rw [bit_at_bitmap_clear _ _ _ hlen]; simp [hj]

theorem bit_at_replicate_zero (k i : Nat) : bit_at (List.replicate k 0) i = false := by
  unfold bit_at
  by_cases h : i / 8 < k
  · simp [List.getD_eq_getElem?_getD, List.getElem?_replicate, h]
  · simp [List.getD_eq_getElem?_getD, List.getElem?_replicate, h]

theorem popcount_replicate_zero (k : Nat) : popcount (List.replicate k 0) = 0 := by
  unfold popcount
  rw [List.countP_eq_zero]
  intro x _
  simp [bit_at_replicate_zero]

/-! ## Block addresses -/

theorem stride_eq (p : memory_pool_t) (hg : Geometry p) :
    stride p = header_size + align_up p.block_size p.alignment := by
  obtain ⟨_, h2, _⟩ := hg
  unfold stride total_block_size
  exact Nat.mod_eq_of_lt h2

theorem stride_ge (p : memory_pool_t) (hg : Geometry p) : 24 ≤ stride p := by
  rw [stride_eq p hg]; unfold header_size; omega

theorem block_addr_step (p : memory_pool_t) (i j : Nat) (h : i < j) :
    block_addr p i + stride p ≤ block_addr p j := by
  unfold block_addr
  have : (i + 1) * stride p ≤ j * stride p := Nat.mul_le_mul_right _ h
  rw [Nat.add_mul] at this
  omega

theorem block_addr_end (p : memory_pool_t) (i : Nat) (h : i < p.block_count) :
    block_addr p i + stride p ≤ p.pool_memory + p.block_count * stride p := by
  have := block_addr_step p i p.block_count h
  unfold block_addr at *
  omega

theorem block_addr_bounds (p : memory_pool_t) (hg : Geometry p) (i : Nat)
    (h : i < p.block_count) :
    p.pool_memory ≤ block_addr p i ∧ 0 < block_addr p i ∧ block_addr p i + 24 < W32 := by
  have h1 := block_addr_end p i h
  have h2 := stride_ge p hg
  obtain ⟨h3, _, h4, _⟩ := hg
  have h5 : p.pool_memory ≤ block_addr p i := by unfold block_addr; omega
  omega

theorem block_addr_sep (p : memory_pool_t) (hg : Geometry p) (i j : Nat) (h : i ≠ j) :
    block_addr p i + 24 ≤ block_addr p j ∨ block_addr p j + 24 ≤ block_addr p i := by
  have h2 := stride_ge p hg
  rcases Nat.lt_or_gt_of_ne h with h | h
  · left; have := block_addr_step p i j h; omega
  · right; have := block_addr_step p j i h; omega

theorem block_addr_inj (p : memory_pool_t) (hg : Geometry p) (i j : Nat)
    (h : block_addr p i = block_addr p j) : i = j := by
  by_contra hne
  have := block_addr_sep p hg i j hne
  omega

theorem block_index_eq (p : memory_pool_t) (hg : Geometry p) (i : Nat)
    (h : i < p.block_count) :
    sub32 (block_addr p i) p.pool_memory / stride p = i := by
  have hb := block_addr_bounds p hg i h
  have hs := stride_ge p hg
  have e2 : block_addr p i - p.pool_memory = i * stride p := by
    unfold block_addr; omega
  rw [sub32_eq _ _ (by omega) hb.1, e2]
  exact Nat.mul_div_cancel _ (by omega)

/-! ## Header writes -/

theorem malloc_mem_outside (m : Mem) (b t x : Nat) (h : x < b ∨ b + 24 ≤ x) :
    malloc_mem m b t x = m x := by
  unfold malloc_mem OFF_MAGIC OFF_ALLOC_TIME OFF_NEXT
  rw [store32_outside _ _ _ _ (by omega), store64_outside _ _ _ _ (by omega),
    store32_outside _ _ _ _ (by omega)]

theorem malloc_mem_next (m : Mem) (b t : Nat) : load32 (malloc_mem m b t) (b + OFF_NEXT) = 0 := by
  unfold malloc_mem
  rw [load32_store32_same]; rfl

theorem malloc_mem_magic (m : Mem) (b t : Nat) :
    load32 (malloc_mem m b t) (b + OFF_MAGIC) = POOL_MAGIC_ALLOC := by
  unfold malloc_mem OFF_MAGIC OFF_ALLOC_TIME OFF_NEXT
  rw [load32_store32_other _ _ _ _ (by omega), load32_store64_other _ _ _ _ (by omega),
    load32_store32_same]
  rfl

theorem malloc_mem_load_other (m : Mem) (b t a : Nat)
    (h : a + 4 ≤ b ∨ b + 24 ≤ a ∨ a = b + OFF_POOL_ID) :
    load32 (malloc_mem m b t) a = load32 m a := by
  unfold malloc_mem OFF_MAGIC OFF_ALLOC_TIME OFF_NEXT
  unfold OFF_POOL_ID at h
  rw [load32_store32_other _ _ _ _ (by omega), load32_store64_other _ _ _ _ (by omega),
    load32_store32_other _ _ _ _ (by omega)]

theorem free_mem_outside (m : Mem) (b head x : Nat) (h : x < b ∨ b + 8 ≤ x) :
    free_mem m b head x = m x := by
  unfold free_mem OFF_MAGIC OFF_NEXT
  rw [store32_outside _ _ _ _ (by omega), store32_outside _ _ _ _ (by omega)]

theorem free_mem_next (m : Mem) (b head : Nat) (h : head < W32) :
    load32 (free_mem m b head) (b + OFF_NEXT) = head := by
  unfold free_mem
  rw [load32_store32_same]; exact Nat.mod_eq_of_lt h

theorem free_mem_magic (m : Mem) (b head : Nat) :
    load32 (free_mem m b head) (b + OFF_MAGIC) = POOL_MAGIC_FREE := by
  unfold free_mem OFF_MAGIC OFF_NEXT
  rw [load32_store32_other _ _ _ _ (by omega), load32_store32_same]
  rfl

theorem free_mem_load_other (m : Mem) (b head a : Nat) (h : a + 4 ≤ b ∨ b + 8 ≤ a) :
    load32 (free_mem m b head) a = load32 m a := by
  unfold free_mem OFF_MAGIC OFF_NEXT
  rw [load32_store32_other _ _ _ _ (by omega), load32_store32_other _ _ _ _ (by omega)]

/-! ## The paths of `pool_malloc` -/

theorem pool_malloc_success_eq (p : memory_pool_t) (m : Mem) (env : MallocEnv) (i : Nat)
    (hmx : p.mutex = true) (hg : Geometry p) (hl : env.lock = true)
    (hi : i < p.block_count) (hh : p.free_list = block_addr p i)
    (hmagic : load32 m (block_addr p i + OFF_MAGIC) = POOL_MAGIC_FREE)
    (hid : load32 m (block_addr p i + OFF_POOL_ID) = p.pool_id) :
    pool_malloc p m env =
      ⟨block_addr p i + header_size,
        { p with
          free_list := load32 m (block_addr p i + OFF_NEXT)
          allocated_blocks := (p.allocated_blocks + 1) % W32
          peak_usage :=
            if (p.allocated_blocks + 1) % W32 > p.peak_usage then (p.allocated_blocks + 1) % W32
            else p.peak_usage
          total_allocations := (p.total_allocations + 1) % W64
          usage_bitmap := bitmap_set p.usage_bitmap i
          allocation_time_total := elapsed p.allocation_time_total env.t_start env.t_end },
        malloc_mem m (block_addr p i) env.t_alloc,
        [.sem_take p.pool_id true, .sem_give p.pool_id]⟩ := by
  have hb := block_addr_bounds p hg i hi
  have hidx := block_index_eq p hg i hi
  have hne : block_addr p i ≠ 0 := by omega
  have hptr : (block_addr p i + header_size) % W32 = block_addr p i + header_size :=
    Nat.mod_eq_of_lt (by unfold header_size; omega)
  unfold stride at hidx
  simp only [pool_malloc, hmx, hl, hh, hmagic, hid, hne, hidx, hi, hptr, malloc_mem, elapsed]
  simp
  exact hne

theorem pool_malloc_exhausted_eq (p : memory_pool_t) (m : Mem) (env : MallocEnv)
    (hmx : p.mutex = true) (hl : env.lock = true) (hh : p.free_list = 0) :
    pool_malloc p m env =
      ⟨0,
        { p with
          allocation_failures := (p.allocation_failures + 1) % W32
          allocation_time_total := elapsed p.allocation_time_total env.t_start env.t_end },
        m,
        [.sem_take p.pool_id true, .gpio_set_level LED_POOL_FULL 1, .sem_give p.pool_id]⟩ := by
  simp [pool_malloc, hmx, hl, hh, elapsed]

theorem pool_malloc_corrupt_eq (p : memory_pool_t) (m : Mem) (env : MallocEnv)
    (hmx : p.mutex = true) (hl : env.lock = true) (hh : p.free_list ≠ 0)
    (hbad : load32 m (p.free_list + OFF_MAGIC) ≠ POOL_MAGIC_FREE ∨
      load32 m (p.free_list + OFF_POOL_ID) ≠ p.pool_id) :
    pool_malloc p m env =
      ⟨0, { p with free_list := load32 m (p.free_list + OFF_NEXT) }, m,
        [.sem_take p.pool_id true, .gpio_set_level LED_POOL_ERROR 1,
          .sem_give p.pool_id]⟩ := by
  unfold pool_malloc
  rw [if_neg (by simp [hmx]), if_pos hl, if_pos hh, if_pos hbad]

/-! ## The paths of `pool_free` -/

theorem pool_free_success_eq (p : memory_pool_t) (m : Mem) (env : FreeEnv) (i : Nat)
    (hmx : p.mutex = true) (hg : Geometry p) (hl : env.lock = true)
    (hi : i < p.block_count)
    (hmagic : load32 m (block_addr p i + OFF_MAGIC) = POOL_MAGIC_ALLOC)
    (hid : load32 m (block_addr p i + OFF_POOL_ID) = p.pool_id) :
    pool_free p m (block_addr p i + header_size) env =
      ⟨true,
        { p with
          usage_bitmap := bitmap_clear p.usage_bitmap i
          free_list := block_addr p i
          allocated_blocks := sub32 p.allocated_blocks 1
          total_deallocations := (p.total_deallocations + 1) % W64
          deallocation_time_total :=
            elapsed p.deallocation_time_total env.t_start env.t_end },
        free_mem m (block_addr p i) p.free_list,
        [.sem_take p.pool_id true, .sem_give p.pool_id]⟩ := by
  have hb := block_addr_bounds p hg i hi
  have hidx := block_index_eq p hg i hi
  have hend := block_addr_end p i hi
  have hs := stride_ge p hg
  obtain ⟨_, _, hfit, _, _⟩ := hg
  have hptr : block_addr p i + header_size ≠ 0 := by unfold header_size; omega
  have hblk : sub32 (block_addr p i + header_size) header_size = block_addr p i := by
    rw [sub32_eq _ _ (by unfold header_size; omega) (by omega)]; omega
  have hmul : (stride p * p.block_count) % W32 = p.block_count * stride p := by
    rw [Nat.mul_comm]; exact Nat.mod_eq_of_lt (by omega)
  have hsum : (p.pool_memory + p.block_count * stride p) % W32 =
      p.pool_memory + p.block_count * stride p := Nat.mod_eq_of_lt hfit
  have hin : block_addr p i ≥ p.pool_memory ∧
      block_addr p i < p.pool_memory + p.block_count * stride p := by omega
  unfold stride at hidx hmul hsum hin
  simp only [pool_free, hmx, hl, hptr, hblk, hmagic, hid, hmul, hsum, hin, hidx, hi, free_mem,
    elapsed]
  simp

theorem pool_free_reject_eq (p : memory_pool_t) (m : Mem) (env : FreeEnv) (ptr : Nat)
    (hmx : p.mutex = true) (hl : env.lock = true) (hptr : ptr ≠ 0)
    (hbad : load32 m (sub32 ptr header_size + OFF_MAGIC) ≠ POOL_MAGIC_ALLOC ∨
      load32 m (sub32 ptr header_size + OFF_POOL_ID) ≠ p.pool_id) :
    pool_free p m ptr env =
      ⟨false, p, m,
        [.sem_take p.pool_id true, .gpio_set_level LED_POOL_ERROR 1,
          .sem_give p.pool_id]⟩ := by
  unfold pool_free
  rw [if_neg (by simp [hmx, hptr]), if_pos hl, if_pos hbad]

/-! ## Free-list chains -/

theorem Chain_congr (m m' : Mem) (l : List Nat) :
    ∀ h, (∀ a ∈ l, load32 m' (a + OFF_NEXT) = load32 m (a + OFF_NEXT)) →
      Chain m h l → Chain m' h l := by
  induction l with
  | nil => intro h _ hc; exact hc
  | cons a l ih =>
    intro h hl hc
    obtain ⟨h1, h2, h3⟩ := hc
    refine ⟨h1, h2, ?_⟩
    rw [hl a (List.mem_cons_self _ _)]
    exact ih _ (fun b hb => hl b (List.mem_cons_of_mem _ hb)) h3

theorem Chain_unique (m : Mem) (l : List Nat) :
    ∀ h l', Chain m h l → Chain m h l' → l = l' := by
  induction l with
  | nil =>
    intro h l' hc hc'
    cases l' with
    | nil => rfl
    | cons b l' =>
      obtain ⟨h1, h2, _⟩ := hc'
      have h0 : h = 0 := hc
      omega
  | cons a l ih =>
    intro h l' hc hc'
    obtain ⟨h1, h2, h3⟩ := hc
    cases l' with
    | nil =>
      have h0 : h = 0 := hc'
      omega
    | cons b l' =>
      obtain ⟨h1', _, h3'⟩ := hc'
      have hab : a = b := by omega
      subst hab
      rw [ih _ _ h3 h3']

theorem FreeList_head_lt (p : memory_pool_t) (m : Mem) (fl : List Nat) (hg : Geometry p)
    (hr : ∀ i ∈ fl, i < p.block_count) (hc : FreeList p m fl) : p.free_list < W32 := by
  cases fl with
  | nil =>
    have h0 : p.free_list = 0 := hc
    rw [h0]; unfold W32; norm_num
  | cons i fl =>
    obtain ⟨h1, _, _⟩ := hc
    have := block_addr_bounds p hg i (hr i (List.mem_cons_self _ _))
    omega

theorem nodup_length_le (l : List Nat) (n : Nat) (hn : l.Nodup) (hr : ∀ i ∈ l, i < n) :
    l.length ≤ n := by
  have hsub : l.toFinset ⊆ Finset.range n := by
    intro x hx
    rw [List.mem_toFinset] at hx
    exact Finset.mem_range.mpr (hr x hx)
  have := Finset.card_le_card hsub
  rw [List.toFinset_card_of_nodup hn, Finset.card_range] at this
  exact this

/-! ## The pool invariant -/

theorem load32_arena_congr (p : memory_pool_t) (hg : Geometry p) (m m' : Mem) (i off : Nat)
    (hi : i < p.block_count) (hoff : off + 4 ≤ 24)
    (hm : ∀ x, p.pool_memory ≤ x → x < p.pool_memory + p.block_count * stride p →
      m' x = m x) :
    load32 m' (block_addr p i + off) = load32 m (block_addr p i + off) := by
  have hb := block_addr_bounds p hg i hi
  have hend := block_addr_end p i hi
  have hs := stride_ge p hg
  apply load32_congr
  intro x h1 h2
  exact hm x (by omega) (by omega)

theorem PoolInv_frame (p p' : memory_pool_t) (m m' : Mem) (fl : List Nat)
    (h : PoolInv p m fl)
    (h1 : p'.block_size = p.block_size) (h2 : p'.block_count = p.block_count)
    (h3 : p'.alignment = p.alignment) (h4 : p'.pool_memory = p.pool_memory)
    (h5 : p'.free_list = p.free_list) (h6 : p'.usage_bitmap = p.usage_bitmap)
    (h7 : p'.allocated_blocks = p.allocated_blocks) (h8 : p'.mutex = p.mutex)
    (h9 : p'.pool_id = p.pool_id)
    (hm : ∀ x, p.pool_memory ≤ x → x < p.pool_memory + p.block_count * stride p →
      m' x = m x) :
    PoolInv p' m' fl := by
  have hs : stride p' = stride p := by unfold stride; rw [h1, h3]
  have hb : ∀ i, block_addr p' i = block_addr p i := by
    intro i; unfold block_addr; rw [h4, hs]
  have hbf : block_addr p' = block_addr p := funext hb
  have hg := h.geom
  constructor
  · rw [h8]; exact h.mutex
  · unfold Geometry; rw [h4, h1, h3, h2, hs, h9, h6]; exact hg
  · unfold FreeList; rw [h5, hbf]
    apply Chain_congr m m' _ _ _ h.chain
    intro a ha
    obtain ⟨j, hj, rfl⟩ := List.mem_map.mp ha
    exact load32_arena_congr p hg m m' j OFF_NEXT (h.in_range j hj) (by decide) hm
  · exact h.nodup
  · intro i hi; rw [h2]; exact h.in_range i hi
  · intro i hi; rw [h2] at hi
    rw [hb, h9, load32_arena_congr p hg m m' i OFF_POOL_ID hi (by decide) hm]
    exact h.ids i hi
  · intro i hi
    rw [hb, load32_arena_congr p hg m m' i OFF_MAGIC (h.in_range i hi) (by decide) hm]
    exact h.magic_free i hi
  · intro i hi hn; rw [h2] at hi
    rw [hb, load32_arena_congr p hg m m' i OFF_MAGIC hi (by decide) hm]
    exact h.magic_alloc i hi hn
  · intro i hi; rw [h6]; exact h.bit_free i hi
  · intro i hi hn; rw [h2] at hi; rw [h6]; exact h.bit_alloc i hi hn
  · rw [h7, h2]; exact h.count
  · rw [h6, h7]; exact h.pop
  · rw [h6]; exact h.bytes

theorem block_count_lt (p : memory_pool_t) (hg : Geometry p) : p.block_count < W32 := by
  have hs := stride_ge p hg
  obtain ⟨_, _, hfit, _, _⟩ := hg
  have : p.block_count * 1 ≤ p.block_count * stride p := Nat.mul_le_mul_left _ (by omega)
  omega

theorem PoolInv_malloc (p : memory_pool_t) (m : Mem) (env : MallocEnv) (i : Nat)
    (fl : List Nat) (h : PoolInv p m (i :: fl)) (hl : env.lock = true) :
    (pool_malloc p m env).ptr = block_addr p i + header_size ∧
      PoolInv (pool_malloc p m env).pool (pool_malloc p m env).mem fl := by
  have hg := h.geom
  have hi : i < p.block_count := h.in_range i (List.mem_cons_self _ _)
  obtain ⟨hh, _, hch⟩ := h.chain
  have hnd := List.nodup_cons.mp h.nodup
  rw [pool_malloc_success_eq p m env i h.mutex hg hl hi hh
    (h.magic_free i (List.mem_cons_self _ _)) (h.ids i hi)]
  refine ⟨rfl, ?_⟩
  have hlen : p.usage_bitmap.length = (p.block_count + 7) / 8 := hg.2.2.2.2
  have hne : ∀ j ∈ fl, j ≠ i := fun j hj e => hnd.1 (e ▸ hj)
  have hother : ∀ j, j ≠ i → ∀ off, off + 4 ≤ 24 →
      load32 (malloc_mem m (block_addr p i) env.t_alloc) (block_addr p j + off) =
        load32 m (block_addr p j + off) := by
    intro j hj off hoff
    have := block_addr_sep p hg i j (Ne.symm hj)
    exact malloc_mem_load_other _ _ _ _ (by omega)
  constructor
  · exact h.mutex
  · obtain ⟨g1, g2, g3, g4, g5⟩ := hg
    exact ⟨g1, g2, g3, g4, by simp only [bitmap_set_length]; exact g5⟩
  · show Chain _ (load32 m (block_addr p i + OFF_NEXT)) (fl.map (block_addr p))
    apply Chain_congr m _ _ _ _ hch
    intro a ha
    obtain ⟨j, hj, rfl⟩ := List.mem_map.mp ha
    exact hother j (hne j hj) OFF_NEXT (by decide)
  · exact hnd.2
  · intro j hj; exact h.in_range j (List.mem_cons_of_mem _ hj)
  · intro j hj
    show load32 (malloc_mem m (block_addr p i) env.t_alloc) (block_addr p j + OFF_POOL_ID) = _
    by_cases e : j = i
    · rw [e, malloc_mem_load_other _ _ _ _ (Or.inr (Or.inr rfl))]; exact h.ids i hi
    · rw [hother j e OFF_POOL_ID (by decide)]; exact h.ids j hj
  · intro j hj
    show load32 (malloc_mem m (block_addr p i) env.t_alloc) (block_addr p j + OFF_MAGIC) = _
    rw [hother j (hne j hj) OFF_MAGIC (by decide)]
    exact h.magic_free j (List.mem_cons_of_mem _ hj)
  · intro j hj hn
    show load32 (malloc_mem m (block_addr p i) env.t_alloc) (block_addr p j + OFF_MAGIC) = _
    by_cases e : j = i
    · rw [e]; exact malloc_mem_magic _ _ _
    · rw [hother j e OFF_MAGIC (by decide)]
      exact h.magic_alloc j hj (by simp [e, hn])
  · intro j hj
    show bit_at (bitmap_set p.usage_bitmap i) j = false
    rw [bit_at_bitmap_set _ _ _ (by omega), h.bit_free j (List.mem_cons_of_mem _ hj)]
    simp [hne j hj]
  · intro j hj hn
    show bit_at (bitmap_set p.usage_bitmap i) j = true
    rw [bit_at_bitmap_set _ _ _ (by omega)]
    by_cases e : j = i
    · simp [e]
    · rw [h.bit_alloc j hj (by simp [e, hn])]; simp
  · show (p.allocated_blocks + 1) % W32 + fl.length = p.block_count
    have hc := h.count
    have hlt := block_count_lt p hg
    simp only [List.length_cons] at hc
    rw [Nat.mod_eq_of_lt (by omega)]; omega
  · show popcount (bitmap_set p.usage_bitmap i) = (p.allocated_blocks + 1) % W32
    have hc := h.count
    have hlt := block_count_lt p hg
    simp only [List.length_cons] at hc
    rw [Nat.mod_eq_of_lt (by omega),
      popcount_bitmap_set _ _ (by omega) (h.bit_free i (List.mem_cons_self _ _)), h.pop]
  · intro b hb
    exact bitmap_set_bytes _ _ h.bytes b hb

theorem PoolInv_malloc_empty (p : memory_pool_t) (m : Mem) (env : MallocEnv)
    (h : PoolInv p m []) (hl : env.lock = true) :
    pool_malloc p m env =
      ⟨0,
        { p with
          allocation_failures := (p.allocation_failures + 1) % W32
          allocation_time_total := elapsed p.allocation_time_total env.t_start env.t_end },
        m,
        [.sem_take p.pool_id true, .gpio_set_level LED_POOL_FULL 1, .sem_give p.pool_id]⟩ :=
  pool_malloc_exhausted_eq p m env h.mutex hl h.chain

theorem PoolInv_free (p : memory_pool_t) (m : Mem) (env : FreeEnv) (i : Nat)
    (fl : List Nat) (h : PoolInv p m fl) (hl : env.lock = true)
    (hi : i < p.block_count) (hn : i ∉ fl) :
    (pool_free p m (block_addr p i + header_size) env).ok = true ∧
      PoolInv (pool_free p m (block_addr p i + header_size) env).pool
        (pool_free p m (block_addr p i + header_size) env).mem (i :: fl) := by
  have hg := h.geom
  rw [pool_free_success_eq p m env i h.mutex hg hl hi (h.magic_alloc i hi hn) (h.ids i hi)]
  refine ⟨rfl, ?_⟩
  have hlen : p.usage_bitmap.length = (p.block_count + 7) / 8 := hg.2.2.2.2
  have hne : ∀ j ∈ fl, j ≠ i := fun j hj e => hn (e ▸ hj)
  have hb := block_addr_bounds p hg i hi
  have hother : ∀ j, j ≠ i → ∀ off, off + 4 ≤ 24 →
      load32 (free_mem m (block_addr p i) p.free_list) (block_addr p j + off) =
        load32 m (block_addr p j + off) := by
    intro j hj off hoff
    have := block_addr_sep p hg i j (Ne.symm hj)
    exact free_mem_load_other _ _ _ _ (by omega)
  have hnd : (i :: fl).Nodup := List.nodup_cons.mpr ⟨hn, h.nodup⟩
  have hr : ∀ j ∈ i :: fl, j < p.block_count := by
    intro j hj
    rcases List.mem_cons.mp hj with e | hj
    · rw [e]; exact hi
    · exact h.in_range j hj
  have hcard := nodup_length_le _ _ hnd hr
  simp only [List.length_cons] at hcard
  have hc := h.count
  have hlt := block_count_lt p hg
  constructor
  · exact h.mutex
  · obtain ⟨g1, g2, g3, g4, g5⟩ := hg
    exact ⟨g1, g2, g3, g4, by simp only [bitmap_clear_length]; exact g5⟩
  · show Chain _ (block_addr p i) ((i :: fl).map (block_addr p))
    refine ⟨rfl, by omega, ?_⟩
    rw [free_mem_next _ _ _ (FreeList_head_lt p m fl hg h.in_range h.chain)]
    apply Chain_congr m _ _ _ _ h.chain
    intro a ha
    obtain ⟨j, hj, rfl⟩ := List.mem_map.mp ha
    exact hother j (hne j hj) OFF_NEXT (by decide)
  · exact hnd
  · exact hr
  · intro j hj
    show load32 (free_mem m (block_addr p i) p.free_list) (block_addr p j + OFF_POOL_ID) = _
    rw [free_mem_load_other _ _ _ _ (by
      by_cases e : j = i
      · rw [e]; right; unfold OFF_POOL_ID; omega
      · have := block_addr_sep p hg i j (Ne.symm e)
        unfold OFF_POOL_ID; omega)]
    exact h.ids j hj
  · intro j hj
    show load32 (free_mem m (block_addr p i) p.free_list) (block_addr p j + OFF_MAGIC) = _
    rcases List.mem_cons.mp hj with e | hj
    · rw [e]; exact free_mem_magic _ _ _
    · rw [hother j (hne j hj) OFF_MAGIC (by decide)]; exact h.magic_free j hj
  · intro j hj hnj
    show load32 (free_mem m (block_addr p i) p.free_list) (block_addr p j + OFF_MAGIC) = _
    have e : j ≠ i := fun e => hnj (e ▸ List.mem_cons_self _ _)
    rw [hother j e OFF_MAGIC (by decide)]
    exact h.magic_alloc j hj (fun hm => hnj (List.mem_cons_of_mem _ hm))
  · intro j hj
    show bit_at (bitmap_clear p.usage_bitmap i) j = false
    rw [bit_at_bitmap_clear _ _ _ (by omega)]
    rcases List.mem_cons.mp hj with e | hj
    · simp [e]
    · rw [h.bit_free j hj]; simp
  · intro j hj hnj
    show bit_at (bitmap_clear p.usage_bitmap i) j = true
    have e : j ≠ i := fun e => hnj (e ▸ List.mem_cons_self _ _)
    rw [bit_at_bitmap_clear _ _ _ (by omega),
      h.bit_alloc j hj (fun hm => hnj (List.mem_cons_of_mem _ hm))]
    simp [e]
  · show sub32 p.allocated_blocks 1 + (i :: fl).length = p.block_count
    rw [sub32_eq _ _ (by omega) (by omega)]
    simp only [List.length_cons]; omega
  · show popcount (bitmap_clear p.usage_bitmap i) = sub32 p.allocated_blocks 1
    have := popcount_bitmap_clear p.usage_bitmap i (by omega) (h.bit_alloc i hi hn)
    rw [sub32_eq _ _ (by omega) (by omega)]
    have hp := h.pop
    omega
  · intro b hb
    exact bitmap_clear_bytes _ _ h.bytes b hb

theorem PoolInv_free_double (p : memory_pool_t) (m : Mem) (env : FreeEnv) (i : Nat)
    (fl : List Nat) (h : PoolInv p m fl) (hl : env.lock = true) (hi : i ∈ fl) :
    pool_free p m (block_addr p i + header_size) env =
      ⟨false, p, m,
        [.sem_take p.pool_id true, .gpio_set_level LED_POOL_ERROR 1,
          .sem_give p.pool_id]⟩ := by
  have hb := block_addr_bounds p h.geom i (h.in_range i hi)
  have hblk : sub32 (block_addr p i + header_size) header_size = block_addr p i := by
    rw [sub32_eq _ _ (by unfold header_size; omega) (by omega)]; omega
  apply pool_free_reject_eq p m env _ h.mutex hl (by unfold header_size; omega)
  left
  rw [hblk, h.magic_free i hi]
  decide

/-! ## Initialisation -/

/-- The header written by one iteration of the loop of `init_memory_pool`. -/
theorem init_block_eq (arena tbs id : Nat) (s : Nat × Mem) (i : Nat)
    (hfit : arena + i * tbs + 24 ≤ W32) :
    init_block arena tbs id s i =
      (arena + i * tbs,
        store32 (store64 (store32 (store32 s.2 (arena + i * tbs + OFF_MAGIC) POOL_MAGIC_FREE)
          (arena + i * tbs + OFF_POOL_ID) id) (arena + i * tbs + OFF_ALLOC_TIME) 0)
          (arena + i * tbs + OFF_NEXT) s.1) := by
  have h1 : (i * tbs) % W32 = i * tbs := Nat.mod_eq_of_lt (by omega)
  have h2 : (arena + i * tbs) % W32 = arena + i * tbs := Nat.mod_eq_of_lt (by omega)
  simp only [init_block, h1, h2]

theorem init_loop_spec (arena tbs id : Nat) (m : Mem) (n : Nat) (htbs : 24 ≤ tbs)
    (harena : 0 < arena) (hfit : arena + n * tbs < W32) (hid : id < W32) :
    ∀ k, k ≤ n →
      Chain ((List.range k).foldl (init_block arena tbs id) (0, m)).2
          ((List.range k).foldl (init_block arena tbs id) (0, m)).1
          ((List.range k).reverse.map (fun i => arena + i * tbs)) ∧
        ((List.range k).foldl (init_block arena tbs id) (0, m)).1 < W32 ∧
        (∀ i, i < k →
          load32 ((List.range k).foldl (init_block arena tbs id) (0, m)).2
              (arena + i * tbs + OFF_MAGIC) = POOL_MAGIC_FREE ∧
            load32 ((List.range k).foldl (init_block arena tbs id) (0, m)).2
              (arena + i * tbs + OFF_POOL_ID) = id) ∧
        (∀ x, x < arena ∨ arena + k * tbs ≤ x →
          ((List.range k).foldl (init_block arena tbs id) (0, m)).2 x = m x) := by
  intro k
  induction k with
  | zero =>
    intro _
    refine ⟨rfl, by unfold W32; norm_num, fun i hi => absurd hi (Nat.not_lt_zero _), fun x _ => rfl⟩
  | succ k ih =>
    intro hk
    obtain ⟨hch, hlt, hhdr, hout⟩ := ih (by omega)
    have hmul : (k + 1) * tbs ≤ n * tbs := Nat.mul_le_mul_right _ hk
    rw [Nat.add_mul] at hmul
    have hb : arena + k * tbs + 24 ≤ W32 := by omega
    rw [List.range_succ, List.foldl_append, List.foldl_cons, List.foldl_nil,
      init_block_eq _ _ _ _ _ hb]
    generalize (List.range k).foldl (init_block arena tbs id) (0, m) = s at hch hlt hhdr hout
    have hsep : ∀ i, i < k → arena + i * tbs + 24 ≤ arena + k * tbs := by
      intro i hi
      have : (i + 1) * tbs ≤ k * tbs := Nat.mul_le_mul_right _ hi
      rw [Nat.add_mul] at this
      omega
    have hother : ∀ i, i < k → ∀ off, off + 4 ≤ 24 →
        load32 (store32 (store64 (store32 (store32 s.2 (arena + k * tbs + OFF_MAGIC)
          POOL_MAGIC_FREE) (arena + k * tbs + OFF_POOL_ID) id)
          (arena + k * tbs + OFF_ALLOC_TIME) 0) (arena + k * tbs + OFF_NEXT) s.1)
          (arena + i * tbs + off) = load32 s.2 (arena + i * tbs + off) := by
      intro i hi off hoff
      have := hsep i hi
      unfold OFF_MAGIC OFF_POOL_ID OFF_ALLOC_TIME OFF_NEXT
      rw [load32_store32_other _ _ _ _ (by omega), load32_store64_other _ _ _ _ (by omega),
        load32_store32_other _ _ _ _ (by omega), load32_store32_other _ _ _ _ (by omega)]
    refine ⟨?_, by simp only; omega, ?_, ?_⟩
    · simp only [List.reverse_append, List.reverse_cons, List.reverse_nil, List.nil_append,
        List.singleton_append, List.map_cons]
      refine ⟨rfl, by omega, ?_⟩
      rw [load32_store32_same, Nat.mod_eq_of_lt hlt]
      apply Chain_congr s.2 _ _ _ _ hch
      intro a ha
      obtain ⟨j, hj, rfl⟩ := List.mem_map.mp ha
      have hjk : j < k := List.mem_range.mp (List.mem_reverse.mp hj)
      exact hother j hjk OFF_NEXT (by decide)
    · intro i hi
      by_cases e : i = k
      · subst e
        constructor
        · unfold OFF_MAGIC OFF_POOL_ID OFF_ALLOC_TIME OFF_NEXT
          rw [load32_store32_other _ _ _ _ (by omega), load32_store64_other _ _ _ _ (by omega),
            load32_store32_other _ _ _ _ (by omega), load32_store32_same]
          rfl
        · unfold OFF_MAGIC OFF_POOL_ID OFF_ALLOC_TIME OFF_NEXT
          rw [load32_store32_other _ _ _ _ (by omega), load32_store64_other _ _ _ _ (by omega),
            load32_store32_same]
          exact Nat.mod_eq_of_lt hid
      · have hik : i < k := by omega
        rw [hother i hik OFF_MAGIC (by decide), hother i hik OFF_POOL_ID (by decide)]
        exact hhdr i hik
    · intro x hx
      have hx' : x < arena ∨ arena + k * tbs + 24 ≤ x := by
        rcases hx with hx | hx
        · left; exact hx
        · right; rw [Nat.add_mul] at hx; omega
      unfold OFF_MAGIC OFF_POOL_ID OFF_ALLOC_TIME OFF_NEXT
      simp only
      rw [store32_outside _ _ _ _ (by omega), store64_outside _ _ _ _ (by omega),
        store32_outside _ _ _ _ (by omega), store32_outside _ _ _ _ (by omega)]
      exact hout x (by omega)

theorem PoolInv_of_init (p : memory_pool_t) (m : Mem) (hmx : p.mutex = true)
    (hg : Geometry p) (hbm : p.usage_bitmap = List.replicate ((p.block_count + 7) / 8) 0)
    (hal : p.allocated_blocks = 0)
    (hfl : p.free_list =
      ((List.range p.block_count).foldl (init_block p.pool_memory (stride p) p.pool_id)
        (0, m)).1) :
    PoolInv p
        ((List.range p.block_count).foldl (init_block p.pool_memory (stride p) p.pool_id)
          (0, m)).2
        (List.range p.block_count).reverse ∧
      ∀ x, x < p.pool_memory ∨ p.pool_memory + p.block_count * stride p ≤ x →
        ((List.range p.block_count).foldl (init_block p.pool_memory (stride p) p.pool_id)
          (0, m)).2 x = m x := by
  have hs := stride_ge p hg
  obtain ⟨g1, g2, g3, g4, g5⟩ := hg
  obtain ⟨hch, _, hhdr, hout⟩ :=
    init_loop_spec p.pool_memory (stride p) p.pool_id m p.block_count hs g1 g3 g4
      p.block_count (Nat.le_refl _)
  refine ⟨?_, hout⟩
  have hmem : ∀ i, i ∈ (List.range p.block_count).reverse ↔ i < p.block_count := by
    intro i; rw [List.mem_reverse, List.mem_range]
  constructor
  · exact hmx
  · exact ⟨g1, g2, g3, g4, g5⟩
  · unfold FreeList
    rw [hfl]
    exact hch
  · exact List.nodup_reverse.mpr (List.nodup_range _)
  · intro i hi; exact (hmem i).mp hi
  · intro i hi; exact (hhdr i hi).2
  · intro i hi; exact (hhdr i ((hmem i).mp hi)).1
  · intro i hi hn; exact absurd ((hmem i).mpr hi) hn
  · intro i _; rw [hbm]; exact bit_at_replicate_zero _ _
  · intro i hi hn; exact absurd ((hmem i).mpr hi) hn
  · rw [hal, List.length_reverse, List.length_range]; omega
  · rw [hbm, hal]; exact popcount_replicate_zero _
  · intro b hb
    rw [hbm] at hb
    rw [(List.mem_replicate.mp hb).2]; norm_num

theorem init_memory_pool_eq (c : pool_config_t) (id : Nat) (env : InitEnv) (m : Mem)
    (h1 : 0 < env.arena) (h2 : env.bitmap_ok = true) (h3 : c.block_count < 2 ^ 31) :
    init_memory_pool c id env m =
      ⟨env.mutex_ok,
        { block_size := c.block_size, block_count := c.block_count, alignment := 4,
          pool_memory := env.arena,
          free_list :=
            ((List.range c.block_count).foldl
              (init_block env.arena (total_block_size c.block_size 4) id) (0, m)).1,
          usage_bitmap := List.replicate ((c.block_count + 7) / 8) 0,
          allocated_blocks := 0, peak_usage := 0, total_allocations := 0,
          total_deallocations := 0, allocation_time_total := 0, deallocation_time_total := 0,
          allocation_failures := 0, mutex := env.mutex_ok, pool_id := id },
        ((List.range c.block_count).foldl
          (init_block env.arena (total_block_size c.block_size 4) id) (0, m)).2,
        !env.mutex_ok, !env.mutex_ok⟩ := by
  have h4 : env.arena ≠ 0 := by omega
  have h5 : (c.block_count + 7) % W32 = c.block_count + 7 :=
    Nat.mod_eq_of_lt (by unfold W32; omega)
  unfold init_memory_pool
  simp only [h4, h2, h3, h5, if_true, if_false, Bool.not_true]
  cases hm : env.mutex_ok <;> simp

theorem init_memory_pool_ok (c : pool_config_t) (id : Nat) (env : InitEnv) (m : Mem)
    (h : InitOK c id env) :
    (init_memory_pool c id env m).ok = true ∧
      PoolInv (init_memory_pool c id env m).pool (init_memory_pool c id env m).mem
        (List.range c.block_count).reverse ∧
      (∀ x, x < env.arena ∨ arena_end c env ≤ x → (init_memory_pool c id env m).mem x = m x) ∧
      (init_memory_pool c id env m).pool.block_size = c.block_size ∧
      (init_memory_pool c id env m).pool.block_count = c.block_count ∧
      (init_memory_pool c id env m).pool.alignment = 4 ∧
      (init_memory_pool c id env m).pool.pool_memory = env.arena ∧
      (init_memory_pool c id env m).pool.pool_id = id ∧
      (init_memory_pool c id env m).pool.allocated_blocks = 0 ∧
      (init_memory_pool c id env m).pool.peak_usage = 0 ∧
      (init_memory_pool c id env m).pool.total_allocations = 0 ∧
      (init_memory_pool c id env m).pool.total_deallocations = 0 ∧
      (init_memory_pool c id env m).pool.allocation_failures = 0 := by
  obtain ⟨h1, h2, h3, h4, h5, h6, h7⟩ := h
  rw [init_memory_pool_eq c id env m h1 h2 h4]
  refine ⟨h3, ?_, ?_, rfl, rfl, rfl, rfl, rfl, rfl, rfl, rfl, rfl, rfl⟩
  · refine (PoolInv_of_init _ m ?_ ?_ rfl rfl rfl).1
    · exact h3
    · refine ⟨h1, h5, ?_, h7, ?_⟩
      · unfold stride total_block_size
        rw [Nat.mod_eq_of_lt h5]
        unfold total_block_size at h6
        rw [Nat.mod_eq_of_lt h5] at h6
        exact h6
      · simp
  · intro x hx
    have hs : 24 ≤ total_block_size c.block_size 4 := by
      unfold total_block_size
      rw [Nat.mod_eq_of_lt h5]; unfold header_size; omega
    exact (init_loop_spec env.arena (total_block_size c.block_size 4) id m c.block_count hs h1
      h6 h7 c.block_count (Nat.le_refl _)).2.2.2 x hx

/-! ## More paths of `pool_free` -/

theorem arena_bound_eq (p : memory_pool_t)
    (hfit : p.pool_memory + p.block_count * stride p < W32) :
    (p.pool_memory + (total_block_size p.block_size p.alignment * p.block_count) % W32) % W32 =
      p.pool_memory + p.block_count * stride p := by
  have e : total_block_size p.block_size p.alignment * p.block_count =
      p.block_count * stride p := by unfold stride; exact Nat.mul_comm _ _
  rw [e, Nat.mod_eq_of_lt (a := p.block_count * stride p) (by omega), Nat.mod_eq_of_lt hfit]

theorem pool_free_oob_eq (p : memory_pool_t) (m : Mem) (env : FreeEnv) (ptr : Nat)
    (hmx : p.mutex = true) (hl : env.lock = true) (hptr : ptr ≠ 0)
    (hfit : p.pool_memory + p.block_count * stride p < W32)
    (hmagic : load32 m (sub32 ptr header_size + OFF_MAGIC) = POOL_MAGIC_ALLOC)
    (hid : load32 m (sub32 ptr header_size + OFF_POOL_ID) = p.pool_id)
    (hout : ¬ in_arena p (sub32 ptr header_size)) :
    pool_free p m ptr env =
      ⟨false,
        { p with deallocation_time_total :=
            (elapsed p.deallocation_time_total env.t_start env.t_end) },
        m,
        [.sem_take p.pool_id true, .gpio_set_level LED_POOL_ERROR 1,
          .sem_give p.pool_id]⟩ := by
  have hb := arena_bound_eq p hfit
  unfold in_arena at hout
  unfold pool_free
  rw [if_neg (by simp [hmx, hptr]), if_pos hl, if_neg (by simp [hmagic, hid])]
  simp only [hb]
  rw [if_neg hout]

theorem pool_free_accept_eq (p : memory_pool_t) (m : Mem) (env : FreeEnv) (ptr : Nat)
    (hmx : p.mutex = true) (hl : env.lock = true) (hptr : ptr ≠ 0)
    (hfit : p.pool_memory + p.block_count * stride p < W32)
    (hmagic : load32 m (sub32 ptr header_size + OFF_MAGIC) = POOL_MAGIC_ALLOC)
    (hid : load32 m (sub32 ptr header_size + OFF_POOL_ID) = p.pool_id)
    (hin : in_arena p (sub32 ptr header_size)) :
    pool_free p m ptr env =
      ⟨true,
        { p with
          usage_bitmap :=
            if sub32 (sub32 ptr header_size) p.pool_memory / stride p < p.block_count then
              bitmap_clear p.usage_bitmap
                (sub32 (sub32 ptr header_size) p.pool_memory / stride p)
            else p.usage_bitmap
          free_list := sub32 ptr header_size
          allocated_blocks := sub32 p.allocated_blocks 1
          total_deallocations := (p.total_deallocations + 1) % W64
          deallocation_time_total :=
            (elapsed p.deallocation_time_total env.t_start env.t_end) },
        free_mem m (sub32 ptr header_size) p.free_list,
        [.sem_take p.pool_id true, .sem_give p.pool_id]⟩ := by
  have hb := arena_bound_eq p hfit
  unfold in_arena at hin
  unfold pool_free
  rw [if_neg (by simp [hmx, hptr]), if_pos hl, if_neg (by simp [hmagic, hid])]
  simp only [hb]
  rw [if_pos hin]
  rfl

theorem pool_free_timeout_eq (p : memory_pool_t) (m : Mem) (env : FreeEnv) (ptr : Nat)
    (hmx : p.mutex = true) (hl : env.lock = false) (hptr : ptr ≠ 0) :
    pool_free p m ptr env =
      ⟨false,
        { p with deallocation_time_total :=
            (elapsed p.deallocation_time_total env.t_start env.t_end) },
        m, [.sem_take p.pool_id false]⟩ := by
  unfold pool_free
  rw [if_neg (by simp [hmx, hptr]), if_neg (by simp [hl])]

theorem pool_free_disabled_eq (p : memory_pool_t) (m : Mem) (env : FreeEnv) (ptr : Nat)
    (h : ptr = 0 ∨ p.mutex = false) : pool_free p m ptr env = ⟨false, p, m, []⟩ := by
  unfold pool_free
  rw [if_pos (by simpa using h)]

theorem pool_malloc_timeout_eq (p : memory_pool_t) (m : Mem) (env : MallocEnv)
    (hmx : p.mutex = true) (hl : env.lock = false) :
    pool_malloc p m env =
      ⟨0,
        { p with allocation_time_total :=
            (elapsed p.allocation_time_total env.t_start env.t_end) },
        m, [.sem_take p.pool_id false]⟩ := by
  unfold pool_malloc
  rw [if_neg (by simp [hmx]), if_neg (by simp [hl])]

theorem pool_malloc_disabled_eq (p : memory_pool_t) (m : Mem) (env : MallocEnv)
    (h : p.mutex = false) : pool_malloc p m env = ⟨0, p, m, []⟩ := by
  unfold pool_malloc
  rw [if_pos (by simp [h])]

/-! ## Contracts of `pool_malloc` -/

/-- C1: on a pool whose free-list head is block `i` of the arena, carrying magic FREE and the
pool's id, `pool_malloc` with the lock acquired and counters not saturated returns the head
address plus `header_size`, makes the head's successor the new head, writes magic ALLOC and
a null link, adds one to `allocated_blocks` and `total_allocations`, sets `peak_usage` to the
maximum of its old value and the new `allocated_blocks`, sets exactly bit
`(head - pool_memory) / stride` of the bitmap, and leaves `allocation_failures` and every byte
outside the head's header unchanged. -/
theorem pool_malloc_success_contract (p : memory_pool_t) (m : Mem) (env : MallocEnv) (i : Nat)
    (hmx : p.mutex = true) (hl : env.lock = true) (hg : Geometry p)
    (hi : i < p.block_count) (hh : p.free_list = block_addr p i)
    (hmagic : load32 m (p.free_list + OFF_MAGIC) = POOL_MAGIC_FREE)
    (hid : load32 m (p.free_list + OFF_POOL_ID) = p.pool_id)
    (ha : p.allocated_blocks + 1 < W32) (ht : p.total_allocations + 1 < W64) :
    p.free_list ≠ 0 ∧
      (pool_malloc p m env).ptr = p.free_list + header_size ∧
      (pool_malloc p m env).pool.free_list = load32 m (p.free_list + OFF_NEXT) ∧
      load32 (pool_malloc p m env).mem (p.free_list + OFF_MAGIC) = POOL_MAGIC_ALLOC ∧
      load32 (pool_malloc p m env).mem (p.free_list + OFF_NEXT) = 0 ∧
      (pool_malloc p m env).pool.allocated_blocks = p.allocated_blocks + 1 ∧
      (pool_malloc p m env).pool.total_allocations = p.total_allocations + 1 ∧
      (pool_malloc p m env).pool.peak_usage = max p.peak_usage (p.allocated_blocks + 1) ∧
      (p.free_list - p.pool_memory) / stride p = i ∧
      (∀ j, bit_at (pool_malloc p m env).pool.usage_bitmap j =
        (decide (j = i) || bit_at p.usage_bitmap j)) ∧
      (pool_malloc p m env).pool.allocation_failures = p.allocation_failures ∧
      (∀ x, x < p.free_list ∨ p.free_list + header_size ≤ x →
        (pool_malloc p m env).mem x = m x) := by
  have hb := block_addr_bounds p hg i hi
  have hidx := block_index_eq p hg i hi
  rw [sub32_eq _ _ (by omega) hb.1] at hidx
  have hlen : i / 8 < p.usage_bitmap.length := by
    have := hg.2.2.2.2
    omega
  rw [hh] at hmagic hid
  rw [pool_malloc_success_eq p m env i hmx hg hl hi hh hmagic hid, hh]
  refine ⟨by omega, rfl, rfl, malloc_mem_magic _ _ _, malloc_mem_next _ _ _, ?_, ?_, ?_, hidx,
    ?_, rfl, ?_⟩
  · exact Nat.mod_eq_of_lt ha
  · exact Nat.mod_eq_of_lt ht
  · show (if (p.allocated_blocks + 1) % W32 > p.peak_usage then (p.allocated_blocks + 1) % W32
      else p.peak_usage) = _
    rw [Nat.mod_eq_of_lt ha]
    split_ifs with h
    · exact (Nat.max_eq_right (by omega)).symm
    · exact (Nat.max_eq_left (by omega)).symm
  · intro j
    exact bit_at_bitmap_set _ _ _ hlen
  · intro x hx
    exact malloc_mem_outside _ _ _ _ (by unfold header_size at hx; omega)

/-- C1 on the demo pool: the head, block 1 at address 4152, is handed out. -/
theorem pool_malloc_success_contract_witness :
    (pool_malloc demo_pool demo_mem demo_malloc_env).ptr = demo_pool.free_list + header_size ∧
      (pool_malloc demo_pool demo_mem demo_malloc_env).pool.allocated_blocks =
        demo_pool.allocated_blocks + 1 :=
  have h := pool_malloc_success_contract demo_pool demo_mem demo_malloc_env 1 (by decide)
    (by decide) (by decide) (by decide) (by decide) (by decide) (by decide) (by decide)
    (by decide)
  ⟨h.2.1, h.2.2.2.2.2.1⟩

/-- C8: when the free list is non-empty and its head does not carry magic FREE and the
pool's id, `pool_malloc` returns null; `allocated_blocks`, `total_allocations`, `peak_usage`,
`allocation_failures`, the bitmap and the memory are unchanged, and with the lock acquired the
call raises the error LED. -/
theorem pool_malloc_corruption_detected (p : memory_pool_t) (m : Mem) (env : MallocEnv)
    (hh : p.free_list ≠ 0)
    (hbad : load32 m (p.free_list + OFF_MAGIC) ≠ POOL_MAGIC_FREE ∨
      load32 m (p.free_list + OFF_POOL_ID) ≠ p.pool_id) :
    (pool_malloc p m env).ptr = 0 ∧
      (pool_malloc p m env).pool.allocated_blocks = p.allocated_blocks ∧
      (pool_malloc p m env).pool.total_allocations = p.total_allocations ∧
      (pool_malloc p m env).pool.peak_usage = p.peak_usage ∧
      (pool_malloc p m env).pool.allocation_failures = p.allocation_failures ∧
      (pool_malloc p m env).pool.usage_bitmap = p.usage_bitmap ∧
      (pool_malloc p m env).mem = m ∧
      (p.mutex = true → env.lock = true →
        Event.gpio_set_level LED_POOL_ERROR 1 ∈ (pool_malloc p m env).events) := by
  cases hmx : p.mutex
  · rw [pool_malloc_disabled_eq p m env hmx]
    exact ⟨rfl, rfl, rfl, rfl, rfl, rfl, rfl, fun h => absurd h (by simp)⟩
  · cases hl : env.lock
    · rw [pool_malloc_timeout_eq p m env hmx hl]
      exact ⟨rfl, rfl, rfl, rfl, rfl, rfl, rfl, fun _ h => absurd h (by simp)⟩
    · rw [pool_malloc_corrupt_eq p m env hmx hl hh hbad]
      exact ⟨rfl, rfl, rfl, rfl, rfl, rfl, rfl, fun _ _ => by simp⟩

/-- C8 on the demo pool with the magic of its head overwritten by 0. -/
theorem pool_malloc_corruption_detected_witness :
    (pool_malloc demo_pool demo_tampered_mem demo_malloc_env).ptr = 0 ∧
      (pool_malloc demo_pool demo_tampered_mem demo_malloc_env).pool.allocated_blocks =
        demo_pool.allocated_blocks :=
  have h := pool_malloc_corruption_detected demo_pool demo_tampered_mem demo_malloc_env
    (by decide) (Or.inl (by decide))
  ⟨h.1, h.2.1⟩

/-- C9, as stated, fails: on the demo pool with the magic of its head (block 1, address 4152)
overwritten, `pool_malloc` returns null but the free-list head moves from 4152 to 4096. -/
theorem pool_malloc_corruption_pops_head :
    demo_pool.free_list = 4152 ∧
      load32 demo_tampered_mem (demo_pool.free_list + OFF_MAGIC) ≠ POOL_MAGIC_FREE ∧
      (pool_malloc demo_pool demo_tampered_mem demo_malloc_env).ptr = 0 ∧
      (pool_malloc demo_pool demo_tampered_mem demo_malloc_env).pool.free_list = 4096 ∧
      (pool_malloc demo_pool demo_tampered_mem demo_malloc_env).pool.free_list ≠
        demo_pool.free_list := by
  decide

/-- C9 amended: when the head of the free list fails the check `magic == FREE` and
`pool_id == self`, `pool_malloc` (lock acquired) returns null and leaves the memory and the
pool unchanged except for the free list, whose head has been popped: the new head is the
link stored in the failing block, so the list has lost that block. -/
theorem pool_malloc_corruption_state (p : memory_pool_t) (m : Mem) (env : MallocEnv)
    (hmx : p.mutex = true) (hl : env.lock = true) (hh : p.free_list ≠ 0)
    (hbad : load32 m (p.free_list + OFF_MAGIC) ≠ POOL_MAGIC_FREE ∨
      load32 m (p.free_list + OFF_POOL_ID) ≠ p.pool_id) :
    (pool_malloc p m env).ptr = 0 ∧
      (pool_malloc p m env).mem = m ∧
      (pool_malloc p m env).pool =
        { p with free_list := load32 m (p.free_list + OFF_NEXT) } ∧
      (∀ a l, Chain m p.free_list (a :: l) →
        Chain (pool_malloc p m env).mem (pool_malloc p m env).pool.free_list l) := by
  rw [pool_malloc_corrupt_eq p m env hmx hl hh hbad]
  refine ⟨rfl, rfl, rfl, ?_⟩
  intro a l hc
  obtain ⟨h1, _, h3⟩ := hc
  rw [h1]
  exact h3

/-- C9 amended, on the demo pool with the magic of its head overwritten. -/
theorem pool_malloc_corruption_state_witness :
    (pool_malloc demo_pool demo_tampered_mem demo_malloc_env).pool =
      { demo_pool with
        free_list := load32 demo_tampered_mem (demo_pool.free_list + OFF_NEXT) } :=
  (pool_malloc_corruption_state demo_pool demo_tampered_mem demo_malloc_env (by decide)
    (by decide) (by decide) (Or.inl (by decide))).2.2.1

/-! ## Contracts of `pool_free` -/

/-- C11: when the header in front of the pointer does not carry magic ALLOC and the pool's
id (as for a pointer that was freed already), `pool_free` returns false and leaves the
memory, hence every block header, the free list, the bitmap, `allocated_blocks` and
`total_deallocations` unchanged; with the lock acquired the whole pool is unchanged. -/
theorem pool_free_header_mismatch (p : memory_pool_t) (m : Mem) (ptr : Nat) (env : FreeEnv)
    (hbad : load32 m (sub32 ptr header_size + OFF_MAGIC) ≠ POOL_MAGIC_ALLOC ∨
      load32 m (sub32 ptr header_size + OFF_POOL_ID) ≠ p.pool_id) :
    (pool_free p m ptr env).ok = false ∧
      (pool_free p m ptr env).mem = m ∧
      (pool_free p m ptr env).pool.free_list = p.free_list ∧
      (pool_free p m ptr env).pool.usage_bitmap = p.usage_bitmap ∧
      (pool_free p m ptr env).pool.allocated_blocks = p.allocated_blocks ∧
      (pool_free p m ptr env).pool.total_deallocations = p.total_deallocations ∧
      (env.lock = true → (pool_free p m ptr env).pool = p) := by
  by_cases h0 : ptr = 0 ∨ p.mutex = false
  · rw [pool_free_disabled_eq p m env ptr h0]
    exact ⟨rfl, rfl, rfl, rfl, rfl, rfl, fun _ => rfl⟩
  · have hptr : ptr ≠ 0 := fun e => h0 (Or.inl e)
    have hmx : p.mutex = true := by
      cases h : p.mutex
      · exact absurd (Or.inr h) h0
      · rfl
    cases hl : env.lock
    · rw [pool_free_timeout_eq p m env ptr hmx hl hptr]
      exact ⟨rfl, rfl, rfl, rfl, rfl, rfl, fun h => absurd h (by simp)⟩
    · rw [pool_free_reject_eq p m env ptr hmx hl hptr hbad]
      exact ⟨rfl, rfl, rfl, rfl, rfl, rfl, fun _ => rfl⟩

/-- C11 on the demo pool: a second `pool_free` of pointer 4176 is rejected. -/
theorem pool_free_header_mismatch_witness :
    demo_freed.ok = true ∧
      (pool_free demo_freed.pool demo_freed.mem 4176 demo_free_env).ok = false ∧
      (pool_free demo_freed.pool demo_freed.mem 4176 demo_free_env).pool = demo_freed.pool :=
  have h := pool_free_header_mismatch demo_freed.pool demo_freed.mem 4176 demo_free_env
    (Or.inl (by decide))
  ⟨by decide, h.1, h.2.2.2.2.2.2 (by decide)⟩

/-- C13: for a pool whose arena lies in the address space and a pointer whose header address
`ptr - header_size` lies outside the arena, `pool_free` returns false and leaves the memory,
the free list, the bitmap, `allocated_blocks` and `total_deallocations` unchanged, whatever
is stored at the header address. -/
theorem pool_free_out_of_bounds (p : memory_pool_t) (m : Mem) (ptr : Nat) (env : FreeEnv)
    (hfit : p.pool_memory + p.block_count * stride p < W32)
    (hout : ¬ in_arena p (sub32 ptr header_size)) :
    (pool_free p m ptr env).ok = false ∧
      (pool_free p m ptr env).mem = m ∧
      (pool_free p m ptr env).pool.free_list = p.free_list ∧
      (pool_free p m ptr env).pool.usage_bitmap = p.usage_bitmap ∧
      (pool_free p m ptr env).pool.allocated_blocks = p.allocated_blocks ∧
      (pool_free p m ptr env).pool.total_deallocations = p.total_deallocations := by
  by_cases h0 : ptr = 0 ∨ p.mutex = false
  · rw [pool_free_disabled_eq p m env ptr h0]
    exact ⟨rfl, rfl, rfl, rfl, rfl, rfl⟩
  · have hptr : ptr ≠ 0 := fun e => h0 (Or.inl e)
    have hmx : p.mutex = true := by
      cases h : p.mutex
      · exact absurd (Or.inr h) h0
      · rfl
    cases hl : env.lock
    · rw [pool_free_timeout_eq p m env ptr hmx hl hptr]
      exact ⟨rfl, rfl, rfl, rfl, rfl, rfl⟩
    · by_cases hhdr : load32 m (sub32 ptr header_size + OFF_MAGIC) = POOL_MAGIC_ALLOC ∧
          load32 m (sub32 ptr header_size + OFF_POOL_ID) = p.pool_id
      · rw [pool_free_oob_eq p m env ptr hmx hl hptr hfit hhdr.1 hhdr.2 hout]
        exact ⟨rfl, rfl, rfl, rfl, rfl, rfl⟩
      · rw [pool_free_reject_eq p m env ptr hmx hl hptr (by
          by_cases h1 : load32 m (sub32 ptr header_size + OFF_MAGIC) = POOL_MAGIC_ALLOC
          · right; exact fun h2 => hhdr ⟨h1, h2⟩
          · left; exact h1)]
        exact ⟨rfl, rfl, rfl, rfl, rfl, rfl⟩

/-- C13 on the demo pool: pointer 8000 is rejected although the bytes in front of it read as
an ALLOC header with the pool's id. -/
theorem pool_free_out_of_bounds_witness :
    load32 demo_far_mem (sub32 8000 header_size + OFF_MAGIC) = POOL_MAGIC_ALLOC ∧
      load32 demo_far_mem (sub32 8000 header_size + OFF_POOL_ID) = demo_alloc.pool.pool_id ∧
      (pool_free demo_alloc.pool demo_far_mem 8000 demo_free_env).ok = false ∧
      (pool_free demo_alloc.pool demo_far_mem 8000 demo_free_env).pool.free_list =
        demo_alloc.pool.free_list :=
  have h := pool_free_out_of_bounds demo_alloc.pool demo_far_mem 8000 demo_free_env
    (by decide) (by decide)
  ⟨by decide, by decide, h.1, h.2.2.1⟩

/-- C14, as stated, fails: after block 1 of the demo pool was handed out (payload at 4176),
bytes reading as an ALLOC header with the pool's id are stored in that payload; the header
address 4176 lies inside the arena and is no block start (offset 80, stride 56), yet
`pool_free` on pointer 4200 returns true, puts 4176 at the head of the free list and
decrements `allocated_blocks`. -/
theorem pool_free_accepts_forged_header :
    in_arena demo_alloc.pool (sub32 4200 header_size) ∧
      (sub32 4200 header_size - demo_alloc.pool.pool_memory) % stride demo_alloc.pool ≠ 0 ∧
      (pool_free demo_alloc.pool demo_forged_mem 4200 demo_free_env).ok = true ∧
      (pool_free demo_alloc.pool demo_forged_mem 4200 demo_free_env).pool.free_list = 4176 ∧
      demo_alloc.pool.allocated_blocks = 1 ∧
      (pool_free demo_alloc.pool demo_forged_mem 4200 demo_free_env).pool.allocated_blocks =
        0 := by
  decide

/-- C14 amended: for an initialised pool whose arena lies in the address space and a non-null
pointer whose header address lies inside the arena, block start or not, `pool_free` (lock
acquired) returns true exactly when the bytes at the header address read as magic ALLOC and
the pool's id; it then pushes that address on the free list, writes magic FREE there, clears
the bitmap bit of index `(address - pool_memory) / stride` and decrements `allocated_blocks`;
otherwise it returns false and changes neither pool nor memory. -/
theorem pool_free_in_arena (p : memory_pool_t) (m : Mem) (ptr : Nat) (env : FreeEnv)
    (hmx : p.mutex = true) (hl : env.lock = true) (hptr : ptr ≠ 0)
    (hfit : p.pool_memory + p.block_count * stride p < W32)
    (hin : in_arena p (sub32 ptr header_size)) :
    ((pool_free p m ptr env).ok = true ↔
        (load32 m (sub32 ptr header_size + OFF_MAGIC) = POOL_MAGIC_ALLOC ∧
          load32 m (sub32 ptr header_size + OFF_POOL_ID) = p.pool_id)) ∧
      ((pool_free p m ptr env).ok = false →
        (pool_free p m ptr env).pool = p ∧ (pool_free p m ptr env).mem = m) ∧
      ((pool_free p m ptr env).ok = true →
        (pool_free p m ptr env).pool.free_list = sub32 ptr header_size ∧
          (pool_free p m ptr env).mem = free_mem m (sub32 ptr header_size) p.free_list ∧
          (pool_free p m ptr env).pool.usage_bitmap =
            bitmap_clear p.usage_bitmap
              ((sub32 ptr header_size - p.pool_memory) / stride p) ∧
          (pool_free p m ptr env).pool.allocated_blocks = sub32 p.allocated_blocks 1) := by
  have hidx : sub32 (sub32 ptr header_size) p.pool_memory =
      sub32 ptr header_size - p.pool_memory :=
    sub32_eq _ _ (sub32_lt _ _) hin.1
  have hlt : (sub32 ptr header_size - p.pool_memory) / stride p < p.block_count := by
    have h2 := hin.2
    have h1 := hin.1
    apply Nat.div_lt_of_lt_mul
    rw [Nat.mul_comm]
    omega
  by_cases hhdr : load32 m (sub32 ptr header_size + OFF_MAGIC) = POOL_MAGIC_ALLOC ∧
      load32 m (sub32 ptr header_size + OFF_POOL_ID) = p.pool_id
  · rw [pool_free_accept_eq p m env ptr hmx hl hptr hfit hhdr.1 hhdr.2 hin]
    refine ⟨⟨fun _ => hhdr, fun _ => rfl⟩, fun h => absurd h (by simp), fun _ => ?_⟩
    refine ⟨rfl, rfl, ?_, rfl⟩
    show (if sub32 (sub32 ptr header_size) p.pool_memory / stride p < p.block_count then _
      else _) = _
    rw [hidx, if_pos hlt]
  · rw [pool_free_reject_eq p m env ptr hmx hl hptr (by
      by_cases h1 : load32 m (sub32 ptr header_size + OFF_MAGIC) = POOL_MAGIC_ALLOC
      · right; exact fun h2 => hhdr ⟨h1, h2⟩
      · left; exact h1)]
    exact ⟨⟨fun h => absurd h (by simp), fun h => absurd h hhdr⟩, fun _ => ⟨rfl, rfl⟩,
      fun h => absurd h (by simp)⟩

/-- C14 amended, on the demo pool with the forged header in the payload of block 1. -/
theorem pool_free_in_arena_witness :
    ((pool_free demo_alloc.pool demo_forged_mem 4200 demo_free_env).ok = true ↔
      (load32 demo_forged_mem (sub32 4200 header_size + OFF_MAGIC) = POOL_MAGIC_ALLOC ∧
        load32 demo_forged_mem (sub32 4200 header_size + OFF_POOL_ID) =
          demo_alloc.pool.pool_id)) :=
  (pool_free_in_arena demo_alloc.pool demo_forged_mem 4200 demo_free_env (by decide)
    (by decide) (by decide) (by decide) (by decide)).1

/-! ## Fields no operation changes -/

theorem pool_malloc_SameArena (p : memory_pool_t) (m : Mem) (env : MallocEnv) :
    SameArena p (pool_malloc p m env).pool := by
  unfold pool_malloc SameArena
  dsimp only
  split_ifs <;> exact ⟨rfl, rfl, rfl, rfl, rfl, rfl⟩

theorem pool_free_SameArena (p : memory_pool_t) (m : Mem) (ptr : Nat) (env : FreeEnv) :
    SameArena p (pool_free p m ptr env).pool := by
  unfold pool_free SameArena
  dsimp only
  split_ifs <;> exact ⟨rfl, rfl, rfl, rfl, rfl, rfl⟩

theorem SameArena_refl (p : memory_pool_t) : SameArena p p := ⟨rfl, rfl, rfl, rfl, rfl, rfl⟩

theorem SameArena_trans (p q r : memory_pool_t) (h1 : SameArena p q) (h2 : SameArena q r) :
    SameArena p r := by
  unfold SameArena at *
  refine ⟨?_, ?_, ?_, ?_, ?_, ?_⟩
  · rw [h2.1, h1.1]
  · rw [h2.2.1, h1.2.1]
  · rw [h2.2.2.1, h1.2.2.1]
  · rw [h2.2.2.2.1, h1.2.2.2.1]
  · rw [h2.2.2.2.2.1, h1.2.2.2.2.1]
  · rw [h2.2.2.2.2.2, h1.2.2.2.2.2]

theorem stride_congr (p q : memory_pool_t) (h : SameArena p q) : stride q = stride p := by
  unfold stride; rw [h.1, h.2.2.1]

theorem block_addr_congr (p q : memory_pool_t) (h : SameArena p q) (i : Nat) :
    block_addr q i = block_addr p i := by
  unfold block_addr; rw [stride_congr p q h, h.2.2.2.1]

theorem in_arena_congr (p q : memory_pool_t) (h : SameArena p q) (a : Nat) :
    in_arena q a ↔ in_arena p a := by
  unfold in_arena; rw [stride_congr p q h, h.2.2.2.1, h.2.1]

/-! ## Sequences of `pool_malloc` calls -/

theorem malloc_seq_cons (p : memory_pool_t) (m : Mem) (e : MallocEnv) (es : List MallocEnv) :
    malloc_seq p m (e :: es) =
      ⟨(pool_malloc p m e).ptr :: (malloc_seq (pool_malloc p m e).pool (pool_malloc p m e).mem es).ptrs,
        (malloc_seq (pool_malloc p m e).pool (pool_malloc p m e).mem es).pool,
        (malloc_seq (pool_malloc p m e).pool (pool_malloc p m e).mem es).mem⟩ := rfl

theorem pool_malloc_success_failures (p : memory_pool_t) (m : Mem) (env : MallocEnv) (i : Nat)
    (fl : List Nat) (h : PoolInv p m (i :: fl)) (hl : env.lock = true) :
    (pool_malloc p m env).pool.allocation_failures = p.allocation_failures := by
  have hi : i < p.block_count := h.in_range i (List.mem_cons_self _ _)
  rw [pool_malloc_success_eq p m env i h.mutex h.geom hl hi h.chain.1
    (h.magic_free i (List.mem_cons_self _ _)) (h.ids i hi)]

theorem PoolInv_malloc_seq (envs : List MallocEnv) :
    ∀ (p : memory_pool_t) (m : Mem) (fl : List Nat), PoolInv p m fl →
      (∀ e ∈ envs, e.lock = true) → envs.length ≤ fl.length →
        (malloc_seq p m envs).ptrs =
            (fl.take envs.length).map (fun i => block_addr p i + header_size) ∧
          PoolInv (malloc_seq p m envs).pool (malloc_seq p m envs).mem
            (fl.drop envs.length) ∧
          SameArena p (malloc_seq p m envs).pool ∧
          (malloc_seq p m envs).pool.allocation_failures = p.allocation_failures := by
  induction envs with
  | nil =>
    intro p m fl h _ _
    exact ⟨rfl, h, SameArena_refl p, rfl⟩
  | cons e es ih =>
    intro p m fl h hlock hlen
    cases fl with
    | nil => simp at hlen
    | cons i fl =>
      have hl : e.lock = true := hlock e (List.mem_cons_self _ _)
      obtain ⟨hptr, hinv⟩ := PoolInv_malloc p m e i fl h hl
      have hsame := pool_malloc_SameArena p m e
      have hfail := pool_malloc_success_failures p m e i fl h hl
      obtain ⟨h1, h2, h3, h4⟩ := ih _ _ fl hinv
        (fun x hx => hlock x (List.mem_cons_of_mem _ hx))
        (by simp only [List.length_cons] at hlen; omega)
      rw [malloc_seq_cons]
      refine ⟨?_, ?_, ?_, ?_⟩
      · show (pool_malloc p m e).ptr :: _ = _
        rw [h1, hptr]
        simp only [List.length_cons, List.take_succ_cons, List.map_cons]
        congr 1
        apply List.map_congr_left
        intro j _
        rw [block_addr_congr p _ hsame]
      · exact h2
      · exact SameArena_trans _ _ _ hsame h3
      · exact h4.trans hfail

theorem align_up_four_mod (v : Nat) : align_up v 4 % 4 = 0 := by
  have e1 : sub32 4 1 = 3 := by decide
  have e2 : W32 - 1 - 3 = 4294967292 := by decide
  unfold align_up
  rw [e1, e2]
  have h := Nat.and_pow_two_sub_one_eq_mod (((v + 3) % W32) &&& 4294967292) 2
  have e3 : (2 : Nat) ^ 2 - 1 = 3 := by norm_num
  have e4 : (2 : Nat) ^ 2 = 4 := by norm_num
  rw [e3, e4] at h
  rw [← h, Nat.land_assoc]
  have e5 : (4294967292 : Nat) &&& 3 = 0 := by decide
  rw [e5]
  exact Nat.and_zero _

/-- C3: on a tier freshly initialised with `n` blocks, `n` consecutive `pool_malloc` calls
(lock acquired) all return a non-null pointer and leave `allocated_blocks = n`; the next call
returns null, adds exactly one to `allocation_failures`, and leaves `allocated_blocks = n`,
the free list, the bitmap, `total_allocations`, `peak_usage` and the memory unchanged. -/
theorem pool_malloc_exhaustion (c : pool_config_t) (id : Nat) (env : InitEnv) (m : Mem)
    (envs : List MallocEnv) (last : MallocEnv) (h : InitOK c id env)
    (hn : envs.length = c.block_count) (hlock : ∀ e ∈ envs, e.lock = true)
    (hl : last.lock = true) :
    (∀ ptr ∈ (malloc_seq (init_memory_pool c id env m).pool
        (init_memory_pool c id env m).mem envs).ptrs, ptr ≠ 0) ∧
      (malloc_seq (init_memory_pool c id env m).pool
        (init_memory_pool c id env m).mem envs).ptrs.length = c.block_count ∧
      (malloc_seq (init_memory_pool c id env m).pool
        (init_memory_pool c id env m).mem envs).pool.allocated_blocks = c.block_count ∧
      (pool_malloc
        (malloc_seq (init_memory_pool c id env m).pool
          (init_memory_pool c id env m).mem envs).pool
        (malloc_seq (init_memory_pool c id env m).pool
          (init_memory_pool c id env m).mem envs).mem last).ptr = 0 ∧
      (pool_malloc
        (malloc_seq (init_memory_pool c id env m).pool
          (init_memory_pool c id env m).mem envs).pool
        (malloc_seq (init_memory_pool c id env m).pool
          (init_memory_pool c id env m).mem envs).mem last).pool.allocation_failures =
        (malloc_seq (init_memory_pool c id env m).pool
          (init_memory_pool c id env m).mem envs).pool.allocation_failures + 1 ∧
      (pool_malloc
        (malloc_seq (init_memory_pool c id env m).pool
          (init_memory_pool c id env m).mem envs).pool
        (malloc_seq (init_memory_pool c id env m).pool
          (init_memory_pool c id env m).mem envs).mem last).pool.allocated_blocks =
        c.block_count ∧
      (pool_malloc
        (malloc_seq (init_memory_pool c id env m).pool
          (init_memory_pool c id env m).mem envs).pool
        (malloc_seq (init_memory_pool c id env m).pool
          (init_memory_pool c id env m).mem envs).mem last).pool.free_list =
        (malloc_seq (init_memory_pool c id env m).pool
          (init_memory_pool c id env m).mem envs).pool.free_list ∧
      (pool_malloc
        (malloc_seq (init_memory_pool c id env m).pool
          (init_memory_pool c id env m).mem envs).pool
        (malloc_seq (init_memory_pool c id env m).pool
          (init_memory_pool c id env m).mem envs).mem last).pool.usage_bitmap =
        (malloc_seq (init_memory_pool c id env m).pool
          (init_memory_pool c id env m).mem envs).pool.usage_bitmap ∧
      (pool_malloc
        (malloc_seq (init_memory_pool c id env m).pool
          (init_memory_pool c id env m).mem envs).pool
        (malloc_seq (init_memory_pool c id env m).pool
          (init_memory_pool c id env m).mem envs).mem last).pool.total_allocations =
        (malloc_seq (init_memory_pool c id env m).pool
          (init_memory_pool c id env m).mem envs).pool.total_allocations ∧
      (pool_malloc
        (malloc_seq (init_memory_pool c id env m).pool
          (init_memory_pool c id env m).mem envs).pool
        (malloc_seq (init_memory_pool c id env m).pool
          (init_memory_pool c id env m).mem envs).mem last).pool.peak_usage =
        (malloc_seq (init_memory_pool c id env m).pool
          (init_memory_pool c id env m).mem envs).pool.peak_usage ∧
      (pool_malloc
        (malloc_seq (init_memory_pool c id env m).pool
          (init_memory_pool c id env m).mem envs).pool
        (malloc_seq (init_memory_pool c id env m).pool
          (init_memory_pool c id env m).mem envs).mem last).mem =
        (malloc_seq (init_memory_pool c id env m).pool
          (init_memory_pool c id env m).mem envs).mem := by
  obtain ⟨_, hinv, _, _, hcount, _, _, _, _, _, _, _, hfail0⟩ :=
    init_memory_pool_ok c id env m h
  have hlen : ((List.range c.block_count).reverse).length = c.block_count := by simp
  obtain ⟨hptrs, hinv', hsame, hfail⟩ :=
    PoolInv_malloc_seq envs _ _ _ hinv hlock (by rw [hlen, hn])
  have hdrop : (List.range c.block_count).reverse.drop envs.length = [] := by
    apply List.drop_eq_nil_of_le; rw [hlen, hn]
  rw [hdrop] at hinv'
  have hcnt := hinv'.count
  simp only [List.length_nil, Nat.add_zero] at hcnt
  rw [hsame.2.1, hcount] at hcnt
  rw [PoolInv_malloc_empty _ _ last hinv' hl]
  refine ⟨?_, ?_, hcnt, rfl, ?_, hcnt, rfl, rfl, rfl, rfl, rfl⟩
  · intro ptr hp
    rw [hptrs] at hp
    obtain ⟨i, hi, rfl⟩ := List.mem_map.mp hp
    have hi' : i < (init_memory_pool c id env m).pool.block_count := by
      have := List.mem_of_mem_take hi
      rw [List.mem_reverse, List.mem_range] at this
      rw [hcount]; exact this
    have := block_addr_bounds _ hinv.geom i hi'
    omega
  · rw [hptrs, List.length_map, List.length_take, hlen, hn]; simp
  · show (_ + 1) % W32 = _
    rw [hfail, hfail0]; decide

/-- C3 on the demo pool: two calls succeed and the third reports exhaustion. -/
theorem pool_malloc_exhaustion_witness :
    (pool_malloc
      (malloc_seq demo_pool demo_mem [demo_malloc_env, demo_malloc_env]).pool
      (malloc_seq demo_pool demo_mem [demo_malloc_env, demo_malloc_env]).mem
      demo_malloc_env).ptr = 0 ∧
    (pool_malloc
      (malloc_seq demo_pool demo_mem [demo_malloc_env, demo_malloc_env]).pool
      (malloc_seq demo_pool demo_mem [demo_malloc_env, demo_malloc_env]).mem
      demo_malloc_env).pool.allocated_blocks = 2 :=
  have h := pool_malloc_exhaustion demo_config 1 demo_init_env (fun _ => 0)
    [demo_malloc_env, demo_malloc_env] demo_malloc_env (by decide) (by decide) (by decide)
    (by decide)
  ⟨h.2.2.2.1, h.2.2.2.2.2.1⟩

/-- C4: on a tier freshly initialised with `n` blocks, `N ≤ n` consecutive `pool_malloc` calls
(lock acquired) return `N` non-null, pairwise distinct pointers, each of the form
`arena + i * stride + header_size` with `i < n` and `stride = header_size +
align_up(block_size, 4)`, hence at an offset from the arena base that is a multiple of the
alignment 4; afterwards `allocated_blocks = N`. -/
theorem pool_malloc_distinct_aligned (c : pool_config_t) (id : Nat) (env : InitEnv) (m : Mem)
    (envs : List MallocEnv) (h : InitOK c id env)
    (hn : envs.length ≤ c.block_count) (hlock : ∀ e ∈ envs, e.lock = true) :
    (malloc_seq (init_memory_pool c id env m).pool
        (init_memory_pool c id env m).mem envs).ptrs.length = envs.length ∧
      (∀ ptr ∈ (malloc_seq (init_memory_pool c id env m).pool
        (init_memory_pool c id env m).mem envs).ptrs, ptr ≠ 0) ∧
      (malloc_seq (init_memory_pool c id env m).pool
        (init_memory_pool c id env m).mem envs).ptrs.Nodup ∧
      (∀ ptr ∈ (malloc_seq (init_memory_pool c id env m).pool
        (init_memory_pool c id env m).mem envs).ptrs,
        ∃ i, i < c.block_count ∧
          ptr = env.arena + i * (header_size + align_up c.block_size 4) + header_size) ∧
      (init_memory_pool c id env m).pool.alignment = 4 ∧
      (∀ ptr ∈ (malloc_seq (init_memory_pool c id env m).pool
        (init_memory_pool c id env m).mem envs).ptrs, (ptr - env.arena) % 4 = 0) ∧
      (malloc_seq (init_memory_pool c id env m).pool
        (init_memory_pool c id env m).mem envs).pool.allocated_blocks = envs.length := by
  obtain ⟨_, hinv, _, hbs, hcount, hal, hpm, _, _, _, _, _, _⟩ :=
    init_memory_pool_ok c id env m h
  have hlen : ((List.range c.block_count).reverse).length = c.block_count := by simp
  obtain ⟨hptrs, hinv', hsame, _⟩ :=
    PoolInv_malloc_seq envs _ _ _ hinv hlock (by rw [hlen]; exact hn)
  have hg := hinv.geom
  have hstride : stride (init_memory_pool c id env m).pool =
      header_size + align_up c.block_size 4 := by
    rw [stride_eq _ hg, hbs, hal]
  have hmem : ∀ i, i ∈ (List.range c.block_count).reverse.take envs.length →
      i < (init_memory_pool c id env m).pool.block_count := by
    intro i hi
    have := List.mem_of_mem_take hi
    rw [List.mem_reverse, List.mem_range] at this
    rw [hcount]; exact this
  have hform : ∀ ptr ∈ (malloc_seq (init_memory_pool c id env m).pool
      (init_memory_pool c id env m).mem envs).ptrs,
      ∃ i, i < c.block_count ∧
        ptr = env.arena + i * (header_size + align_up c.block_size 4) + header_size := by
    intro ptr hp
    rw [hptrs] at hp
    obtain ⟨i, hi, rfl⟩ := List.mem_map.mp hp
    refine ⟨i, by rw [← hcount]; exact hmem i hi, ?_⟩
    unfold block_addr
    rw [hstride, hpm]
  refine ⟨?_, ?_, ?_, hform, hal, ?_, ?_⟩
  · rw [hptrs, List.length_map, List.length_take, hlen]; omega
  · intro ptr hp
    rw [hptrs] at hp
    obtain ⟨i, hi, rfl⟩ := List.mem_map.mp hp
    have := block_addr_bounds _ hg i (hmem i hi)
    omega
  · rw [hptrs]
    apply List.Nodup.map_on
    · intro x _ y _ hxy
      exact block_addr_inj _ hg x y (by omega)
    · exact List.Nodup.sublist (List.take_sublist _ _)
        (List.nodup_reverse.mpr (List.nodup_range _))
  · intro ptr hp
    obtain ⟨i, _, rfl⟩ := hform ptr hp
    have ha := align_up_four_mod c.block_size
    have hq : header_size + align_up c.block_size 4 =
        4 * ((header_size + align_up c.block_size 4) / 4) := by
      unfold header_size; omega
    rw [hq, Nat.mul_left_comm]
    unfold header_size
    omega
  · have hcnt := hinv'.count
    rw [hsame.2.1, hcount, List.length_drop, hlen] at hcnt
    omega

/-- C4 on the demo pool: two calls return the distinct pointers of its two blocks. -/
theorem pool_malloc_distinct_aligned_witness :
    (malloc_seq demo_pool demo_mem [demo_malloc_env, demo_malloc_env]).ptrs.Nodup ∧
      (malloc_seq demo_pool demo_mem
        [demo_malloc_env, demo_malloc_env]).pool.allocated_blocks = 2 :=
  have h := pool_malloc_distinct_aligned demo_config 1 demo_init_env (fun _ => 0)
    [demo_malloc_env, demo_malloc_env] (by decide) (by decide) (by decide)
  ⟨h.2.2.1, h.2.2.2.2.2.2⟩

/-! ## Sequences of `pool_malloc` calls on a pool with a tampered free block -/

theorem Geometry_congr (p q : memory_pool_t) (h : SameArena p q)
    (hlen : q.usage_bitmap.length = p.usage_bitmap.length) (hg : Geometry p) : Geometry q := by
  obtain ⟨g1, g2, g3, g4, g5⟩ := hg
  have hs := stride_congr p q h
  obtain ⟨a1, a2, a3, a4, _, a6⟩ := h
  unfold Geometry
  rw [a4, a1, a3, a2, hs, a6, hlen]
  exact ⟨g1, g2, g3, g4, g5⟩

theorem pool_malloc_bitmap_length (p : memory_pool_t) (m : Mem) (env : MallocEnv) :
    (pool_malloc p m env).pool.usage_bitmap.length = p.usage_bitmap.length := by
  unfold pool_malloc
  dsimp only
  split_ifs <;> first | rfl | exact bitmap_set_length _ _

theorem pool_free_bitmap_length (p : memory_pool_t) (m : Mem) (ptr : Nat) (env : FreeEnv) :
    (pool_free p m ptr env).pool.usage_bitmap.length = p.usage_bitmap.length := by
  unfold pool_free
  dsimp only
  split_ifs <;> first | rfl | exact bitmap_clear_length _ _

theorem malloc_step (p : memory_pool_t) (m : Mem) (e : MallocEnv) (i t : Nat)
    (hmx : p.mutex = true) (hg : Geometry p) (hl : e.lock = true)
    (hi : i < p.block_count) (hh : p.free_list = block_addr p i)
    (hid : load32 m (block_addr p i + OFF_POOL_ID) = p.pool_id)
    (hgood : i ≠ t → load32 m (block_addr p i + OFF_MAGIC) = POOL_MAGIC_FREE)
    (hbad : i = t → load32 m (block_addr p i + OFF_MAGIC) ≠ POOL_MAGIC_FREE) :
    (pool_malloc p m e).ptr = (if i = t then 0 else block_addr p i + header_size) ∧
      (pool_malloc p m e).pool.free_list = load32 m (block_addr p i + OFF_NEXT) ∧
      (pool_malloc p m e).pool.allocation_failures = p.allocation_failures ∧
      (∀ j, j ≠ i → ∀ off, off + 4 ≤ 24 →
        load32 (pool_malloc p m e).mem (block_addr p j + off) =
          load32 m (block_addr p j + off)) := by
  have hb := block_addr_bounds p hg i hi
  by_cases hit : i = t
  · have hne : p.free_list ≠ 0 := by omega
    rw [pool_malloc_corrupt_eq p m e hmx hl hne (Or.inl (by rw [hh]; exact hbad hit)),
      if_pos hit, hh]
    exact ⟨rfl, rfl, rfl, fun _ _ _ _ => rfl⟩
  · rw [pool_malloc_success_eq p m e i hmx hg hl hi hh (hgood hit) hid, if_neg hit]
    refine ⟨rfl, rfl, rfl, ?_⟩
    intro j hj off hoff
    have := block_addr_sep p hg i j (Ne.symm hj)
    exact malloc_mem_load_other _ _ _ _ (by omega)

theorem malloc_seq_exhausted (envs : List MallocEnv) :
    ∀ (p : memory_pool_t) (m : Mem), p.mutex = true → p.free_list = 0 →
      (∀ e ∈ envs, e.lock = true) →
        (malloc_seq p m envs).ptrs = List.replicate envs.length 0 ∧
          (malloc_seq p m envs).pool.free_list = 0 ∧
          (malloc_seq p m envs).pool.mutex = true := by
  induction envs with
  | nil =>
    intro p m hmx hh _
    exact ⟨rfl, hh, hmx⟩
  | cons e es ih =>
    intro p m hmx hh hlock
    have hl : e.lock = true := hlock e (List.mem_cons_self _ _)
    have heq := pool_malloc_exhausted_eq p m e hmx hl hh
    have h1 : (pool_malloc p m e).ptr = 0 := by rw [heq]
    have h2 : (pool_malloc p m e).pool.free_list = 0 := by rw [heq]; exact hh
    have h3 : (pool_malloc p m e).pool.mutex = true := by rw [heq]; exact hmx
    obtain ⟨i1, i2, i3⟩ := ih _ (pool_malloc p m e).mem h3 h2
      (fun x hx => hlock x (List.mem_cons_of_mem _ hx))
    rw [malloc_seq_cons]
    refine ⟨?_, i2, i3⟩
    show (pool_malloc p m e).ptr :: _ = _
    rw [h1, i1]
    rfl

theorem malloc_seq_chain (t : Nat) (fl : List Nat) :
    ∀ (p : memory_pool_t) (m : Mem) (envs : List MallocEnv),
      p.mutex = true → Geometry p → FreeList p m fl → fl.Nodup →
      (∀ i ∈ fl, i < p.block_count) →
      (∀ i ∈ fl, load32 m (block_addr p i + OFF_POOL_ID) = p.pool_id) →
      (∀ i ∈ fl, i ≠ t → load32 m (block_addr p i + OFF_MAGIC) = POOL_MAGIC_FREE) →
      (t ∈ fl → load32 m (block_addr p t + OFF_MAGIC) ≠ POOL_MAGIC_FREE) →
      (∀ e ∈ envs, e.lock = true) →
        (malloc_seq p m envs).ptrs =
            ((fl.map (fun i => if i = t then 0 else block_addr p i + header_size)) ++
              List.replicate (envs.length - fl.length) 0).take envs.length ∧
          (malloc_seq p m envs).pool.mutex = true ∧
          (fl.length ≤ envs.length → (malloc_seq p m envs).pool.free_list = 0) := by
  induction fl with
  | nil =>
    intro p m envs hmx _ hch _ _ _ _ _ hlock
    have h0 : p.free_list = 0 := hch
    obtain ⟨h1, h2, h3⟩ := malloc_seq_exhausted envs p m hmx h0 hlock
    refine ⟨?_, h3, fun _ => h2⟩
    rw [h1]
    simp
  | cons i rest ih =>
    intro p m envs hmx hg hch hnd hr hid hgood hbad hlock
    cases envs with
    | nil => exact ⟨rfl, hmx, fun h => absurd h (by simp)⟩
    | cons e es =>
      obtain ⟨hh, _, hch'⟩ := hch
      have hi : i < p.block_count := hr i (List.mem_cons_self _ _)
      have hl : e.lock = true := hlock e (List.mem_cons_self _ _)
      have hndc := List.nodup_cons.mp hnd
      obtain ⟨s1, s2, _, s4⟩ := malloc_step p m e i t hmx hg hl hi hh
        (hid i (List.mem_cons_self _ _)) (fun h => hgood i (List.mem_cons_self _ _) h)
        (fun h => by rw [h]; exact hbad (h ▸ List.mem_cons_self _ _))
      have hsame := pool_malloc_SameArena p m e
      have hba : block_addr (pool_malloc p m e).pool = block_addr p :=
        funext (block_addr_congr p _ hsame)
      have hne : ∀ j ∈ rest, j ≠ i := fun j hj h => hndc.1 (h ▸ hj)
      obtain ⟨r1, r2, r3⟩ := ih (pool_malloc p m e).pool (pool_malloc p m e).mem es
        (by rw [hsame.2.2.2.2.1]; exact hmx)
        (Geometry_congr p _ hsame (pool_malloc_bitmap_length p m e) hg)
        (by
          unfold FreeList
          rw [hba, s2]
          apply Chain_congr m _ _ _ _ hch'
          intro a ha
          obtain ⟨j, hj, rfl⟩ := List.mem_map.mp ha
          exact s4 j (hne j hj) OFF_NEXT (by decide))
        hndc.2
        (fun j hj => by rw [hsame.2.1]; exact hr j (List.mem_cons_of_mem _ hj))
        (fun j hj => by
          rw [hba, hsame.2.2.2.2.2, s4 j (hne j hj) OFF_POOL_ID (by decide)]
          exact hid j (List.mem_cons_of_mem _ hj))
        (fun j hj hjt => by
          rw [hba, s4 j (hne j hj) OFF_MAGIC (by decide)]
          exact hgood j (List.mem_cons_of_mem _ hj) hjt)
        (fun htr => by
          have hti : t ≠ i := hne t htr
          rw [hba, s4 t hti OFF_MAGIC (by decide)]
          exact hbad (List.mem_cons_of_mem _ htr))
        (fun x hx => hlock x (List.mem_cons_of_mem _ hx))
      rw [malloc_seq_cons]
      refine ⟨?_, r2, fun h => r3 (by simp only [List.length_cons] at h; omega)⟩
      show (pool_malloc p m e).ptr :: _ = _
      rw [s1, r1, hba]
      simp only [List.length_cons, List.map_cons, List.cons_append, List.take_succ_cons,
        Nat.add_sub_add_right]

theorem countP_nonnull (t : Nat) (g : Nat → Nat) (k : Nat) (fl : List Nat) :
    (∀ i ∈ fl, g i ≠ 0) → fl.Nodup → t ∈ fl →
      (((fl.map (fun i => if i = t then 0 else g i)) ++ List.replicate k 0).countP
        (fun x => decide (x ≠ 0))) + 1 = fl.length := by
  induction fl with
  | nil => intro _ _ ht; simp at ht
  | cons i rest ih =>
    intro hg hnd ht
    have hndc := List.nodup_cons.mp hnd
    by_cases hit : i = t
    · subst hit
      have hall : ∀ j ∈ rest, (if j = i then 0 else g j) = g j := by
        intro j hj
        have : j ≠ i := fun h => hndc.1 (h ▸ hj)
        simp [this]
      rw [List.map_cons, List.cons_append, List.countP_cons, List.countP_append,
        List.map_congr_left hall]
      have h1 : (rest.map g).countP (fun x => decide (x ≠ 0)) = rest.length := by
        rw [List.countP_eq_length.mpr, List.length_map]
        intro x hx
        obtain ⟨j, hj, rfl⟩ := List.mem_map.mp hx
        simpa using hg j (List.mem_cons_of_mem _ hj)
      have h2 : (List.replicate k 0).countP (fun x => decide (x ≠ 0)) = 0 := by
        rw [List.countP_eq_zero]
        intro x hx
        simp [(List.mem_replicate.mp hx).2]
      rw [h1, h2]
      simp
    · have htr : t ∈ rest := by
        rcases List.mem_cons.mp ht with h | h
        · exact absurd h.symm hit
        · exact h
      have := ih (fun j hj => hg j (List.mem_cons_of_mem _ hj)) hndc.2 htr
      have hgi : g i ≠ 0 := hg i (List.mem_cons_self _ _)
      rw [List.map_cons, List.cons_append, List.countP_cons]
      simp only [ne_eq] at this
      simp only [hit, if_false, hgi, ne_eq, not_false_eq_true, decide_True, if_true,
        List.length_cons]
      omega

/-- C10: in a well-formed pool with free blocks `fl`, let the magic of one free block `t` be
overwritten by a value other than FREE (its link is untouched).  Then no later `pool_malloc`
call (lock acquired) returns block `t`; once at least `fl.length` calls were made, every other
free block has been handed out, exactly `fl.length - 1` calls returned a non-null pointer,
the free list is empty, and a further call reports exhaustion: it returns null and counts one
more allocation failure. -/
theorem pool_malloc_corruption_isolation (p : memory_pool_t) (m : Mem) (fl : List Nat)
    (t v : Nat) (envs : List MallocEnv) (last : MallocEnv)
    (h : PoolInv p m fl) (ht : t ∈ fl) (hv : v % W32 ≠ POOL_MAGIC_FREE)
    (hlock : ∀ e ∈ envs, e.lock = true) (hl : last.lock = true) :
    block_addr p t + header_size ∉
        (malloc_seq p (store32 m (block_addr p t + OFF_MAGIC) v) envs).ptrs ∧
      (fl.length ≤ envs.length →
        (∀ i ∈ fl, i ≠ t → block_addr p i + header_size ∈
          (malloc_seq p (store32 m (block_addr p t + OFF_MAGIC) v) envs).ptrs) ∧
        (malloc_seq p (store32 m (block_addr p t + OFF_MAGIC) v) envs).ptrs.countP
          (fun x => decide (x ≠ 0)) + 1 = fl.length ∧
        (malloc_seq p (store32 m (block_addr p t + OFF_MAGIC) v) envs).pool.free_list = 0 ∧
        (pool_malloc (malloc_seq p (store32 m (block_addr p t + OFF_MAGIC) v) envs).pool
          (malloc_seq p (store32 m (block_addr p t + OFF_MAGIC) v) envs).mem last).ptr = 0 ∧
        (pool_malloc (malloc_seq p (store32 m (block_addr p t + OFF_MAGIC) v) envs).pool
          (malloc_seq p (store32 m (block_addr p t + OFF_MAGIC) v) envs).mem
          last).pool.allocation_failures =
          ((malloc_seq p (store32 m (block_addr p t + OFF_MAGIC) v)
            envs).pool.allocation_failures + 1) % W32) := by
  have hg := h.geom
  have htc : t < p.block_count := h.in_range t ht
  have hload : ∀ j, j < p.block_count → ∀ off, off + 4 ≤ 24 → (j = t → off ≠ OFF_MAGIC →
      off = OFF_NEXT ∨ off = OFF_POOL_ID) →
      (j ≠ t ∨ off ≠ OFF_MAGIC) →
      load32 (store32 m (block_addr p t + OFF_MAGIC) v) (block_addr p j + off) =
        load32 m (block_addr p j + off) := by
    intro j _ off hoff hcase hor
    by_cases hjt : j = t
    · subst hjt
      have hoffm : off ≠ OFF_MAGIC := by
        rcases hor with h' | h'
        · exact absurd rfl h'
        · exact h'
      rcases hcase rfl hoffm with h' | h'
      · rw [h']; exact load32_store32_other _ _ _ _ (by unfold OFF_NEXT OFF_MAGIC; omega)
      · rw [h']; exact load32_store32_other _ _ _ _ (by unfold OFF_POOL_ID OFF_MAGIC; omega)
    · have := block_addr_sep p hg t j (Ne.symm hjt)
      exact load32_store32_other _ _ _ _ (by unfold OFF_MAGIC; omega)
  obtain ⟨c1, c2, c3⟩ := malloc_seq_chain t fl p (store32 m (block_addr p t + OFF_MAGIC) v)
    envs h.mutex hg
    (by
      apply Chain_congr m _ _ _ _ h.chain
      intro a ha
      obtain ⟨j, hj, rfl⟩ := List.mem_map.mp ha
      exact hload j (h.in_range j hj) OFF_NEXT (by decide) (fun _ _ => Or.inl rfl)
        (Or.inr (by decide)))
    h.nodup h.in_range
    (fun j hj => by
      rw [hload j (h.in_range j hj) OFF_POOL_ID (by decide) (fun _ _ => Or.inr rfl)
        (Or.inr (by decide))]
      exact h.ids j (h.in_range j hj))
    (fun j hj hjt => by
      rw [hload j (h.in_range j hj) OFF_MAGIC (by decide)
        (fun e => absurd e hjt) (Or.inl hjt)]
      exact h.magic_free j hj)
    (fun _ => by rw [load32_store32_same]; exact hv)
    hlock
  have hbt := block_addr_bounds p hg t htc
  constructor
  · rw [c1]
    intro hmem
    have hmem' := List.mem_of_mem_take hmem
    rcases List.mem_append.mp hmem' with hm | hm
    · obtain ⟨j, hj, hje⟩ := List.mem_map.mp hm
      by_cases hjt : j = t
      · rw [if_pos hjt] at hje; omega
      · rw [if_neg hjt] at hje
        exact hjt (block_addr_inj p hg j t (by omega))
    · have := (List.mem_replicate.mp hm).2
      omega
  · intro hlen
    have htake : ((fl.map (fun i => if i = t then 0 else block_addr p i + header_size)) ++
        List.replicate (envs.length - fl.length) 0).take envs.length =
        (fl.map (fun i => if i = t then 0 else block_addr p i + header_size)) ++
          List.replicate (envs.length - fl.length) 0 := by
      apply List.take_of_length_le
      rw [List.length_append, List.length_map, List.length_replicate]
      omega
    rw [htake] at c1
    have hfree := c3 hlen
    have heq := pool_malloc_exhausted_eq _
      (malloc_seq p (store32 m (block_addr p t + OFF_MAGIC) v) envs).mem last c2 hl hfree
    refine ⟨?_, ?_, hfree, by rw [heq], by rw [heq]⟩
    · intro i hi hit
      rw [c1]
      apply List.mem_append_left
      apply List.mem_map.mpr
      exact ⟨i, hi, by rw [if_neg hit]⟩
    · rw [c1]
      apply countP_nonnull t _ _ fl _ h.nodup ht
      intro i hi
      have := block_addr_bounds p hg i (h.in_range i hi)
      omega

/-- The demo pool is well formed after initialisation: its free blocks are 1, 0. -/
theorem demo_PoolInv : PoolInv demo_pool demo_mem [1, 0] :=
  (init_memory_pool_ok demo_config 1 demo_init_env (fun _ => 0) (by decide)).2.1

/-- C10 on the demo pool with the magic of block 1 overwritten by 0: three calls never return
pointer 4176 and exactly one of them succeeds. -/
theorem pool_malloc_corruption_isolation_witness :
    4176 ∉ (malloc_seq demo_pool demo_tampered_mem
        [demo_malloc_env, demo_malloc_env, demo_malloc_env]).ptrs ∧
      (malloc_seq demo_pool demo_tampered_mem
        [demo_malloc_env, demo_malloc_env, demo_malloc_env]).ptrs.countP
          (fun x => decide (x ≠ 0)) + 1 = 2 :=
  have h := pool_malloc_corruption_isolation demo_pool demo_mem [1, 0] 1 0
    [demo_malloc_env, demo_malloc_env, demo_malloc_env] demo_malloc_env demo_PoolInv
    (by decide) (by decide) (by decide) (by decide)
  ⟨h.1, (h.2 (by decide)).2.1⟩

/-! ## The registry invariant -/

theorem set_pool_same (pools : Pools) (k : Nat) (q : memory_pool_t) :
    set_pool pools k q k = q := by
  unfold set_pool; rw [if_pos rfl]

theorem set_pool_other (pools : Pools) (k j : Nat) (q : memory_pool_t) (h : j ≠ k) :
    set_pool pools k q j = pools j := by
  unfold set_pool; rw [if_neg h]

theorem set_pool_self (pools : Pools) (k : Nat) : set_pool pools k (pools k) = pools := by
  funext j
  unfold set_pool
  split_ifs with h
  · rw [h]
  · rfl

theorem ArenaSep_not_in (p q : memory_pool_t) (h : ArenaSep p q) (x : Nat)
    (hx : in_arena p x) : ¬ in_arena q x := by
  unfold ArenaSep at h
  unfold in_arena at *
  omega

theorem ArenaSep_symm (p q : memory_pool_t) (h : ArenaSep p q) : ArenaSep q p := by
  unfold ArenaSep at *
  omega

theorem ArenaSep_congr (p q p' q' : memory_pool_t) (hp : SameArena p p') (hq : SameArena q q')
    (h : ArenaSep p q) : ArenaSep p' q' := by
  unfold ArenaSep at *
  rw [stride_congr p p' hp, stride_congr q q' hq, hp.2.1, hq.2.1, hp.2.2.2.1, hq.2.2.2.1]
  exact h

theorem CoreInv_update (pools : Pools) (m : Mem) (fl : Nat → List Nat)
    (hc : CoreInv pools m fl) (k : Nat) (q : memory_pool_t) (m' : Mem) (l : List Nat)
    (hsame : SameArena (pools k) q)
    (hinv : q.mutex = true → PoolInv q m' l)
    (hframe : ∀ x, ¬ ((pools k).mutex = true ∧ in_arena (pools k) x) → m' x = m x) :
    CoreInv (set_pool pools k q) m' (fun j => if j = k then l else fl j) := by
  constructor
  · intro j hj
    by_cases e : j = k
    · subst e
      rw [set_pool_same] at hj ⊢
      rw [hsame.2.2.2.2.2]
      exact hc.ids j (by rw [← hsame.2.2.2.2.1]; exact hj)
    · rw [set_pool_other _ _ _ _ e] at hj ⊢
      exact hc.ids j hj
  · intro j hj hmx
    by_cases e : j = k
    · subst e
      rw [set_pool_same] at hmx ⊢
      simp only [if_true]
      exact hinv hmx
    · rw [set_pool_other _ _ _ _ e] at hmx ⊢
      simp only [e, if_false]
      apply PoolInv_frame (pools j) (pools j) m m' (fl j) (hc.inv j hj hmx) rfl rfl rfl rfl rfl
        rfl rfl rfl rfl
      intro x hx1 hx2
      apply hframe
      rintro ⟨hk, hin⟩
      by_cases hkc : k < POOL_COUNT
      · exact ArenaSep_not_in _ _ (hc.sep j k hj hkc e hmx hk) x ⟨hx1, hx2⟩ hin
      · exact hkc (hc.lt k hk)
  · intro i j hi hj hij hmi hmj
    by_cases ei : i = k
    · subst ei
      rw [set_pool_same] at hmi ⊢
      rw [set_pool_other _ _ _ _ (Ne.symm hij)] at hmj ⊢
      exact ArenaSep_congr _ _ _ _ hsame (SameArena_refl _)
        (hc.sep i j hi hj hij (by rw [← hsame.2.2.2.2.1]; exact hmi) hmj)
    · rw [set_pool_other _ _ _ _ ei] at hmi ⊢
      by_cases ej : j = k
      · subst ej
        rw [set_pool_same] at hmj ⊢
        exact ArenaSep_congr _ _ _ _ (SameArena_refl _) hsame
          (hc.sep i j hi hj hij hmi (by rw [← hsame.2.2.2.2.1]; exact hmj))
      · rw [set_pool_other _ _ _ _ ej] at hmj ⊢
        exact hc.sep i j hi hj hij hmi hmj
  · intro j hj
    by_cases e : j = k
    · subst e
      rw [set_pool_same] at hj
      exact hc.lt j (by rw [← hsame.2.2.2.2.1]; exact hj)
    · rw [set_pool_other _ _ _ _ e] at hj
      exact hc.lt j hj

theorem CoreInv_install (pools : Pools) (m : Mem) (fl : Nat → List Nat)
    (hc : CoreInv pools m fl) (n : Nat) (hn : n < POOL_COUNT) (q : memory_pool_t) (m' : Mem)
    (l : List Nat) (hoff : (pools n).mutex = false)
    (hq : q.mutex = true → q.pool_id = n + 1 ∧ PoolInv q m' l ∧
      ∀ j, j ≠ n → (pools j).mutex = true → ArenaSep (pools j) q)
    (hframe : ∀ j, (pools j).mutex = true → ∀ x, in_arena (pools j) x → m' x = m x) :
    CoreInv (set_pool pools n q) m' (fun j => if j = n then l else fl j) := by
  constructor
  · intro j hj
    by_cases e : j = n
    · subst e
      rw [set_pool_same] at hj ⊢
      exact (hq hj).1
    · rw [set_pool_other _ _ _ _ e] at hj ⊢
      exact hc.ids j hj
  · intro j hj hmx
    by_cases e : j = n
    · subst e
      rw [set_pool_same] at hmx ⊢
      simp only [if_true]
      exact (hq hmx).2.1
    · rw [set_pool_other _ _ _ _ e] at hmx ⊢
      simp only [e, if_false]
      apply PoolInv_frame (pools j) (pools j) m m' (fl j) (hc.inv j hj hmx) rfl rfl rfl rfl rfl
        rfl rfl rfl rfl
      intro x hx1 hx2
      exact hframe j hmx x ⟨hx1, hx2⟩
  · intro i j hi hj hij hmi hmj
    by_cases ei : i = n
    · subst ei
      rw [set_pool_same] at hmi ⊢
      rw [set_pool_other _ _ _ _ (Ne.symm hij)] at hmj ⊢
      exact ArenaSep_symm _ _ ((hq hmi).2.2 j (Ne.symm hij) hmj)
    · rw [set_pool_other _ _ _ _ ei] at hmi ⊢
      by_cases ej : j = n
      · subst ej
        rw [set_pool_same] at hmj ⊢
        exact (hq hmj).2.2 i ei hmi
      · rw [set_pool_other _ _ _ _ ej] at hmj ⊢
        exact hc.sep i j hi hj hij hmi hmj
  · intro j hj
    by_cases e : j = n
    · rw [e]; exact hn
    · rw [set_pool_other _ _ _ _ e] at hj
      exact hc.lt j hj

theorem init_memory_pool_fail (c : pool_config_t) (id : Nat) (env : InitEnv) (m : Mem)
    (h : env.arena = 0 ∨ env.bitmap_ok = false) :
    (init_memory_pool c id env m).pool.mutex = false ∧ (init_memory_pool c id env m).mem = m := by
  unfold init_memory_pool
  dsimp only
  by_cases h0 : env.arena = 0
  · rw [if_pos h0]
    exact ⟨rfl, rfl⟩
  · have hb : env.bitmap_ok = false := by
      rcases h with h | h
      · exact absurd h h0
      · exact h
    rw [if_neg h0, if_pos (by simp [hb])]
    exact ⟨rfl, rfl⟩

theorem init_memory_pool_frame (c : pool_config_t) (id : Nat) (env : InitEnv) (m : Mem)
    (h2 : env.bitmap_ok = true) (hf : InitFits c env) (hid : id < W32) :
    (init_memory_pool c id env m).pool.mutex = env.mutex_ok ∧
      ∀ x, x < env.arena ∨ arena_end c env ≤ x → (init_memory_pool c id env m).mem x = m x := by
  obtain ⟨f1, f2, f3, f4⟩ := hf
  rw [init_memory_pool_eq c id env m f1 h2 f2]
  refine ⟨rfl, ?_⟩
  intro x hx
  have hs : 24 ≤ total_block_size c.block_size 4 := by
    unfold total_block_size
    rw [Nat.mod_eq_of_lt f3]; unfold header_size; omega
  exact (init_loop_spec env.arena (total_block_size c.block_size 4) id m c.block_count hs f1
    f4 hid c.block_count (Nat.le_refl _)).2.2.2 x hx

theorem BootInv_zero (envs : Nat → InitEnv) (m : Mem) :
    BootInv envs 0 (fun _ => zero_pool) m (fun _ => []) := by
  have hz : ∀ j, ((fun _ => zero_pool : Pools) j).mutex = true → False := by
    intro j hj
    have hz' : zero_pool.mutex = false := rfl
    have hj' : zero_pool.mutex = true := hj
    rw [hz'] at hj'
    exact Bool.noConfusion hj'
  constructor
  · constructor
    · intro k hk; exact (hz k hk).elim
    · intro k _ hk; exact (hz k hk).elim
    · intro j k _ _ _ hj; exact (hz j hj).elim
    · intro k hk; exact (hz k hk).elim
  · intro j hj; exact (hz j hj).elim
  · intro j hj; exact (hz j hj).elim

theorem init_memory_pool_boot (c : pool_config_t) (id : Nat) (env : InitEnv) (m : Mem)
    (h2 : env.bitmap_ok = true) (hf : InitFits c env) (hid : id < W32) :
    ((init_memory_pool c id env m).pool.mutex = true →
        env.mutex_ok = true ∧
          PoolInv (init_memory_pool c id env m).pool (init_memory_pool c id env m).mem
            (List.range c.block_count).reverse ∧
          (init_memory_pool c id env m).pool.pool_id = id ∧
          (init_memory_pool c id env m).pool.pool_memory = env.arena ∧
          (init_memory_pool c id env m).pool.pool_memory +
            (init_memory_pool c id env m).pool.block_count *
              stride (init_memory_pool c id env m).pool = arena_end c env ∧
          (init_memory_pool c id env m).pool.block_count = c.block_count) ∧
      ∀ x, x < env.arena ∨ arena_end c env ≤ x → (init_memory_pool c id env m).mem x = m x := by
  obtain ⟨hmx, hframe⟩ := init_memory_pool_frame c id env m h2 hf hid
  refine ⟨?_, hframe⟩
  intro hq
  rw [hmx] at hq
  obtain ⟨f1, f2, f3, f4⟩ := hf
  obtain ⟨_, hinv, _, hbs, hcount, hal, hpm, hpid, _⟩ :=
    init_memory_pool_ok c id env m ⟨f1, h2, hq, f2, f3, f4, hid⟩
  refine ⟨hq, hinv, hpid, hpm, ?_, hcount⟩
  unfold stride arena_end
  rw [hpm, hcount, hbs, hal]

theorem BootInv_step (envs : Nat → InitEnv) (hboot : BootOK envs) (n : Nat)
    (hn : n < POOL_COUNT) (pools : Pools) (m : Mem) (fl : Nat → List Nat)
    (h : BootInv envs n pools m fl) :
    ∃ fl', BootInv envs (n + 1)
      (set_pool pools n (init_memory_pool (config_at n) ((n + 1) % W32) (envs n) m).pool)
      (init_memory_pool (config_at n) ((n + 1) % W32) (envs n) m).mem fl' := by
  have hoff : (pools n).mutex = false := by
    cases hm : (pools n).mutex
    · rfl
    · have := (h.done n hm).1
      omega
  have hid : (n + 1) % W32 = n + 1 :=
    Nat.mod_eq_of_lt (by unfold POOL_COUNT at hn; unfold W32; omega)
  rw [hid]
  have hidlt : n + 1 < W32 := by unfold POOL_COUNT at hn; unfold W32; omega
  -- what the three cases share
  have key : ∀ (l : List Nat),
      ((init_memory_pool (config_at n) (n + 1) (envs n) m).pool.mutex = true →
        (envs n).arena ≠ 0 ∧ (envs n).bitmap_ok = true ∧ (envs n).mutex_ok = true ∧
          PoolInv (init_memory_pool (config_at n) (n + 1) (envs n) m).pool
            (init_memory_pool (config_at n) (n + 1) (envs n) m).mem l ∧
          (init_memory_pool (config_at n) (n + 1) (envs n) m).pool.pool_id = n + 1 ∧
          (init_memory_pool (config_at n) (n + 1) (envs n) m).pool.pool_memory =
            (envs n).arena ∧
          (init_memory_pool (config_at n) (n + 1) (envs n) m).pool.pool_memory +
            (init_memory_pool (config_at n) (n + 1) (envs n) m).pool.block_count *
              stride (init_memory_pool (config_at n) (n + 1) (envs n) m).pool =
            arena_end (config_at n) (envs n) ∧
          (∀ i, i < (init_memory_pool (config_at n) (n + 1) (envs n) m).pool.block_count →
            i ∈ l) ∧
          (∀ j, j ≠ n → (pools j).mutex = true →
            ArenaSep (pools j) (init_memory_pool (config_at n) (n + 1) (envs n) m).pool)) →
      (∀ j, (pools j).mutex = true → ∀ x, in_arena (pools j) x →
        (init_memory_pool (config_at n) (n + 1) (envs n) m).mem x = m x) →
      BootInv envs (n + 1)
        (set_pool pools n (init_memory_pool (config_at n) (n + 1) (envs n) m).pool)
        (init_memory_pool (config_at n) (n + 1) (envs n) m).mem
        (fun j => if j = n then l else fl j) := by
    intro l hq hframe
    constructor
    · exact CoreInv_install pools m fl h.core n hn _ _ l hoff
        (fun hmx => ⟨(hq hmx).2.2.2.2.1, (hq hmx).2.2.2.1, (hq hmx).2.2.2.2.2.2.2.2⟩) hframe
    · intro j hj
      by_cases e : j = n
      · subst e
        rw [set_pool_same] at hj ⊢
        obtain ⟨q1, q2, q3, _, _, q6, q7, _, _⟩ := hq hj
        exact ⟨by omega, q1, q2, q3, q6, q7⟩
      · rw [set_pool_other _ _ _ _ e] at hj ⊢
        obtain ⟨d1, d2⟩ := h.done j hj
        exact ⟨by omega, d2⟩
    · intro j hj i hi
      by_cases e : j = n
      · subst e
        rw [set_pool_same] at hj hi
        simp only [if_true]
        exact (hq hj).2.2.2.2.2.2.2.1 i hi
      · rw [set_pool_other _ _ _ _ e] at hj hi
        simp only [e, if_false]
        exact h.full j hj i hi
  by_cases hfail : (envs n).arena = 0 ∨ (envs n).bitmap_ok = false
  · obtain ⟨q1, q2⟩ := init_memory_pool_fail (config_at n) (n + 1) (envs n) m hfail
    refine ⟨_, key [] (fun hmx => ?_) (fun j _ x _ => by rw [q2])⟩
    rw [q1] at hmx
    exact Bool.noConfusion hmx
  · have ha : (envs n).arena ≠ 0 := fun e => hfail (Or.inl e)
    have hb : (envs n).bitmap_ok = true := by
      cases hbm : (envs n).bitmap_ok
      · exact absurd (Or.inr hbm) hfail
      · rfl
    obtain ⟨hfits, hdis⟩ : InitFits (config_at n) (envs n) ∧
        ∀ j, j < n → (envs j).arena ≠ 0 → (envs j).bitmap_ok = true →
          (envs j).mutex_ok = true →
            arena_end (config_at j) (envs j) ≤ (envs n).arena ∨
              arena_end (config_at n) (envs n) ≤ (envs j).arena := by
      rcases hboot n hn with h1 | h1 | h1
      · exact absurd h1 ha
      · rw [hb] at h1; exact Bool.noConfusion h1
      · exact h1
    obtain ⟨hgood, hframe⟩ :=
      init_memory_pool_boot (config_at n) (n + 1) (envs n) m hb hfits hidlt
    have hsep : ∀ j, (pools j).mutex = true →
        (pools j).pool_memory + (pools j).block_count * stride (pools j) ≤ (envs n).arena ∨
          arena_end (config_at n) (envs n) ≤ (pools j).pool_memory := by
      intro j hj
      obtain ⟨d1, d2, d3, d4, d5, d6⟩ := h.done j hj
      rw [d6, d5]
      exact hdis j d1 d2 d3 d4
    refine ⟨_, key (List.range (config_at n).block_count).reverse (fun hmx => ?_) ?_⟩
    · obtain ⟨g1, g2, g3, g4, g5, g6⟩ := hgood hmx
      refine ⟨ha, hb, g1, g2, g3, g4, g5, ?_, ?_⟩
      · intro i hi
        rw [g6] at hi
        rw [List.mem_reverse, List.mem_range]
        exact hi
      · intro j _ hj
        unfold ArenaSep
        rw [g5, g4]
        exact hsep j hj
    · intro j hj x hx
      apply hframe
      have := hsep j hj
      unfold in_arena at hx
      omega

theorem init_pools_loop_cons (envs : Nat → InitEnv) (i : Nat) (is : List Nat) (pools : Pools)
    (m : Mem) :
    init_pools_loop envs (i :: is) pools m =
      init_pools_loop envs is
        (set_pool pools i (init_memory_pool (config_at i) ((i + 1) % W32) (envs i) m).pool)
        (init_memory_pool (config_at i) ((i + 1) % W32) (envs i) m).mem := rfl

theorem init_pools_BootInv (envs : Nat → InitEnv) (m : Mem) (h : BootOK envs) :
    ∃ fl, BootInv envs POOL_COUNT (init_pools envs m).1 (init_pools envs m).2 fl := by
  have hr : List.range POOL_COUNT = [0, 1, 2, 3] := by decide
  obtain ⟨fl1, h1⟩ := BootInv_step envs h 0 (by decide) _ m _ (BootInv_zero envs m)
  obtain ⟨fl2, h2⟩ := BootInv_step envs h 1 (by decide) _ _ _ h1
  obtain ⟨fl3, h3⟩ := BootInv_step envs h 2 (by decide) _ _ _ h2
  obtain ⟨fl4, h4⟩ := BootInv_step envs h 3 (by decide) _ _ _ h3
  refine ⟨fl4, ?_⟩
  unfold init_pools
  rw [hr, init_pools_loop_cons, init_pools_loop_cons, init_pools_loop_cons,
    init_pools_loop_cons]
  exact h4

theorem boot_RegInv (envs : Nat → InitEnv) (m : Mem) (h : BootOK envs) :
    ∃ fl, RegInv (boot envs m) fl := by
  obtain ⟨fl, hb⟩ := init_pools_BootInv envs m h
  refine ⟨fl, ⟨hb.core, ?_, ?_⟩⟩
  · intro k ptr
    constructor
    · intro hmem
      exact absurd hmem (List.not_mem_nil _)
    · rintro ⟨_, hmx, i, hi, hni, _⟩
      exact absurd (hb.full k hmx i hi) hni
  · intro ptr hmem
    exact absurd hmem (List.not_mem_nil _)

/-! ## Preservation of the state invariant -/

theorem set_pool_SameArena (pools : Pools) (k : Nat) (q : memory_pool_t)
    (h : SameArena (pools k) q) : ∀ j, SameArena (pools j) (set_pool pools k q j) := by
  intro j
  by_cases e : j = k
  · subst e; rw [set_pool_same]; exact h
  · rw [set_pool_other _ _ _ _ e]; exact SameArena_refl _

theorem BlockPtr_congr (pools pools' : Pools) (h : ∀ j, SameArena (pools j) (pools' j))
    (ptr : Nat) (hb : BlockPtr pools ptr) : BlockPtr pools' ptr := by
  obtain ⟨k, i, hk, hmx, hi, hp⟩ := hb
  refine ⟨k, i, hk, ?_, ?_, ?_⟩
  · rw [(h k).2.2.2.2.1]; exact hmx
  · rw [(h k).2.1]; exact hi
  · rw [block_addr_congr _ _ (h k)]; exact hp

theorem HeapOK_congr (pools pools' : Pools) (h : ∀ j, SameArena (pools j) (pools' j))
    (ptr : Nat) (hb : HeapOK pools ptr) : HeapOK pools' ptr := by
  intro k hk hmx hin
  rw [(h k).2.2.2.2.1] at hmx
  exact hb k hk hmx ((in_arena_congr _ _ (h k) _).mp hin)

theorem RegInv_update (s : State) (fl : Nat → List Nat) (h : RegInv s fl) (k : Nat)
    (q : memory_pool_t) (m' : Mem) (l : List Nat) (live' : List (Nat × Nat))
    (returned' : List Nat)
    (hsame : SameArena (s.pools k) q)
    (hinv : q.mutex = true → PoolInv q m' l)
    (hframe : ∀ x, ¬ ((s.pools k).mutex = true ∧ in_arena (s.pools k) x) → m' x = s.mem x)
    (hlive : ∀ k' ptr, (k', ptr) ∈ live' ↔
      ((k' ≠ k ∧ (k', ptr) ∈ s.live) ∨
        (k' = k ∧ (s.pools k).mutex = true ∧
          ∃ i, i < (s.pools k).block_count ∧ i ∉ l ∧
            ptr = block_addr (s.pools k) i + header_size)))
    (hret : ∀ ptr ∈ returned',
      ptr ∈ s.returned ∨ BlockPtr s.pools ptr ∨ HeapOK s.pools ptr) :
    RegInv ⟨set_pool s.pools k q, m', live', returned'⟩
      (fun j => if j = k then l else fl j) := by
  have hall := set_pool_SameArena s.pools k q hsame
  refine ⟨CoreInv_update s.pools s.mem fl h.core k q m' l hsame hinv hframe, ?_, ?_⟩
  · intro k' ptr
    show (k', ptr) ∈ live' ↔ _
    rw [hlive k' ptr]
    by_cases e : k' = k
    · subst e
      have e1 : set_pool s.pools k' q k' = q := set_pool_same _ _ _
      simp only [e1, if_true, ne_eq, not_true_eq_false, false_and, false_or, true_and]
      rw [hsame.2.2.2.2.1, hsame.2.1, funext (block_addr_congr _ _ hsame)]
      constructor
      · intro ⟨hmx, hex⟩
        exact ⟨h.core.lt k' hmx, hmx, hex⟩
      · intro ⟨_, hmx, hex⟩
        exact ⟨hmx, hex⟩
    · have e1 : set_pool s.pools k q k' = s.pools k' := set_pool_other _ _ _ _ e
      simp only [e1, e, if_false, ne_eq, not_false_eq_true, true_and, false_and, or_false]
      exact h.live k' ptr
  · intro ptr hp
    rcases hret ptr hp with h1 | h1 | h1
    · rcases h.returned ptr h1 with h2 | h2
      · exact Or.inl (BlockPtr_congr _ _ hall ptr h2)
      · exact Or.inr (HeapOK_congr _ _ hall ptr h2)
    · exact Or.inl (BlockPtr_congr _ _ hall ptr h1)
    · exact Or.inr (HeapOK_congr _ _ hall ptr h1)

theorem ite_fl_self (fl : Nat → List Nat) (k : Nat) :
    (fun j => if j = k then fl k else fl j) = fl := by
  funext j
  split_ifs with e
  · rw [e]
  · rfl

theorem RegInv_quiet (s : State) (fl : Nat → List Nat) (h : RegInv s fl) (k : Nat)
    (q : memory_pool_t) (hsame : SameArena (s.pools k) q)
    (h1 : q.free_list = (s.pools k).free_list)
    (h2 : q.usage_bitmap = (s.pools k).usage_bitmap)
    (h3 : q.allocated_blocks = (s.pools k).allocated_blocks) :
    RegInv ⟨set_pool s.pools k q, s.mem, s.live, s.returned⟩ fl := by
  have hmq : q.mutex = (s.pools k).mutex := hsame.2.2.2.2.1
  have key := RegInv_update s fl h k q s.mem (fl k) s.live s.returned hsame
    (fun hmx => by
      have hmx' : (s.pools k).mutex = true := by rw [← hmq]; exact hmx
      exact PoolInv_frame (s.pools k) q s.mem s.mem (fl k)
        (h.core.inv k (h.core.lt k hmx') hmx') hsame.1 hsame.2.1 hsame.2.2.1 hsame.2.2.2.1 h1
        h2 h3 hmq hsame.2.2.2.2.2 (fun _ _ _ => rfl))
    (fun _ _ => rfl)
    (fun k' ptr => by
      by_cases e : k' = k
      · subst e
        simp only [ne_eq, not_true_eq_false, false_and, false_or, true_and]
        rw [h.live k' ptr]
        constructor
        · intro ⟨_, hmx, hex⟩; exact ⟨hmx, hex⟩
        · intro ⟨hmx, hex⟩; exact ⟨h.core.lt k' hmx, hmx, hex⟩
      · simp only [e, ne_eq, not_false_eq_true, true_and, false_and, or_false])
    (fun ptr hp => Or.inl hp)
  rw [ite_fl_self] at key
  exact key

theorem pool_malloc_frame (p : memory_pool_t) (m : Mem) (env : MallocEnv) (i : Nat)
    (fl : List Nat) (h : PoolInv p m (i :: fl)) (hl : env.lock = true) :
    ∀ x, ¬ in_arena p x → (pool_malloc p m env).mem x = m x := by
  intro x hx
  have hg := h.geom
  have hi : i < p.block_count := h.in_range i (List.mem_cons_self _ _)
  rw [pool_malloc_success_eq p m env i h.mutex hg hl hi h.chain.1
    (h.magic_free i (List.mem_cons_self _ _)) (h.ids i hi)]
  have hb := block_addr_bounds p hg i hi
  have he := block_addr_end p i hi
  have hs := stride_ge p hg
  apply malloc_mem_outside
  unfold in_arena at hx
  omega

theorem step_malloc_eq (s : State) (k : Nat) (env : MallocEnv) :
    step s (.malloc k env) =
      ⟨set_pool s.pools k (pool_malloc (s.pools k) s.mem env).pool,
        (pool_malloc (s.pools k) s.mem env).mem,
        if (pool_malloc (s.pools k) s.mem env).ptr ≠ 0 then
          (k, (pool_malloc (s.pools k) s.mem env).ptr) :: s.live
        else s.live,
        if (pool_malloc (s.pools k) s.mem env).ptr ≠ 0 then
          (pool_malloc (s.pools k) s.mem env).ptr :: s.returned
        else s.returned⟩ := rfl

theorem RegInv_malloc (s : State) (fl : Nat → List Nat) (h : RegInv s fl) (k : Nat)
    (hk : k < POOL_COUNT) (env : MallocEnv) :
    ∃ fl', RegInv (step s (.malloc k env)) fl' := by
  rw [step_malloc_eq]
  have hquiet : ∀ q ev, pool_malloc (s.pools k) s.mem env = ⟨0, q, s.mem, ev⟩ →
      SameArena (s.pools k) q → q.free_list = (s.pools k).free_list →
      q.usage_bitmap = (s.pools k).usage_bitmap →
      q.allocated_blocks = (s.pools k).allocated_blocks →
      ∃ fl', RegInv
        ⟨set_pool s.pools k (pool_malloc (s.pools k) s.mem env).pool,
          (pool_malloc (s.pools k) s.mem env).mem,
          if (pool_malloc (s.pools k) s.mem env).ptr ≠ 0 then
            (k, (pool_malloc (s.pools k) s.mem env).ptr) :: s.live
          else s.live,
          if (pool_malloc (s.pools k) s.mem env).ptr ≠ 0 then
            (pool_malloc (s.pools k) s.mem env).ptr :: s.returned
          else s.returned⟩ fl' := by
    intro q ev heq hsame h1 h2 h3
    rw [heq]
    simp only [ne_eq, not_true_eq_false, if_false]
    exact ⟨fl, RegInv_quiet s fl h k q hsame h1 h2 h3⟩
  cases hmx : (s.pools k).mutex
  · exact hquiet _ _ (pool_malloc_disabled_eq _ _ env hmx) (SameArena_refl _) rfl rfl rfl
  · cases hl : env.lock
    · exact hquiet _ _ (pool_malloc_timeout_eq _ _ env hmx hl) ⟨rfl, rfl, rfl, rfl, rfl, rfl⟩
        rfl rfl rfl
    · have hinv := h.core.inv k hk hmx
      cases hfl : fl k with
      | nil =>
        rw [hfl] at hinv
        exact hquiet _ _ (PoolInv_malloc_empty _ _ env hinv hl) ⟨rfl, rfl, rfl, rfl, rfl, rfl⟩
          rfl rfl rfl
      | cons i rest =>
        rw [hfl] at hinv
        obtain ⟨hptr, hinv'⟩ := PoolInv_malloc _ _ env i rest hinv hl
        have hi : i < (s.pools k).block_count := hinv.in_range i (List.mem_cons_self _ _)
        have hb := block_addr_bounds _ hinv.geom i hi
        have hne : (pool_malloc (s.pools k) s.mem env).ptr ≠ 0 := by rw [hptr]; omega
        have hnd := List.nodup_cons.mp hinv.nodup
        rw [if_pos hne, if_pos hne]
        refine ⟨_, RegInv_update s fl h k _ _ rest _ _ (pool_malloc_SameArena _ _ _)
          (fun _ => hinv') ?_ ?_ ?_⟩
        · intro x hx
          apply pool_malloc_frame _ _ env i rest hinv hl
          exact fun hin => hx ⟨hmx, hin⟩
        · intro k' ptr
          rw [List.mem_cons, hptr]
          constructor
          · rintro (heq | hmem)
            · right
              rw [Prod.mk.injEq] at heq
              exact ⟨heq.1, hmx, i, hi, hnd.1, heq.2⟩
            · by_cases e : k' = k
              · right
                subst e
                obtain ⟨_, _, j, hj, hnj, hp⟩ := (h.live k' ptr).mp hmem
                rw [hfl] at hnj
                exact ⟨rfl, hmx, j, hj, fun hr => hnj (List.mem_cons_of_mem _ hr), hp⟩
              · left; exact ⟨e, hmem⟩
          · rintro (⟨_, hmem⟩ | ⟨e, _, j, hj, hnj, hp⟩)
            · right; exact hmem
            · by_cases eji : j = i
              · left; rw [e, hp, eji]
              · right
                rw [e]
                apply (h.live k ptr).mpr
                refine ⟨hk, hmx, j, hj, ?_, hp⟩
                rw [hfl]
                intro hmem
                rcases List.mem_cons.mp hmem with h' | h'
                · exact eji h'
                · exact hnj h'
        · intro ptr hp
          rcases List.mem_cons.mp hp with h' | h'
          · right; left
            exact ⟨k, i, hk, hmx, hi, by rw [h', hptr]⟩
          · left; exact h'

theorem sub32_block_ptr (p : memory_pool_t) (hg : Geometry p) (i : Nat)
    (hi : i < p.block_count) :
    sub32 (block_addr p i + header_size) header_size = block_addr p i := by
  have hb := block_addr_bounds p hg i hi
  rw [sub32_eq _ _ (by unfold header_size; omega) (by omega)]
  omega

theorem pool_free_frame (p : memory_pool_t) (m : Mem) (env : FreeEnv) (i : Nat)
    (fl : List Nat) (h : PoolInv p m fl) (hl : env.lock = true) (hi : i < p.block_count)
    (hn : i ∉ fl) :
    ∀ x, ¬ in_arena p x → (pool_free p m (block_addr p i + header_size) env).mem x = m x := by
  intro x hx
  have hg := h.geom
  rw [pool_free_success_eq p m env i h.mutex hg hl hi (h.magic_alloc i hi hn) (h.ids i hi)]
  have hb := block_addr_bounds p hg i hi
  have he := block_addr_end p i hi
  have hs := stride_ge p hg
  apply free_mem_outside
  unfold in_arena at hx
  omega

theorem step_free_eq (s : State) (k ptr : Nat) (env : FreeEnv) :
    step s (.free k ptr env) =
      ⟨set_pool s.pools k (pool_free (s.pools k) s.mem ptr env).pool,
        (pool_free (s.pools k) s.mem ptr env).mem,
        if (pool_free (s.pools k) s.mem ptr env).ok then
          s.live.filter (fun x => decide (x ≠ (k, ptr)))
        else s.live,
        s.returned⟩ := rfl

theorem RegInv_free (s : State) (fl : Nat → List Nat) (h : RegInv s fl) (k : Nat)
    (hk : k < POOL_COUNT) (ptr : Nat) (env : FreeEnv)
    (hadm : BlockPtr s.pools ptr ∨ HeapOK s.pools ptr) :
    ∃ fl', RegInv (step s (.free k ptr env)) fl' := by
  rw [step_free_eq]
  have hquiet : ∀ q ev, pool_free (s.pools k) s.mem ptr env = ⟨false, q, s.mem, ev⟩ →
      SameArena (s.pools k) q → q.free_list = (s.pools k).free_list →
      q.usage_bitmap = (s.pools k).usage_bitmap →
      q.allocated_blocks = (s.pools k).allocated_blocks →
      ∃ fl', RegInv
        ⟨set_pool s.pools k (pool_free (s.pools k) s.mem ptr env).pool,
          (pool_free (s.pools k) s.mem ptr env).mem,
          if (pool_free (s.pools k) s.mem ptr env).ok then
            s.live.filter (fun x => decide (x ≠ (k, ptr)))
          else s.live,
          s.returned⟩ fl' := by
    intro q ev heq hsame h1 h2 h3
    rw [heq]
    simp only [Bool.false_eq_true, if_false]
    exact ⟨fl, RegInv_quiet s fl h k q hsame h1 h2 h3⟩
  by_cases h0 : ptr = 0 ∨ (s.pools k).mutex = false
  · exact hquiet _ _ (pool_free_disabled_eq _ _ env ptr h0) (SameArena_refl _) rfl rfl rfl
  have hptr : ptr ≠ 0 := fun e => h0 (Or.inl e)
  have hmx : (s.pools k).mutex = true := by
    cases hm : (s.pools k).mutex
    · exact absurd (Or.inr hm) h0
    · rfl
  cases hl : env.lock
  · exact hquiet _ _ (pool_free_timeout_eq _ _ env ptr hmx hl hptr)
      ⟨rfl, rfl, rfl, rfl, rfl, rfl⟩ rfl rfl rfl
  have hinv := h.core.inv k hk hmx
  have hreject : (load32 s.mem (sub32 ptr header_size + OFF_MAGIC) ≠ POOL_MAGIC_ALLOC ∨
      load32 s.mem (sub32 ptr header_size + OFF_POOL_ID) ≠ (s.pools k).pool_id) →
      ∃ fl', RegInv
        ⟨set_pool s.pools k (pool_free (s.pools k) s.mem ptr env).pool,
          (pool_free (s.pools k) s.mem ptr env).mem,
          if (pool_free (s.pools k) s.mem ptr env).ok then
            s.live.filter (fun x => decide (x ≠ (k, ptr)))
          else s.live,
          s.returned⟩ fl' := fun hbad =>
    hquiet _ _ (pool_free_reject_eq _ _ env ptr hmx hl hptr hbad) (SameArena_refl _) rfl rfl
      rfl
  rcases hadm with ⟨k', i, hk', hmx', hi, hp⟩ | hheap
  · have hinv' := h.core.inv k' hk' hmx'
    have hblk := sub32_block_ptr _ hinv'.geom i hi
    by_cases e : k' = k
    · subst e
      by_cases hmem : i ∈ fl k'
      · apply hreject
        left
        rw [hp, hblk, hinv.magic_free i hmem]
        decide
      · -- the block is allocated: the call succeeds
        rw [hp]
        obtain ⟨hok, hinvf⟩ := PoolInv_free _ _ env i (fl k') hinv hl hi hmem
        rw [hok]
        simp only [if_true]
        refine ⟨_, RegInv_update s fl h k' _ _ (i :: fl k') _ _ (pool_free_SameArena _ _ _ _)
          (fun _ => hinvf) ?_ ?_ (fun q hq => Or.inl hq)⟩
        · intro x hx
          apply pool_free_frame _ _ env i (fl k') hinv hl hi hmem
          exact fun hin => hx ⟨hmx, hin⟩
        · intro k2 p2
          rw [List.mem_filter]
          simp only [decide_eq_true_eq, ne_eq, Prod.mk.injEq, not_and]
          constructor
          · rintro ⟨hm2, hne2⟩
            by_cases e2 : k2 = k'
            · right
              subst e2
              obtain ⟨_, _, j, hj, hnj, hpj⟩ := (h.live k2 p2).mp hm2
              refine ⟨rfl, hmx, j, hj, ?_, hpj⟩
              intro hjm
              rcases List.mem_cons.mp hjm with h' | h'
              · exact hne2 rfl (by rw [hpj, h'])
              · exact hnj h'
            · left; exact ⟨e2, hm2⟩
          · rintro (⟨e2, hm2⟩ | ⟨e2, _, j, hj, hnj, hpj⟩)
            · exact ⟨hm2, fun h' => absurd h' e2⟩
            · subst e2
              have hji : j ≠ i := fun h' => hnj (h' ▸ List.mem_cons_self _ _)
              refine ⟨(h.live k2 p2).mpr ⟨hk, hmx, j, hj,
                fun h' => hnj (List.mem_cons_of_mem _ h'), hpj⟩, fun _ h' => ?_⟩
              rw [hpj] at h'
              exact hji (block_addr_inj _ hinv.geom j i (by omega))
    · apply hreject
      right
      rw [hp, hblk, hinv'.ids i hi, h.core.ids k' hmx', h.core.ids k hmx]
      omega
  · by_cases hhdr : load32 s.mem (sub32 ptr header_size + OFF_MAGIC) = POOL_MAGIC_ALLOC ∧
        load32 s.mem (sub32 ptr header_size + OFF_POOL_ID) = (s.pools k).pool_id
    · exact hquiet _ _ (pool_free_oob_eq _ _ env ptr hmx hl hptr hinv.geom.2.2.1 hhdr.1 hhdr.2
        (hheap k hk hmx)) ⟨rfl, rfl, rfl, rfl, rfl, rfl⟩ rfl rfl rfl
    · apply hreject
      by_cases h1 : load32 s.mem (sub32 ptr header_size + OFF_MAGIC) = POOL_MAGIC_ALLOC
      · right; exact fun h2 => hhdr ⟨h1, h2⟩
      · left; exact h1

theorem smart_pool_malloc_loop_RegInv (required_size size : Nat) (env : SmartMallocEnv)
    (live : List (Nat × Nat)) (returned : List Nat) (is : List Nat) :
    (∀ i ∈ is, i < POOL_COUNT) →
    ∀ (pools : Pools) (m : Mem) (fl : Nat → List Nat),
      RegInv ⟨pools, m, live, returned⟩ fl → HeapOK pools env.heap →
        ∃ fl', RegInv
          ⟨(smart_pool_malloc_loop required_size size env is pools m).pools,
            (smart_pool_malloc_loop required_size size env is pools m).mem,
            match (smart_pool_malloc_loop required_size size env is pools m).served_by with
            | some k => (k, (smart_pool_malloc_loop required_size size env is pools m).ptr) :: live
            | none => live,
            if (smart_pool_malloc_loop required_size size env is pools m).ptr ≠ 0 then
              (smart_pool_malloc_loop required_size size env is pools m).ptr :: returned
            else returned⟩ fl' := by
  induction is with
  | nil =>
    intro _ pools m fl h hheap
    refine ⟨fl, ⟨h.core, h.live, ?_⟩⟩
    intro ptr hp
    show BlockPtr pools ptr ∨ HeapOK pools ptr
    have hp' : ptr ∈ (if env.heap ≠ 0 then env.heap :: returned else returned) := hp
    split_ifs at hp' with h0
    · rcases List.mem_cons.mp hp' with h' | h'
      · right; rw [h']; exact hheap
      · exact h.returned ptr h'
    · exact h.returned ptr hp'
  | cons i is ih =>
    intro his pools m fl h hheap
    have hi : i < POOL_COUNT := his i (List.mem_cons_self _ _)
    have his' : ∀ j ∈ is, j < POOL_COUNT := fun j hj => his j (List.mem_cons_of_mem _ hj)
    unfold smart_pool_malloc_loop
    by_cases hsz : required_size ≤ (pools i).block_size
    · rw [if_pos hsz]
      obtain ⟨fl1, h1⟩ := RegInv_malloc ⟨pools, m, live, returned⟩ fl h i hi (env.pool i)
      rw [step_malloc_eq] at h1
      by_cases hp : (pool_malloc (pools i) m (env.pool i)).ptr ≠ 0
      · simp only [hp, ne_eq, not_false_eq_true, if_true] at h1 ⊢
        exact ⟨fl1, h1⟩
      · simp only [hp, ne_eq, if_false] at h1 ⊢
        exact ih his' _ _ fl1 h1
          (HeapOK_congr _ _
            (set_pool_SameArena pools i _ (pool_malloc_SameArena _ _ _)) _ hheap)
    · rw [if_neg hsz]
      exact ih his' pools m fl h hheap

theorem smart_pool_free_loop_RegInv (ptr : Nat) (env : Nat → FreeEnv)
    (live : List (Nat × Nat)) (returned : List Nat) (is : List Nat) :
    (∀ i ∈ is, i < POOL_COUNT) →
    ∀ (pools : Pools) (m : Mem) (fl : Nat → List Nat),
      RegInv ⟨pools, m, live, returned⟩ fl → (BlockPtr pools ptr ∨ HeapOK pools ptr) →
        ∃ fl', RegInv
          ⟨(smart_pool_free_loop ptr env is pools m).pools,
            (smart_pool_free_loop ptr env is pools m).mem,
            match (smart_pool_free_loop ptr env is pools m).freed_by with
            | some k => live.filter (fun x => decide (x ≠ (k, ptr)))
            | none => live,
            returned⟩ fl' := by
  induction is with
  | nil =>
    intro _ pools m fl h _
    exact ⟨fl, h⟩
  | cons i is ih =>
    intro his pools m fl h hadm
    have hi : i < POOL_COUNT := his i (List.mem_cons_self _ _)
    have his' : ∀ j ∈ is, j < POOL_COUNT := fun j hj => his j (List.mem_cons_of_mem _ hj)
    unfold smart_pool_free_loop
    obtain ⟨fl1, h1⟩ := RegInv_free ⟨pools, m, live, returned⟩ fl h i hi ptr (env i) hadm
    rw [step_free_eq] at h1
    cases hok : (pool_free (pools i) m ptr (env i)).ok
    · simp only [hok, Bool.false_eq_true, if_false] at h1 ⊢
      have hall := set_pool_SameArena pools i _ (pool_free_SameArena (pools i) m ptr (env i))
      exact ih his' _ _ fl1 h1
        (hadm.elim (fun hb => Or.inl (BlockPtr_congr _ _ hall _ hb))
          (fun hb => Or.inr (HeapOK_congr _ _ hall _ hb)))
    · simp only [hok, if_true] at h1 ⊢
      exact ⟨fl1, h1⟩

theorem range_POOL_COUNT_lt : ∀ i ∈ List.range POOL_COUNT, i < POOL_COUNT :=
  fun _ hi => List.mem_range.mp hi

theorem RegInv_step (s : State) (fl : Nat → List Nat) (h : RegInv s fl) (op : Op)
    (hadm : Admissible s op) : ∃ fl', RegInv (step s op) fl' := by
  cases op with
  | malloc k env => exact RegInv_malloc s fl h k hadm env
  | free k ptr env => exact RegInv_free s fl h k hadm.1 ptr env (h.returned ptr hadm.2)
  | smart_malloc size env =>
    exact smart_pool_malloc_loop_RegInv ((size + 16) % W32) size env s.live s.returned
      (List.range POOL_COUNT) range_POOL_COUNT_lt s.pools s.mem fl h hadm.2
  | smart_free ptr env =>
    by_cases h0 : ptr = 0
    · refine ⟨fl, ?_⟩
      have : step s (.smart_free ptr env) = s := by
        show (⟨(smart_pool_free s.pools s.mem ptr env).pools, _, _, _⟩ : State) = s
        unfold smart_pool_free
        simp only [h0, if_true]
      rw [this]
      exact h
    · have := smart_pool_free_loop_RegInv ptr env s.live s.returned (List.range POOL_COUNT)
        range_POOL_COUNT_lt s.pools s.mem fl h (h.returned ptr hadm)
      show ∃ fl', RegInv ⟨(smart_pool_free s.pools s.mem ptr env).pools, _, _, _⟩ fl'
      unfold smart_pool_free
      simp only [h0, if_false]
      exact this

theorem Reach_RegInv (s0 s : State) (hr : Reach s0 s) :
    (∃ fl, RegInv s0 fl) → ∃ fl, RegInv s fl := by
  induction hr with
  | init => exact fun h => h
  | step op _ hadm ih =>
    intro h0
    obtain ⟨fl, h⟩ := ih h0
    exact RegInv_step _ fl h op hadm

theorem Reachable_RegInv (s : State) (h : Reachable s) : ∃ fl, RegInv s fl := by
  obtain ⟨envs, m, hboot, hr⟩ := h
  exact Reach_RegInv _ s hr (boot_RegInv envs m hboot)

/-! ## The demo registry -/

theorem demo_BootOK : BootOK demo_boot_envs := by
  intro i hi
  right; right
  unfold POOL_COUNT at hi
  interval_cases i
  · exact ⟨by decide, fun j hj => absurd hj (Nat.not_lt_zero _)⟩
  · refine ⟨by decide, fun j hj _ _ _ => ?_⟩
    interval_cases j
    decide
  · refine ⟨by decide, fun j hj _ _ _ => ?_⟩
    interval_cases j <;> decide
  · refine ⟨by decide, fun j hj _ _ _ => ?_⟩
    interval_cases j <;> decide

theorem demo_state0_Reachable : Reachable demo_state0 :=
  ⟨demo_boot_envs, fun _ => 0, demo_BootOK, Reach.init⟩

theorem demo_state1_Reachable : Reachable demo_state1 :=
  ⟨demo_boot_envs, fun _ => 0, demo_BootOK,
    Reach.step (.malloc 0 demo_malloc_env) Reach.init (by decide : 0 < POOL_COUNT)⟩

set_option maxRecDepth 100000 in
theorem demo_state1_live : (0, 68288) ∈ demo_state1.live := by decide

set_option maxRecDepth 100000 in
theorem demo_state1_returned : 68288 ∈ demo_state1.returned := by decide

theorem demo_state2_Reachable : Reachable demo_state2 :=
  ⟨demo_boot_envs, fun _ => 0, demo_BootOK,
    Reach.step (.free 0 68288 demo_free_env)
      (Reach.step (.malloc 0 demo_malloc_env) Reach.init (by decide : 0 < POOL_COUNT))
      ⟨(by decide : 0 < POOL_COUNT), demo_state1_returned⟩⟩

/-! ## Claims about reachable states -/

/-- C2: in every reachable state, for a pointer that `pool_malloc` returned from tier `k` and
that was not freed since, `pool_free` on that tier (lock acquired, `total_deallocations` not
saturated) returns true; the pointer is the payload address of a block `i` whose bitmap bit
was set; the call clears exactly that bit, writes magic FREE, makes the block the head of
the free list with the previous head as its link, subtracts one from `allocated_blocks`,
adds one to `total_deallocations`, and leaves every byte outside that block's header,
`peak_usage`, `total_allocations` and `allocation_failures` unchanged. -/
theorem pool_free_live_contract (s : State) (k ptr : Nat) (env : FreeEnv)
    (hs : Reachable s) (hlive : (k, ptr) ∈ s.live) (hl : env.lock = true)
    (ht : (s.pools k).total_deallocations + 1 < W64) :
    (pool_free (s.pools k) s.mem ptr env).ok = true ∧
      ∃ i, i < (s.pools k).block_count ∧ ptr = block_addr (s.pools k) i + header_size ∧
        bit_at (s.pools k).usage_bitmap i = true ∧
        (∀ j, bit_at (pool_free (s.pools k) s.mem ptr env).pool.usage_bitmap j =
          (!decide (j = i) && bit_at (s.pools k).usage_bitmap j)) ∧
        load32 (pool_free (s.pools k) s.mem ptr env).mem
          (block_addr (s.pools k) i + OFF_MAGIC) = POOL_MAGIC_FREE ∧
        (pool_free (s.pools k) s.mem ptr env).pool.free_list = block_addr (s.pools k) i ∧
        load32 (pool_free (s.pools k) s.mem ptr env).mem
          (block_addr (s.pools k) i + OFF_NEXT) = (s.pools k).free_list ∧
        (pool_free (s.pools k) s.mem ptr env).pool.allocated_blocks + 1 =
          (s.pools k).allocated_blocks ∧
        (pool_free (s.pools k) s.mem ptr env).pool.total_deallocations =
          (s.pools k).total_deallocations + 1 ∧
        (∀ x, x < block_addr (s.pools k) i ∨ block_addr (s.pools k) i + header_size ≤ x →
          (pool_free (s.pools k) s.mem ptr env).mem x = s.mem x) ∧
        (pool_free (s.pools k) s.mem ptr env).pool.peak_usage = (s.pools k).peak_usage ∧
        (pool_free (s.pools k) s.mem ptr env).pool.total_allocations =
          (s.pools k).total_allocations ∧
        (pool_free (s.pools k) s.mem ptr env).pool.allocation_failures =
          (s.pools k).allocation_failures := by
  obtain ⟨fl, h⟩ := Reachable_RegInv s hs
  obtain ⟨hk, hmx, i, hi, hni, hp⟩ := (h.live k ptr).mp hlive
  have hinv := h.core.inv k hk hmx
  have hg := hinv.geom
  have hlen : i / 8 < (s.pools k).usage_bitmap.length := by
    have := hg.2.2.2.2
    omega
  have hcard := nodup_length_le (i :: fl k) (s.pools k).block_count
    (List.nodup_cons.mpr ⟨hni, hinv.nodup⟩)
    (fun j hj => by
      rcases List.mem_cons.mp hj with e | e
      · rw [e]; exact hi
      · exact hinv.in_range j e)
  simp only [List.length_cons] at hcard
  have hcnt := hinv.count
  have hlt := block_count_lt _ hg
  rw [hp, pool_free_success_eq _ _ env i hmx hg hl hi (hinv.magic_alloc i hi hni)
    (hinv.ids i hi)]
  refine ⟨rfl, i, hi, rfl, hinv.bit_alloc i hi hni, fun j => bit_at_bitmap_clear _ _ _ hlen,
    free_mem_magic _ _ _,
    rfl, free_mem_next _ _ _ (FreeList_head_lt _ _ _ hg hinv.in_range hinv.chain), ?_, ?_, ?_,
    rfl, rfl, rfl⟩
  · show sub32 (s.pools k).allocated_blocks 1 + 1 = _
    rw [sub32_eq _ _ (by omega) (by omega)]
    omega
  · exact Nat.mod_eq_of_lt ht
  · intro x hx
    exact free_mem_outside _ _ _ _ (by unfold header_size at hx; omega)

set_option maxRecDepth 100000 in
/-- C2 on the demo registry: pointer 68288, handed out by the Small tier, is released. -/
theorem pool_free_live_contract_witness :
    (pool_free (demo_state1.pools 0) demo_state1.mem 68288 demo_free_env).ok = true :=
  (pool_free_live_contract demo_state1 0 68288 demo_free_env demo_state1_Reachable
    demo_state1_live (by decide) (by decide)).1

/-- C6: in every reachable state, every initialised tier has a free list, made of pairwise
distinct blocks, with `allocated_blocks = block_count - (length of the free list)` and
`allocated_blocks = popcount(bitmap)`. -/
theorem accounting_invariant (s : State) (k : Nat) (hs : Reachable s) (hk : k < POOL_COUNT)
    (hmx : (s.pools k).mutex = true) :
    ∃ fl, FreeList (s.pools k) s.mem fl ∧ fl.Nodup ∧
      fl.length ≤ (s.pools k).block_count ∧
      (s.pools k).allocated_blocks = (s.pools k).block_count - fl.length ∧
      (s.pools k).allocated_blocks = popcount (s.pools k).usage_bitmap := by
  obtain ⟨fl, h⟩ := Reachable_RegInv s hs
  have hinv := h.core.inv k hk hmx
  have hcnt := hinv.count
  exact ⟨fl k, hinv.chain, hinv.nodup, by omega, by omega, hinv.pop.symm⟩

set_option maxRecDepth 100000 in
/-- C6 on the demo registry after one allocation from the Small tier. -/
theorem accounting_invariant_witness :
    (demo_state1.pools 0).allocated_blocks = 1 ∧
      ∃ fl, FreeList (demo_state1.pools 0) demo_state1.mem fl ∧ fl.Nodup ∧
        fl.length ≤ (demo_state1.pools 0).block_count ∧
        (demo_state1.pools 0).allocated_blocks =
          (demo_state1.pools 0).block_count - fl.length ∧
        (demo_state1.pools 0).allocated_blocks =
          popcount (demo_state1.pools 0).usage_bitmap :=
  ⟨by decide, accounting_invariant demo_state1 0 demo_state1_Reachable (by decide)
    (by decide)⟩

/-- C7: in every reachable state, the free list of an initialised tier is a null-terminated
chain of pairwise distinct blocks of its own arena, and each of the `block_count` blocks is
either FREE (magic FREE, exactly once on the free list, bitmap bit clear) or ALLOCATED (magic
ALLOC, bitmap bit set, not on the free list). -/
theorem block_state_invariant (s : State) (k : Nat) (hs : Reachable s) (hk : k < POOL_COUNT)
    (hmx : (s.pools k).mutex = true) :
    ∃ fl, FreeList (s.pools k) s.mem fl ∧ fl.Nodup ∧
      (∀ i ∈ fl, i < (s.pools k).block_count) ∧
      ∀ i, i < (s.pools k).block_count →
        (i ∈ fl ∧ fl.count i = 1 ∧
            load32 s.mem (block_addr (s.pools k) i + OFF_MAGIC) = POOL_MAGIC_FREE ∧
            bit_at (s.pools k).usage_bitmap i = false) ∨
          (i ∉ fl ∧
            load32 s.mem (block_addr (s.pools k) i + OFF_MAGIC) = POOL_MAGIC_ALLOC ∧
            bit_at (s.pools k).usage_bitmap i = true) := by
  obtain ⟨fl, h⟩ := Reachable_RegInv s hs
  have hinv := h.core.inv k hk hmx
  refine ⟨fl k, hinv.chain, hinv.nodup, hinv.in_range, ?_⟩
  intro i hi
  by_cases hm : i ∈ fl k
  · left
    exact ⟨hm, List.count_eq_one_of_mem hinv.nodup hm, hinv.magic_free i hm,
      hinv.bit_free i hm⟩
  · right
    exact ⟨hm, hinv.magic_alloc i hi hm, hinv.bit_alloc i hi hm⟩

set_option maxRecDepth 100000 in
/-- C7 on the demo registry after one allocation from the Small tier. -/
theorem block_state_invariant_witness :
    load32 demo_state1.mem (block_addr (demo_state1.pools 0) 31 + OFF_MAGIC) =
        POOL_MAGIC_ALLOC ∧
      ∃ fl, FreeList (demo_state1.pools 0) demo_state1.mem fl ∧ fl.Nodup ∧
        (∀ i ∈ fl, i < (demo_state1.pools 0).block_count) ∧
        ∀ i, i < (demo_state1.pools 0).block_count →
          (i ∈ fl ∧ fl.count i = 1 ∧
              load32 demo_state1.mem (block_addr (demo_state1.pools 0) i + OFF_MAGIC) =
                POOL_MAGIC_FREE ∧
              bit_at (demo_state1.pools 0).usage_bitmap i = false) ∨
            (i ∉ fl ∧
              load32 demo_state1.mem (block_addr (demo_state1.pools 0) i + OFF_MAGIC) =
                POOL_MAGIC_ALLOC ∧
              bit_at (demo_state1.pools 0).usage_bitmap i = true) :=
  ⟨by decide, block_state_invariant demo_state1 0 demo_state1_Reachable (by decide)
    (by decide)⟩

/-! ## Round trip -/

theorem byte_ext (a b : Nat) (ha : a < 256) (hb : b < 256)
    (h : ∀ r, r < 8 → a.testBit r = b.testBit r) : a = b := by
  apply Nat.eq_of_testBit_eq
  intro r
  by_cases hr : r < 8
  · exact h r hr
  · have h8 : (256 : Nat) ≤ 2 ^ r := by
      have : (2 : Nat) ^ 8 ≤ 2 ^ r := Nat.pow_le_pow_right (by norm_num) (by omega)
      simpa using this
    rw [Nat.testBit_eq_false_of_lt (by omega), Nat.testBit_eq_false_of_lt (by omega)]

theorem bitmap_ext (bm bm' : List Nat) (hlen : bm'.length = bm.length)
    (hb : ∀ b ∈ bm, b < 256) (hb' : ∀ b ∈ bm', b < 256)
    (h : ∀ j, bit_at bm' j = bit_at bm j) : bm' = bm := by
  apply List.ext_getElem hlen
  intro n h1 h2
  apply byte_ext _ _ (hb' _ (List.getElem_mem _)) (hb _ (List.getElem_mem _))
  intro r hr
  have := h (8 * n + r)
  unfold bit_at at this
  have e1 : (8 * n + r) / 8 = n := by omega
  have e2 : (8 * n + r) % 8 = r := by omega
  rw [e1, e2, List.getD_eq_getElem _ _ h1, List.getD_eq_getElem _ _ h2] at this
  exact this

theorem bitmap_clear_set (bm : List Nat) (i : Nat) (hi : i / 8 < bm.length)
    (hb : ∀ b ∈ bm, b < 256) (hclear : bit_at bm i = false) :
    bitmap_clear (bitmap_set bm i) i = bm := by
  apply bitmap_ext
  · rw [bitmap_clear_length, bitmap_set_length]
  · exact hb
  · exact bitmap_clear_bytes _ _ (bitmap_set_bytes _ _ hb)
  · intro j
    rw [bit_at_bitmap_clear _ _ _ (by rw [bitmap_set_length]; exact hi),
      bit_at_bitmap_set _ _ _ hi]
    by_cases e : j = i
    · rw [e, hclear]; simp
    · simp [e]

/-- C5: in every reachable state, on an initialised tier with a non-empty free list (locks
acquired), `r1 = pool_malloc` followed by `r2 = pool_free` of the returned pointer succeeds
and restores `allocated_blocks`, the head and the whole chain of the free list (same blocks,
same order), the bitmap and the magic of every block; a following `r3 = pool_malloc` returns
the same pointer again, with magic ALLOC in its header and `allocated_blocks` as after the
first allocation. -/
theorem pool_round_trip (s : State) (k : Nat) (e1 e3 : MallocEnv) (e2 : FreeEnv)
    (r1 r3 : MallocResult) (r2 : FreeResult)
    (hs : Reachable s) (hk : k < POOL_COUNT) (hmx : (s.pools k).mutex = true)
    (hne : (s.pools k).free_list ≠ 0)
    (hl1 : e1.lock = true) (hl2 : e2.lock = true) (hl3 : e3.lock = true)
    (hr1 : r1 = pool_malloc (s.pools k) s.mem e1)
    (hr2 : r2 = pool_free r1.pool r1.mem r1.ptr e2)
    (hr3 : r3 = pool_malloc r2.pool r2.mem e3) :
    r1.ptr ≠ 0 ∧ r2.ok = true ∧
      r2.pool.allocated_blocks = (s.pools k).allocated_blocks ∧
      r2.pool.free_list = (s.pools k).free_list ∧
      (∀ fl, FreeList (s.pools k) s.mem fl → FreeList r2.pool r2.mem fl) ∧
      r2.pool.usage_bitmap = (s.pools k).usage_bitmap ∧
      (∀ j, j < (s.pools k).block_count →
        load32 r2.mem (block_addr (s.pools k) j + OFF_MAGIC) =
          load32 s.mem (block_addr (s.pools k) j + OFF_MAGIC)) ∧
      r3.ptr = r1.ptr ∧
      load32 r3.mem (r3.ptr - header_size + OFF_MAGIC) = POOL_MAGIC_ALLOC ∧
      r3.pool.allocated_blocks = r1.pool.allocated_blocks := by
  obtain ⟨fl, h⟩ := Reachable_RegInv s hs
  have hinv := h.core.inv k hk hmx
  have hg := hinv.geom
  cases hfl : fl k with
  | nil =>
    rw [hfl] at hinv
    exact absurd hinv.chain hne
  | cons i rest =>
    rw [hfl] at hinv
    have hi : i < (s.pools k).block_count := hinv.in_range i (List.mem_cons_self _ _)
    have hnd := List.nodup_cons.mp hinv.nodup
    have hb := block_addr_bounds _ hg i hi
    -- first allocation
    obtain ⟨hp1, hinv1⟩ := PoolInv_malloc _ _ e1 i rest hinv hl1
    have hsame1 := pool_malloc_SameArena (s.pools k) s.mem e1
    have hbm1 : (pool_malloc (s.pools k) s.mem e1).pool.usage_bitmap =
        bitmap_set (s.pools k).usage_bitmap i := by
      rw [pool_malloc_success_eq _ _ e1 i hmx hg hl1 hi hinv.chain.1
        (hinv.magic_free i (List.mem_cons_self _ _)) (hinv.ids i hi)]
    rw [← hr1] at hp1 hinv1 hsame1 hbm1
    have hba1 : block_addr r1.pool = block_addr (s.pools k) :=
      funext (block_addr_congr _ _ hsame1)
    have hi1 : i < r1.pool.block_count := by rw [hsame1.2.1]; exact hi
    -- the free
    have hp1' : r1.ptr = block_addr r1.pool i + header_size := by rw [hba1]; exact hp1
    obtain ⟨hok2, hinv2⟩ := PoolInv_free r1.pool r1.mem e2 i rest hinv1 hl2 hi1 hnd.1
    have hsame2 := pool_free_SameArena r1.pool r1.mem r1.ptr e2
    have hbm2 : (pool_free r1.pool r1.mem r1.ptr e2).pool.usage_bitmap =
        bitmap_clear r1.pool.usage_bitmap i := by
      rw [hp1', pool_free_success_eq _ _ e2 i hinv1.mutex hinv1.geom hl2 hi1
        (hinv1.magic_alloc i hi1 hnd.1) (hinv1.ids i hi1)]
    rw [← hp1', ← hr2] at hok2 hinv2
    rw [← hr2] at hsame2 hbm2
    have hsame12 := SameArena_trans _ _ _ hsame1 hsame2
    have hba2 : block_addr r2.pool = block_addr (s.pools k) :=
      funext (block_addr_congr _ _ hsame12)
    -- second allocation
    obtain ⟨hp3, hinv3⟩ := PoolInv_malloc r2.pool r2.mem e3 i rest hinv2 hl3
    rw [← hr3] at hp3 hinv3
    have hsame3 := pool_malloc_SameArena r2.pool r2.mem e3
    rw [← hr3] at hsame3
    have hba3 : block_addr r3.pool = block_addr (s.pools k) :=
      funext (block_addr_congr _ _ (SameArena_trans _ _ _ hsame12 hsame3))
    have hc0 := hinv.count
    have hc1 := hinv1.count
    have hc2 := hinv2.count
    have hc3 := hinv3.count
    rw [hsame1.2.1] at hc1
    rw [hsame12.2.1] at hc2
    rw [(SameArena_trans _ _ _ hsame12 hsame3).2.1] at hc3
    simp only [List.length_cons] at hc0 hc2
    have hlen : i / 8 < (s.pools k).usage_bitmap.length := by
      have := hg.2.2.2.2
      omega
    refine ⟨by rw [hp1]; omega, hok2, by omega, ?_, ?_, ?_, ?_, ?_, ?_, by omega⟩
    · rw [hinv2.chain.1, hba2]; exact hinv.chain.1.symm
    · intro fl' hfl'
      have := Chain_unique _ _ _ _ hfl' hinv.chain
      unfold FreeList
      rw [hba2, this, ← hba2]
      exact hinv2.chain
    · rw [hbm2, hbm1]
      exact bitmap_clear_set _ _ hlen hinv.bytes (hinv.bit_free i (List.mem_cons_self _ _))
    · intro j hj
      by_cases hm : j ∈ i :: rest
      · rw [hinv.magic_free j hm, ← hba2, hinv2.magic_free j hm]
      · rw [hinv.magic_alloc j hj hm, ← hba2,
          hinv2.magic_alloc j (by rw [hsame12.2.1]; exact hj) hm]
    · rw [hp3, hp1, hba2]
    · rw [hp3, hba2]
      have e : block_addr (s.pools k) i + header_size - header_size =
          block_addr (s.pools k) i := by omega
      rw [e, ← hba3]
      exact hinv3.magic_alloc i
        (by rw [(SameArena_trans _ _ _ hsame12 hsame3).2.1]; exact hi) hnd.1

set_option maxRecDepth 100000 in
/-- C5 on the Small tier of the demo registry after start-up. -/
theorem pool_round_trip_witness :
    (pool_malloc
      (pool_free (pool_malloc (demo_state0.pools 0) demo_state0.mem demo_malloc_env).pool
        (pool_malloc (demo_state0.pools 0) demo_state0.mem demo_malloc_env).mem
        (pool_malloc (demo_state0.pools 0) demo_state0.mem demo_malloc_env).ptr
        demo_free_env).pool
      (pool_free (pool_malloc (demo_state0.pools 0) demo_state0.mem demo_malloc_env).pool
        (pool_malloc (demo_state0.pools 0) demo_state0.mem demo_malloc_env).mem
        (pool_malloc (demo_state0.pools 0) demo_state0.mem demo_malloc_env).ptr
        demo_free_env).mem demo_malloc_env).ptr =
      (pool_malloc (demo_state0.pools 0) demo_state0.mem demo_malloc_env).ptr :=
  (pool_round_trip demo_state0 0 demo_malloc_env demo_malloc_env demo_free_env _ _ _
    demo_state0_Reachable (by decide) (by decide) (by decide) (by decide) (by decide)
    (by decide) rfl rfl rfl).2.2.2.2.2.2.2.1

/-! ## Failing calls -/

theorem pool_free_fail (p : memory_pool_t) (m : Mem) (ptr : Nat) (env : FreeEnv)
    (h : (pool_free p m ptr env).ok = false) :
    (pool_free p m ptr env).mem = m ∧
      ((pool_free p m ptr env).pool = p ∨
        (pool_free p m ptr env).pool =
          { p with deallocation_time_total :=
              (elapsed p.deallocation_time_total env.t_start env.t_end) }) := by
  revert h
  unfold pool_free
  dsimp only
  split_ifs <;> intro h <;>
    first
    | exact ⟨rfl, Or.inl rfl⟩
    | exact ⟨rfl, Or.inr rfl⟩
    | exact absurd h (by simp)

theorem pool_free_events (p : memory_pool_t) (m : Mem) (ptr : Nat) (env : FreeEnv) (q : Nat) :
    Event.heap_caps_free q ∉ (pool_free p m ptr env).events := by
  unfold pool_free
  dsimp only
  split_ifs <;> simp

theorem pool_malloc_events (p : memory_pool_t) (m : Mem) (env : MallocEnv) (q : Nat) :
    Event.heap_caps_malloc q ∉ (pool_malloc p m env).events := by
  unfold pool_malloc
  dsimp only
  split_ifs <;> simp

/-! ## The loop of `smart_pool_free` -/

theorem smart_pool_free_loop_cons (ptr : Nat) (env : Nat → FreeEnv) (i : Nat) (is : List Nat)
    (pools : Pools) (m : Mem) :
    smart_pool_free_loop ptr env (i :: is) pools m =
      if (pool_free (pools i) m ptr (env i)).ok then
        ⟨true, set_pool pools i (pool_free (pools i) m ptr (env i)).pool,
          (pool_free (pools i) m ptr (env i)).mem, (pool_free (pools i) m ptr (env i)).events,
          some i⟩
      else
        ⟨(smart_pool_free_loop ptr env is
            (set_pool pools i (pool_free (pools i) m ptr (env i)).pool)
            (pool_free (pools i) m ptr (env i)).mem).ok,
          (smart_pool_free_loop ptr env is
            (set_pool pools i (pool_free (pools i) m ptr (env i)).pool)
            (pool_free (pools i) m ptr (env i)).mem).pools,
          (smart_pool_free_loop ptr env is
            (set_pool pools i (pool_free (pools i) m ptr (env i)).pool)
            (pool_free (pools i) m ptr (env i)).mem).mem,
          (pool_free (pools i) m ptr (env i)).events ++
            (smart_pool_free_loop ptr env is
              (set_pool pools i (pool_free (pools i) m ptr (env i)).pool)
              (pool_free (pools i) m ptr (env i)).mem).events,
          (smart_pool_free_loop ptr env is
            (set_pool pools i (pool_free (pools i) m ptr (env i)).pool)
            (pool_free (pools i) m ptr (env i)).mem).freed_by⟩ := rfl

theorem smart_pool_free_loop_spec (ptr : Nat) (env : Nat → FreeEnv) (pools : Pools) (m : Mem)
    (is : List Nat) :
    is.Nodup → ∀ (pools' : Pools), (∀ i ∈ is, pools' i = pools i) →
      (smart_pool_free_loop ptr env is pools' m).ok = true ∧
        (smart_pool_free_loop ptr env is pools' m).freed_by =
          is.find? (fun i => (pool_free (pools i) m ptr (env i)).ok) ∧
        (∀ k, (smart_pool_free_loop ptr env is pools' m).freed_by = some k →
          (smart_pool_free_loop ptr env is pools' m).pools k =
              (pool_free (pools k) m ptr (env k)).pool ∧
            (smart_pool_free_loop ptr env is pools' m).mem =
              (pool_free (pools k) m ptr (env k)).mem ∧
            ∀ q, Event.heap_caps_free q ∉
              (smart_pool_free_loop ptr env is pools' m).events) ∧
        ((smart_pool_free_loop ptr env is pools' m).freed_by = none →
          (smart_pool_free_loop ptr env is pools' m).mem = m ∧
            Event.heap_caps_free ptr ∈ (smart_pool_free_loop ptr env is pools' m).events) ∧
        (∀ j, (smart_pool_free_loop ptr env is pools' m).freed_by ≠ some j →
          (smart_pool_free_loop ptr env is pools' m).pools j = pools' j ∨
            ((pool_free (pools j) m ptr (env j)).ok = false ∧
              (smart_pool_free_loop ptr env is pools' m).pools j =
                (pool_free (pools j) m ptr (env j)).pool)) := by
  induction is with
  | nil =>
    intro _ pools' _
    refine ⟨rfl, rfl, fun k hk => ?_, fun _ => ⟨rfl, ?_⟩, fun j _ => Or.inl rfl⟩
    · exact Option.noConfusion hk
    · show Event.heap_caps_free ptr ∈ [Event.heap_caps_free ptr]
      exact List.mem_singleton.mpr rfl
  | cons i is ih =>
    intro hnd pools' hag
    have hndc := List.nodup_cons.mp hnd
    have hi : pools' i = pools i := hag i (List.mem_cons_self _ _)
    rw [smart_pool_free_loop_cons, hi]
    cases hok : (pool_free (pools i) m ptr (env i)).ok
    · -- tier `i` rejects the pointer
      have hf := pool_free_fail (pools i) m ptr (env i) hok
      simp only [Bool.false_eq_true, if_false, List.find?_cons, hok]
      rw [hf.1]
      obtain ⟨i1, i2, i3, i4, i5⟩ := ih hndc.2
        (set_pool pools' i (pool_free (pools i) m ptr (env i)).pool)
        (fun j hj => by
          have hji : j ≠ i := fun e => hndc.1 (e ▸ hj)
          rw [set_pool_other _ _ _ _ hji]
          exact hag j (List.mem_cons_of_mem _ hj))
      refine ⟨i1, i2, ?_, ?_, ?_⟩
      · intro k hk
        obtain ⟨a1, a2, a3⟩ := i3 k hk
        refine ⟨a1, a2, fun q hq => ?_⟩
        rcases List.mem_append.mp hq with h' | h'
        · exact pool_free_events _ _ _ _ q h'
        · exact a3 q h'
      · intro hn
        obtain ⟨a1, a2⟩ := i4 hn
        exact ⟨a1, List.mem_append_right _ a2⟩
      · intro j hj
        rcases i5 j hj with h' | h'
        · by_cases e : j = i
          · right
            rw [e] at h' ⊢
            rw [set_pool_same] at h'
            exact ⟨hok, h'⟩
          · left
            rw [set_pool_other _ _ _ _ e] at h'
            exact h'
        · right; exact h'
    · -- tier `i` accepts the pointer
      rw [if_pos rfl, List.find?_cons, hok]
      refine ⟨rfl, rfl, ?_, fun hn => Option.noConfusion hn, ?_⟩
      · intro k hk
        have e : i = k := Option.some.inj hk
        subst e
        exact ⟨set_pool_same _ _ _, rfl, fun q => pool_free_events _ _ _ _ q⟩
      · intro j hj
        left
        have e : j ≠ i := fun e => hj (by rw [e])
        exact set_pool_other _ _ _ _ e

/-! ## Cross-tier frees -/

theorem pool_free_bad_header_ok (p : memory_pool_t) (m : Mem) (ptr : Nat) (env : FreeEnv)
    (hbad : load32 m (sub32 ptr header_size + OFF_MAGIC) ≠ POOL_MAGIC_ALLOC ∨
      load32 m (sub32 ptr header_size + OFF_POOL_ID) ≠ p.pool_id) :
    (pool_free p m ptr env).ok = false := by
  unfold pool_free
  dsimp only
  split_ifs <;> rfl

/-- C12: in every reachable state, for distinct tiers `a` and `b` with `b` initialised and a
pointer currently allocated from tier `a`, `pool_free` on tier `b` returns false, leaves the
memory, tier `b`'s counters, free list and bitmap unchanged, and the pointer's block stays
ALLOCATED in tier `a`: its magic is ALLOC and the pointer is still live. -/
theorem cross_tier_free_rejected (s : State) (a b ptr : Nat) (env : FreeEnv)
    (hs : Reachable s) (hab : a ≠ b)
    (hmb : (s.pools b).mutex = true) (hlive : (a, ptr) ∈ s.live) :
    (pool_free (s.pools b) s.mem ptr env).ok = false ∧
      (pool_free (s.pools b) s.mem ptr env).mem = s.mem ∧
      (pool_free (s.pools b) s.mem ptr env).pool.allocated_blocks =
        (s.pools b).allocated_blocks ∧
      (pool_free (s.pools b) s.mem ptr env).pool.peak_usage = (s.pools b).peak_usage ∧
      (pool_free (s.pools b) s.mem ptr env).pool.total_allocations =
        (s.pools b).total_allocations ∧
      (pool_free (s.pools b) s.mem ptr env).pool.total_deallocations =
        (s.pools b).total_deallocations ∧
      (pool_free (s.pools b) s.mem ptr env).pool.allocation_failures =
        (s.pools b).allocation_failures ∧
      (pool_free (s.pools b) s.mem ptr env).pool.free_list = (s.pools b).free_list ∧
      (pool_free (s.pools b) s.mem ptr env).pool.usage_bitmap = (s.pools b).usage_bitmap ∧
      load32 (pool_free (s.pools b) s.mem ptr env).mem (ptr - header_size + OFF_MAGIC) =
        POOL_MAGIC_ALLOC ∧
      (a, ptr) ∈ (step s (.free b ptr env)).live := by
  obtain ⟨fl, h⟩ := Reachable_RegInv s hs
  obtain ⟨ha, hma, i, hi, hni, hp⟩ := (h.live a ptr).mp hlive
  have hinva := h.core.inv a ha hma
  have hblk := sub32_block_ptr _ hinva.geom i hi
  have hbad : load32 s.mem (sub32 ptr header_size + OFF_MAGIC) ≠ POOL_MAGIC_ALLOC ∨
      load32 s.mem (sub32 ptr header_size + OFF_POOL_ID) ≠ (s.pools b).pool_id := by
    right
    rw [hp, hblk, hinva.ids i hi, h.core.ids a hma, h.core.ids b hmb]
    omega
  have hok := pool_free_bad_header_ok (s.pools b) s.mem ptr env hbad
  obtain ⟨hmem, hpool⟩ := pool_free_fail (s.pools b) s.mem ptr env hok
  have hmagic : load32 s.mem (ptr - header_size + OFF_MAGIC) = POOL_MAGIC_ALLOC := by
    have e : ptr - header_size = block_addr (s.pools a) i := by rw [hp]; omega
    rw [e]
    exact hinva.magic_alloc i hi hni
  refine ⟨hok, hmem, ?_, ?_, ?_, ?_, ?_, ?_, ?_, by rw [hmem]; exact hmagic, ?_⟩
  · rcases hpool with e | e <;> rw [e]
  · rcases hpool with e | e <;> rw [e]
  · rcases hpool with e | e <;> rw [e]
  · rcases hpool with e | e <;> rw [e]
  · rcases hpool with e | e <;> rw [e]
  · rcases hpool with e | e <;> rw [e]
  · rcases hpool with e | e <;> rw [e]
  · rw [step_free_eq]
    show (a, ptr) ∈ (if (pool_free (s.pools b) s.mem ptr env).ok then _ else s.live)
    rw [hok]
    exact hlive

set_option maxRecDepth 100000 in
/-- C12 on the demo registry: the Medium tier rejects pointer 68288 of the Small tier. -/
theorem cross_tier_free_rejected_witness :
    (pool_free (demo_state1.pools 1) demo_state1.mem 68288 demo_free_env).ok = false ∧
      (pool_free (demo_state1.pools 1) demo_state1.mem 68288 demo_free_env).pool.free_list =
        (demo_state1.pools 1).free_list :=
  have h := cross_tier_free_rejected demo_state1 0 1 68288 demo_free_env
    demo_state1_Reachable (by decide) (by decide) demo_state1_live
  ⟨h.1, h.2.2.2.2.2.2.2.1⟩

/-! ## Contracts of `smart_pool_free` -/

theorem smart_pool_free_nonnull (pools : Pools) (m : Mem) (ptr : Nat) (env : Nat → FreeEnv)
    (h : ptr ≠ 0) :
    smart_pool_free pools m ptr env =
      smart_pool_free_loop ptr env (List.range POOL_COUNT) pools m := by
  unfold smart_pool_free
  rw [if_neg h]

set_option maxRecDepth 100000 in
/-- C20, as stated, fails: in the demo registry pointer 68288 of the Small tier has been
released once; no tier claims it any more, its header lies inside the Small arena, yet
`smart_pool_free` passes it to `heap_caps_free` and returns true. -/
theorem smart_pool_free_double_free_to_heap :
    in_arena (demo_state2.pools 0) (sub32 68288 header_size) ∧
      (smart_pool_free demo_state2.pools demo_state2.mem 68288
        (fun _ => demo_free_env)).freed_by = none ∧
      (smart_pool_free demo_state2.pools demo_state2.mem 68288
        (fun _ => demo_free_env)).ok = true ∧
      Event.heap_caps_free 68288 ∈
        (smart_pool_free demo_state2.pools demo_state2.mem 68288
          (fun _ => demo_free_env)).events := by
  decide

/-- C20 amended: `smart_pool_free` never reports failure for a non-null pointer.  Whenever
the `pool_free` of every tier rejects a non-null pointer, whether it lies outside all arenas
or inside one (as a pool pointer that was freed already), it is passed to `heap_caps_free`
and true is returned; the memory and each tier's free list, bitmap, `allocated_blocks` and
`total_deallocations` are unchanged.  False is returned only for the null pointer, without
any call. -/
theorem smart_pool_free_unclaimed (pools : Pools) (m : Mem) (ptr : Nat)
    (env : Nat → FreeEnv) :
    (ptr = 0 → (smart_pool_free pools m ptr env).ok = false ∧
      (smart_pool_free pools m ptr env).events = []) ∧
    (ptr ≠ 0 → (smart_pool_free pools m ptr env).ok = true) ∧
    (ptr ≠ 0 → (∀ i, i < POOL_COUNT → (pool_free (pools i) m ptr (env i)).ok = false) →
      (smart_pool_free pools m ptr env).freed_by = none ∧
        Event.heap_caps_free ptr ∈ (smart_pool_free pools m ptr env).events ∧
        (smart_pool_free pools m ptr env).mem = m ∧
        ∀ j, ((smart_pool_free pools m ptr env).pools j).free_list = (pools j).free_list ∧
          ((smart_pool_free pools m ptr env).pools j).usage_bitmap =
            (pools j).usage_bitmap ∧
          ((smart_pool_free pools m ptr env).pools j).allocated_blocks =
            (pools j).allocated_blocks ∧
          ((smart_pool_free pools m ptr env).pools j).total_deallocations =
            (pools j).total_deallocations) := by
  refine ⟨?_, ?_, ?_⟩
  · intro h0
    unfold smart_pool_free
    rw [if_pos h0]
    exact ⟨rfl, rfl⟩
  · intro hptr
    rw [smart_pool_free_nonnull _ _ _ _ hptr]
    exact (smart_pool_free_loop_spec ptr env pools m (List.range POOL_COUNT)
      (List.nodup_range _) pools (fun _ _ => rfl)).1
  · intro hptr hrej
    obtain ⟨_, s2, _, s4, s5⟩ := smart_pool_free_loop_spec ptr env pools m
      (List.range POOL_COUNT) (List.nodup_range _) pools (fun _ _ => rfl)
    have hfind : (List.range POOL_COUNT).find?
        (fun i => (pool_free (pools i) m ptr (env i)).ok) = none := by
      rw [List.find?_eq_none]
      intro j hj
      rw [hrej j (List.mem_range.mp hj)]
      simp
    rw [hfind] at s2
    obtain ⟨t1, t2⟩ := s4 s2
    rw [smart_pool_free_nonnull _ _ _ _ hptr]
    refine ⟨s2, t2, t1, ?_⟩
    intro j
    rcases s5 j (by rw [s2]; exact fun e => Option.noConfusion e) with h' | ⟨hok, h'⟩
    · rw [h']; exact ⟨rfl, rfl, rfl, rfl⟩
    · rw [h']
      rcases (pool_free_fail (pools j) m ptr (env j) hok).2 with e | e <;> rw [e] <;>
        exact ⟨rfl, rfl, rfl, rfl⟩

set_option maxRecDepth 100000 in
/-- C20 amended, on the demo registry with the pointer that was freed already. -/
theorem smart_pool_free_unclaimed_witness :
    (smart_pool_free demo_state2.pools demo_state2.mem 68288
        (fun _ => demo_free_env)).ok = true ∧
      Event.heap_caps_free 68288 ∈
        (smart_pool_free demo_state2.pools demo_state2.mem 68288
          (fun _ => demo_free_env)).events :=
  have h := smart_pool_free_unclaimed demo_state2.pools demo_state2.mem 68288
    (fun _ => demo_free_env)
  ⟨h.2.1 (by decide), (h.2.2 (by decide) (by decide)).2.1⟩

/-! ## The loop of `smart_pool_malloc` -/

theorem smart_pool_malloc_loop_cons (required_size size : Nat) (env : SmartMallocEnv)
    (i : Nat) (is : List Nat) (pools : Pools) (m : Mem) :
    smart_pool_malloc_loop required_size size env (i :: is) pools m =
      if required_size ≤ (pools i).block_size then
        if (pool_malloc (pools i) m (env.pool i)).ptr ≠ 0 then
          ⟨(pool_malloc (pools i) m (env.pool i)).ptr,
            set_pool pools i (pool_malloc (pools i) m (env.pool i)).pool,
            (pool_malloc (pools i) m (env.pool i)).mem,
            (pool_malloc (pools i) m (env.pool i)).events ++
              [.gpio_set_level (config_at i).led_pin 1, .task_delay 50,
                .gpio_set_level (config_at i).led_pin 0],
            [i], some i⟩
        else
          ⟨(smart_pool_malloc_loop required_size size env is
              (set_pool pools i (pool_malloc (pools i) m (env.pool i)).pool)
              (pool_malloc (pools i) m (env.pool i)).mem).ptr,
            (smart_pool_malloc_loop required_size size env is
              (set_pool pools i (pool_malloc (pools i) m (env.pool i)).pool)
              (pool_malloc (pools i) m (env.pool i)).mem).pools,
            (smart_pool_malloc_loop required_size size env is
              (set_pool pools i (pool_malloc (pools i) m (env.pool i)).pool)
              (pool_malloc (pools i) m (env.pool i)).mem).mem,
            (pool_malloc (pools i) m (env.pool i)).events ++
              (smart_pool_malloc_loop required_size size env is
                (set_pool pools i (pool_malloc (pools i) m (env.pool i)).pool)
                (pool_malloc (pools i) m (env.pool i)).mem).events,
            i :: (smart_pool_malloc_loop required_size size env is
              (set_pool pools i (pool_malloc (pools i) m (env.pool i)).pool)
              (pool_malloc (pools i) m (env.pool i)).mem).tried,
            (smart_pool_malloc_loop required_size size env is
              (set_pool pools i (pool_malloc (pools i) m (env.pool i)).pool)
              (pool_malloc (pools i) m (env.pool i)).mem).served_by⟩
      else smart_pool_malloc_loop required_size size env is pools m := rfl

theorem smart_pool_malloc_loop_spec (req size : Nat) (env : SmartMallocEnv) (pools : Pools)
    (m : Mem) (is : List Nat) :
    is.Pairwise (fun a b => a < b) →
    (∀ i ∈ is, (pool_malloc (pools i) m (env.pool i)).ptr = 0 →
      (pool_malloc (pools i) m (env.pool i)).mem = m) →
    ∀ (pools' : Pools), (∀ i ∈ is, pools' i = pools i) →
      (smart_pool_malloc_loop req size env is pools' m).served_by =
          is.find? (fun i => decide (req ≤ (pools i).block_size) &&
            decide ((pool_malloc (pools i) m (env.pool i)).ptr ≠ 0)) ∧
        (∀ i ∈ (smart_pool_malloc_loop req size env is pools' m).tried,
          i ∈ is ∧ req ≤ (pools i).block_size ∧
            (smart_pool_malloc_loop req size env is pools' m).pools i =
              (pool_malloc (pools i) m (env.pool i)).pool) ∧
        (∀ i, i ∉ (smart_pool_malloc_loop req size env is pools' m).tried →
          (smart_pool_malloc_loop req size env is pools' m).pools i = pools' i) ∧
        (∀ i ∈ is, req ≤ (pools i).block_size →
          i ∈ (smart_pool_malloc_loop req size env is pools' m).tried ∨
            ∃ k, (smart_pool_malloc_loop req size env is pools' m).served_by = some k ∧
              k < i) ∧
        (∀ k, (smart_pool_malloc_loop req size env is pools' m).served_by = some k →
          k ∈ (smart_pool_malloc_loop req size env is pools' m).tried ∧
            (smart_pool_malloc_loop req size env is pools' m).ptr =
              (pool_malloc (pools k) m (env.pool k)).ptr ∧
            (smart_pool_malloc_loop req size env is pools' m).ptr ≠ 0 ∧
            (smart_pool_malloc_loop req size env is pools' m).mem =
              (pool_malloc (pools k) m (env.pool k)).mem ∧
            (∀ i ∈ (smart_pool_malloc_loop req size env is pools' m).tried, i ≤ k) ∧
            ∀ q, Event.heap_caps_malloc q ∉
              (smart_pool_malloc_loop req size env is pools' m).events) ∧
        ((smart_pool_malloc_loop req size env is pools' m).served_by = none →
          (smart_pool_malloc_loop req size env is pools' m).ptr = env.heap ∧
            (smart_pool_malloc_loop req size env is pools' m).mem = m ∧
            Event.heap_caps_malloc size ∈
              (smart_pool_malloc_loop req size env is pools' m).events ∧
            ∀ q, Event.heap_caps_malloc q ∈
              (smart_pool_malloc_loop req size env is pools' m).events → q = size) := by
  induction is with
  | nil =>
    intro _ _ pools' _
    refine ⟨rfl, fun i hi => absurd hi (List.not_mem_nil _), fun _ _ => rfl,
      fun i hi => absurd hi (List.not_mem_nil _), fun k hk => Option.noConfusion hk,
      fun _ => ⟨rfl, rfl, ?_, ?_⟩⟩
    · show Event.heap_caps_malloc size ∈ [Event.heap_caps_malloc size]
      exact List.mem_singleton.mpr rfl
    · intro q hq
      have hq' : Event.heap_caps_malloc q ∈ [Event.heap_caps_malloc size] := hq
      exact Event.heap_caps_malloc.inj (List.mem_singleton.mp hq')
  | cons i is ih =>
    intro hpw hH pools' hag
    obtain ⟨hlt, hpw'⟩ := List.pairwise_cons.mp hpw
    have hni : i ∉ is := fun h => Nat.lt_irrefl i (hlt i h)
    have hi : pools' i = pools i := hag i (List.mem_cons_self _ _)
    have hH' : ∀ j ∈ is, (pool_malloc (pools j) m (env.pool j)).ptr = 0 →
        (pool_malloc (pools j) m (env.pool j)).mem = m :=
      fun j hj => hH j (List.mem_cons_of_mem _ hj)
    rw [smart_pool_malloc_loop_cons, hi]
    by_cases hsz : req ≤ (pools i).block_size
    · rw [if_pos hsz]
      by_cases hp : (pool_malloc (pools i) m (env.pool i)).ptr ≠ 0
      · -- tier `i` serves the request
        rw [if_pos hp, List.find?_cons_of_pos _ (by simp [hsz, hp])]
        refine ⟨rfl, ?_, ?_, ?_, ?_, fun hn => Option.noConfusion hn⟩
        · intro j hj
          have e : j = i := List.mem_singleton.mp hj
          rw [e]
          exact ⟨List.mem_cons_self _ _, hsz, set_pool_same _ _ _⟩
        · intro j hj
          have e : j ≠ i := fun e => hj (List.mem_singleton.mpr e)
          exact set_pool_other _ _ _ _ e
        · intro j hj _
          rcases List.mem_cons.mp hj with e | e
          · left; exact List.mem_singleton.mpr e
          · right; exact ⟨i, rfl, hlt j e⟩
        · intro k hk
          have e : i = k := Option.some.inj hk
          subst e
          refine ⟨List.mem_singleton.mpr rfl, rfl, hp, rfl,
            fun j hj => Nat.le_of_eq (List.mem_singleton.mp hj), ?_⟩
          intro q hq
          rcases List.mem_append.mp hq with h' | h'
          · exact pool_malloc_events _ _ _ q h'
          · simp at h'
      · -- tier `i` fails: go on with the next tier
        have hp0 : (pool_malloc (pools i) m (env.pool i)).ptr = 0 := by
          by_contra h'
          exact hp h'
        rw [if_neg hp, hH i (List.mem_cons_self _ _) hp0,
          List.find?_cons_of_neg _ (by simp [hp0])]
        obtain ⟨i1, i2, i3, i4, i5, i6⟩ := ih hpw' hH'
          (set_pool pools' i (pool_malloc (pools i) m (env.pool i)).pool)
          (fun j hj => by
            have hji : j ≠ i := fun e => hni (e ▸ hj)
            rw [set_pool_other _ _ _ _ hji]
            exact hag j (List.mem_cons_of_mem _ hj))
        have hnt : i ∉ (smart_pool_malloc_loop req size env is
            (set_pool pools' i (pool_malloc (pools i) m (env.pool i)).pool) m).tried :=
          fun h' => hni (i2 i h').1
        refine ⟨i1, ?_, ?_, ?_, ?_, ?_⟩
        · intro j hj
          rcases List.mem_cons.mp hj with e | e
          · rw [e]
            refine ⟨List.mem_cons_self _ _, hsz, ?_⟩
            show (smart_pool_malloc_loop req size env is _ m).pools i = _
            rw [i3 i hnt, set_pool_same]
          · obtain ⟨a1, a2, a3⟩ := i2 j e
            exact ⟨List.mem_cons_of_mem _ a1, a2, a3⟩
        · intro j hj
          have hji : j ≠ i := fun e => hj (e ▸ List.mem_cons_self _ _)
          have hjt : j ∉ (smart_pool_malloc_loop req size env is
              (set_pool pools' i (pool_malloc (pools i) m (env.pool i)).pool) m).tried :=
            fun h' => hj (List.mem_cons_of_mem _ h')
          show (smart_pool_malloc_loop req size env is _ m).pools j = _
          rw [i3 j hjt, set_pool_other _ _ _ _ hji]
        · intro j hj hsj
          rcases List.mem_cons.mp hj with e | e
          · left; rw [e]; exact List.mem_cons_self _ _
          · rcases i4 j e hsj with h' | h'
            · left; exact List.mem_cons_of_mem _ h'
            · right; exact h'
        · intro k hk
          obtain ⟨a1, a2, a3, a4, a5, a6⟩ := i5 k hk
          refine ⟨List.mem_cons_of_mem _ a1, a2, a3, a4, ?_, ?_⟩
          · intro j hj
            rcases List.mem_cons.mp hj with e | e
            · rw [e]; exact Nat.le_of_lt (hlt k (i2 k a1).1)
            · exact a5 j e
          · intro q hq
            rcases List.mem_append.mp hq with h' | h'
            · exact pool_malloc_events _ _ _ q h'
            · exact a6 q h'
        · intro hn
          obtain ⟨a1, a2, a3, a4⟩ := i6 hn
          refine ⟨a1, a2, List.mem_append_right _ a3, fun q hq => ?_⟩
          rcases List.mem_append.mp hq with h' | h'
          · exact absurd h' (pool_malloc_events _ _ _ q)
          · exact a4 q h'
    · -- tier `i` is too small: it is skipped
      rw [if_neg hsz, List.find?_cons_of_neg _ (by simp [hsz])]
      obtain ⟨i1, i2, i3, i4, i5, i6⟩ := ih hpw' hH' pools'
        (fun j hj => hag j (List.mem_cons_of_mem _ hj))
      refine ⟨i1, ?_, i3, ?_, i5, i6⟩
      · intro j hj
        obtain ⟨a1, a2, a3⟩ := i2 j hj
        exact ⟨List.mem_cons_of_mem _ a1, a2, a3⟩
      · intro j hj hsj
        rcases List.mem_cons.mp hj with e | e
        · rw [e] at hsj; exact absurd hsj hsz
        · exact i4 j e hsj


theorem smart_pool_malloc_eq (pools : Pools) (m : Mem) (size : Nat) (env : SmartMallocEnv) :
    smart_pool_malloc pools m size env =
      smart_pool_malloc_loop ((size + 16) % W32) size env (List.range POOL_COUNT) pools m :=
  rfl

theorem pool_malloc_null (p : memory_pool_t) (m : Mem) (env : MallocEnv) (fl : List Nat)
    (h : p.mutex = true → PoolInv p m fl) (h0 : (pool_malloc p m env).ptr = 0) :
    (pool_malloc p m env).mem = m ∧
      (pool_malloc p m env).pool.free_list = p.free_list ∧
      (pool_malloc p m env).pool.usage_bitmap = p.usage_bitmap ∧
      (pool_malloc p m env).pool.allocated_blocks = p.allocated_blocks ∧
      (pool_malloc p m env).pool.total_allocations = p.total_allocations ∧
      (pool_malloc p m env).pool.peak_usage = p.peak_usage := by
  cases hmx : p.mutex
  · rw [pool_malloc_disabled_eq p m env hmx]
    exact ⟨rfl, rfl, rfl, rfl, rfl, rfl⟩
  · cases hl : env.lock
    · rw [pool_malloc_timeout_eq p m env hmx hl]
      exact ⟨rfl, rfl, rfl, rfl, rfl, rfl⟩
    · have hinv := h hmx
      cases fl with
      | nil =>
        rw [PoolInv_malloc_empty p m env hinv hl]
        exact ⟨rfl, rfl, rfl, rfl, rfl, rfl⟩
      | cons i rest =>
        have hp := (PoolInv_malloc p m env i rest hinv hl).1
        have hb := block_addr_bounds p hinv.geom i (hinv.in_range i (List.mem_cons_self _ _))
        rw [hp] at h0
        omega

theorem Reachable_malloc_quiet (s : State) (hs : Reachable s) (env : Nat → MallocEnv) :
    ∀ i, (pool_malloc (s.pools i) s.mem (env i)).ptr = 0 →
      (pool_malloc (s.pools i) s.mem (env i)).mem = s.mem ∧
        (pool_malloc (s.pools i) s.mem (env i)).pool.free_list = (s.pools i).free_list ∧
        (pool_malloc (s.pools i) s.mem (env i)).pool.usage_bitmap =
          (s.pools i).usage_bitmap ∧
        (pool_malloc (s.pools i) s.mem (env i)).pool.allocated_blocks =
          (s.pools i).allocated_blocks ∧
        (pool_malloc (s.pools i) s.mem (env i)).pool.total_allocations =
          (s.pools i).total_allocations ∧
        (pool_malloc (s.pools i) s.mem (env i)).pool.peak_usage = (s.pools i).peak_usage := by
  obtain ⟨fl, h⟩ := Reachable_RegInv s hs
  intro i h0
  exact pool_malloc_null _ _ _ (fl i) (fun hmx => h.core.inv i (h.core.lt i hmx) hmx) h0

theorem find?_congr_on (p q : Nat → Bool) (l : List Nat) (h : ∀ x ∈ l, p x = q x) :
    l.find? p = l.find? q := by
  induction l with
  | nil => rfl
  | cons a l ih =>
    rw [List.find?_cons, List.find?_cons, h a (List.mem_cons_self _ _),
      ih (fun x hx => h x (List.mem_cons_of_mem _ hx))]

/-! ## Contracts of `smart_pool_malloc` -/

theorem pool_malloc_exhausted_failures (p : memory_pool_t) (m : Mem) (env : MallocEnv)
    (hmx : p.mutex = true) (hl : env.lock = true) (hh : p.free_list = 0) :
    (pool_malloc p m env).pool.allocation_failures = (p.allocation_failures + 1) % W32 := by
  rw [pool_malloc_exhausted_eq p m env hmx hl hh]

/-- C15: in every reachable state and for every size with `size + 16` representable,
`smart_pool_malloc` is served by the first tier, in ascending order, whose block size is at
least `size + 16` and whose `pool_malloc` returns non-null, and returns that pointer; it calls
`pool_malloc` only on tiers of sufficient block size and leaves the tiers it does not call
untouched; when `pool_malloc` succeeds on every tier, the serving tier is the first
sufficient one, which for the configured block sizes 64, 256, 1024, 4096 is Small for 48,
Medium for 49 and 240, Large for 241 and 1008, Huge for 1009; and a sufficient, exhausted tier
that was passed over has its `allocation_failures` increased by one. -/
theorem smart_pool_malloc_dispatch (s : State) (size : Nat) (env : SmartMallocEnv)
    (hs : Reachable s) (hrep : size + 16 < W32) :
    (smart_pool_malloc s.pools s.mem size env).served_by =
        (List.range POOL_COUNT).find? (fun i =>
          decide (size + 16 ≤ (s.pools i).block_size) &&
            decide ((pool_malloc (s.pools i) s.mem (env.pool i)).ptr ≠ 0)) ∧
      (∀ k, (smart_pool_malloc s.pools s.mem size env).served_by = some k →
        (smart_pool_malloc s.pools s.mem size env).ptr =
            (pool_malloc (s.pools k) s.mem (env.pool k)).ptr ∧
          (smart_pool_malloc s.pools s.mem size env).ptr ≠ 0 ∧
          (smart_pool_malloc s.pools s.mem size env).pools k =
            (pool_malloc (s.pools k) s.mem (env.pool k)).pool) ∧
      (∀ i ∈ (smart_pool_malloc s.pools s.mem size env).tried,
        size + 16 ≤ (s.pools i).block_size) ∧
      (∀ i, i ∉ (smart_pool_malloc s.pools s.mem size env).tried →
        (smart_pool_malloc s.pools s.mem size env).pools i = s.pools i) ∧
      ((∀ i, i < POOL_COUNT → (pool_malloc (s.pools i) s.mem (env.pool i)).ptr ≠ 0) →
        (smart_pool_malloc s.pools s.mem size env).served_by =
            (List.range POOL_COUNT).find? (fun i =>
              decide (size + 16 ≤ (s.pools i).block_size)) ∧
          ((∀ i, i < POOL_COUNT → (s.pools i).block_size = (config_at i).block_size) →
            (size = 48 → (smart_pool_malloc s.pools s.mem size env).served_by = some 0) ∧
            (size = 49 → (smart_pool_malloc s.pools s.mem size env).served_by = some 1) ∧
            (size = 240 → (smart_pool_malloc s.pools s.mem size env).served_by = some 1) ∧
            (size = 241 → (smart_pool_malloc s.pools s.mem size env).served_by = some 2) ∧
            (size = 1008 → (smart_pool_malloc s.pools s.mem size env).served_by = some 2) ∧
            (size = 1009 → (smart_pool_malloc s.pools s.mem size env).served_by = some 3))) ∧
      (∀ i, i < POOL_COUNT → size + 16 ≤ (s.pools i).block_size →
        (s.pools i).mutex = true → (env.pool i).lock = true → (s.pools i).free_list = 0 →
        (s.pools i).allocation_failures + 1 < W32 →
        (∀ k, (smart_pool_malloc s.pools s.mem size env).served_by = some k → i < k) →
        ((smart_pool_malloc s.pools s.mem size env).pools i).allocation_failures =
          (s.pools i).allocation_failures + 1) := by
  have hreq : (size + 16) % W32 = size + 16 := Nat.mod_eq_of_lt hrep
  have hq := Reachable_malloc_quiet s hs env.pool
  obtain ⟨s1, s2, s3, s4, s5, _⟩ := smart_pool_malloc_loop_spec ((size + 16) % W32) size env
    s.pools s.mem (List.range POOL_COUNT) (List.pairwise_lt_range _)
    (fun i _ h0 => (hq i h0).1) s.pools (fun _ _ => rfl)
  rw [← smart_pool_malloc_eq] at s1 s2 s3 s4 s5
  rw [hreq] at s1 s2 s4
  have hall : (∀ i, i < POOL_COUNT → (pool_malloc (s.pools i) s.mem (env.pool i)).ptr ≠ 0) →
      (smart_pool_malloc s.pools s.mem size env).served_by =
        (List.range POOL_COUNT).find? (fun i =>
          decide (size + 16 ≤ (s.pools i).block_size)) := by
    intro hcan
    rw [s1]
    apply find?_congr_on
    intro x hx
    simp [hcan x (List.mem_range.mp hx)]
  refine ⟨s1, ?_, fun i hi => (s2 i hi).2.1, s3, fun hcan => ⟨hall hcan, ?_⟩, ?_⟩
  · intro k hk
    obtain ⟨a1, a2, a3, _⟩ := s5 k hk
    exact ⟨a2, a3, (s2 k a1).2.2⟩
  · intro hcfg
    have hr : List.range POOL_COUNT = [0, 1, 2, 3] := by decide
    have h0 : (s.pools 0).block_size = 64 := hcfg 0 (by decide)
    have h1 : (s.pools 1).block_size = 256 := hcfg 1 (by decide)
    have h2 : (s.pools 2).block_size = 1024 := hcfg 2 (by decide)
    have h3 : (s.pools 3).block_size = 4096 := hcfg 3 (by decide)
    rw [hall hcan, hr]
    refine ⟨?_, ?_, ?_, ?_, ?_, ?_⟩ <;> intro e <;> rw [e] <;>
      simp [List.find?_cons, h0, h1, h2, h3]
  · intro i hi hsz hmx hl hfree hsat hskip
    have htried : i ∈ (smart_pool_malloc s.pools s.mem size env).tried := by
      rcases s4 i (List.mem_range.mpr hi) hsz with h' | ⟨k, hk, hki⟩
      · exact h'
      · have := hskip k hk
        omega
    rw [(s2 i htried).2.2, pool_malloc_exhausted_failures _ _ _ hmx hl hfree]
    exact Nat.mod_eq_of_lt hsat

set_option maxRecDepth 100000 in
/-- C15 on the demo registry after start-up: a request of 49 bytes is served by Medium. -/
theorem smart_pool_malloc_dispatch_witness :
    (smart_pool_malloc demo_state0.pools demo_state0.mem 49 demo_smart_env).served_by =
      some 1 :=
  (((smart_pool_malloc_dispatch demo_state0 49 demo_smart_env demo_state0_Reachable
    (by decide)).2.2.2.2.1 (by decide)).2 (by decide)).2.1 rfl

set_option maxRecDepth 100000 in
/-- C16 fails on the code: on the demo registry after start-up a request of 4294967280 bytes
makes `size + 16` wrap to 0, so the Small tier, whose blocks hold 64 bytes, serves it. -/
theorem smart_pool_malloc_margin_overflow :
    (4294967280 + 16) % W32 = 0 ∧
      (smart_pool_malloc demo_state0.pools demo_state0.mem 4294967280
        demo_smart_env).served_by = some 0 ∧
      (smart_pool_malloc demo_state0.pools demo_state0.mem 4294967280
        demo_smart_env).ptr = 68288 ∧
      (demo_state0.pools 0).block_size = 64 ∧
      (demo_state0.pools 0).block_size < 4294967280 := by
  decide

/-- C17: in every reachable state, when every tier whose block size is at least `size + 16`
(as computed in `size_t`) fails to allocate, `smart_pool_malloc` returns what
`heap_caps_malloc` answers, having asked it for exactly `size` bytes; no tier serves the
request, the memory is unchanged, and no tier's `allocated_blocks`, `total_allocations`,
`peak_usage`, free list or bitmap changes.  When `size + 16` exceeds every block size,
`pool_malloc` is not called at all and every tier is left as it was. -/
theorem smart_pool_malloc_fallback (s : State) (size : Nat) (env : SmartMallocEnv)
    (hs : Reachable s)
    (hnone : ∀ i, i < POOL_COUNT → (size + 16) % W32 ≤ (s.pools i).block_size →
      (pool_malloc (s.pools i) s.mem (env.pool i)).ptr = 0) :
    (smart_pool_malloc s.pools s.mem size env).ptr = env.heap ∧
      (smart_pool_malloc s.pools s.mem size env).served_by = none ∧
      Event.heap_caps_malloc size ∈ (smart_pool_malloc s.pools s.mem size env).events ∧
      (∀ q, Event.heap_caps_malloc q ∈ (smart_pool_malloc s.pools s.mem size env).events →
        q = size) ∧
      (smart_pool_malloc s.pools s.mem size env).mem = s.mem ∧
      (∀ j, ((smart_pool_malloc s.pools s.mem size env).pools j).allocated_blocks =
            (s.pools j).allocated_blocks ∧
          ((smart_pool_malloc s.pools s.mem size env).pools j).total_allocations =
            (s.pools j).total_allocations ∧
          ((smart_pool_malloc s.pools s.mem size env).pools j).peak_usage =
            (s.pools j).peak_usage ∧
          ((smart_pool_malloc s.pools s.mem size env).pools j).free_list =
            (s.pools j).free_list ∧
          ((smart_pool_malloc s.pools s.mem size env).pools j).usage_bitmap =
            (s.pools j).usage_bitmap) ∧
      ((∀ i, i < POOL_COUNT → (s.pools i).block_size < (size + 16) % W32) →
        (smart_pool_malloc s.pools s.mem size env).tried = [] ∧
          ∀ j, (smart_pool_malloc s.pools s.mem size env).pools j = s.pools j) := by
  have hq := Reachable_malloc_quiet s hs env.pool
  obtain ⟨s1, s2, s3, _, _, s6⟩ := smart_pool_malloc_loop_spec ((size + 16) % W32) size env
    s.pools s.mem (List.range POOL_COUNT) (List.pairwise_lt_range _)
    (fun i _ h0 => (hq i h0).1) s.pools (fun _ _ => rfl)
  rw [← smart_pool_malloc_eq] at s1 s2 s3 s6
  have hnf : (smart_pool_malloc s.pools s.mem size env).served_by = none := by
    rw [s1, List.find?_eq_none]
    intro x hx
    have hx' := List.mem_range.mp hx
    by_cases hsz : (size + 16) % W32 ≤ (s.pools x).block_size
    · simp [hnone x hx' hsz]
    · simp [hsz]
  obtain ⟨a1, a2, a3, a4⟩ := s6 hnf
  refine ⟨a1, hnf, a3, a4, a2, ?_, ?_⟩
  · intro j
    by_cases hj : j ∈ (smart_pool_malloc s.pools s.mem size env).tried
    · obtain ⟨b1, b2, b3⟩ := s2 j hj
      obtain ⟨_, c2, c3, c4, c5, c6⟩ := hq j (hnone j (List.mem_range.mp b1) b2)
      rw [b3]
      exact ⟨c4, c5, c6, c2, c3⟩
    · rw [s3 j hj]
      exact ⟨rfl, rfl, rfl, rfl, rfl⟩
  · intro hbig
    have hnil : (smart_pool_malloc s.pools s.mem size env).tried = [] := by
      apply List.eq_nil_iff_forall_not_mem.mpr
      intro i hi
      obtain ⟨b1, b2, _⟩ := s2 i hi
      have := hbig i (List.mem_range.mp b1)
      omega
    refine ⟨hnil, fun j => s3 j ?_⟩
    rw [hnil]
    exact List.not_mem_nil _

set_option maxRecDepth 100000 in
/-- C17 on the demo registry after start-up: a request of 5000 bytes goes to the heap. -/
theorem smart_pool_malloc_fallback_witness :
    (smart_pool_malloc demo_state0.pools demo_state0.mem 5000 demo_smart_env).ptr =
        2000000 ∧
      Event.heap_caps_malloc 5000 ∈
        (smart_pool_malloc demo_state0.pools demo_state0.mem 5000 demo_smart_env).events :=
  have h := smart_pool_malloc_fallback demo_state0 5000 demo_smart_env demo_state0_Reachable
    (by decide)
  ⟨h.1, h.2.2.1⟩

set_option maxRecDepth 100000 in
/-- C18, as stated, fails: on the demo registry with the magic of the Small tier's head
overwritten, a request of 10 bytes makes `pool_malloc` on Small (the smallest sufficient
tier) take the corruption path and return null, after which `smart_pool_malloc` tries Medium
and returns its block. -/
theorem smart_pool_malloc_retries_after_corruption :
    (demo_state0.pools 0).free_list = 68264 ∧
      load32 demo_tampered_registry_mem ((demo_state0.pools 0).free_list + OFF_MAGIC) ≠
        POOL_MAGIC_FREE ∧
      (pool_malloc (demo_state0.pools 0) demo_tampered_registry_mem demo_malloc_env).ptr = 0 ∧
      Event.gpio_set_level LED_POOL_ERROR 1 ∈
        (pool_malloc (demo_state0.pools 0) demo_tampered_registry_mem demo_malloc_env).events ∧
      (smart_pool_malloc demo_state0.pools demo_tampered_registry_mem 10
        demo_smart_env).tried = [0, 1] ∧
      (smart_pool_malloc demo_state0.pools demo_tampered_registry_mem 10
        demo_smart_env).served_by = some 1 ∧
      (smart_pool_malloc demo_state0.pools demo_tampered_registry_mem 10
        demo_smart_env).ptr ≠ 0 := by
  decide

/-- C18 amended: `smart_pool_malloc` treats a null result of `pool_malloc` the same whatever
its cause.  When `pool_malloc` on the smallest sufficient tier `k` takes the corruption path,
and a failed `pool_malloc` of the other tiers leaves the memory untouched (as in every
well-formed pool), the dispatcher has called tier `k` and goes on as after exhaustion: the
request is served by the first larger tier of sufficient block size whose `pool_malloc`
returns non-null, and by `heap_caps_malloc` when there is none. -/
theorem smart_pool_malloc_after_corruption (pools : Pools) (m : Mem) (size : Nat)
    (env : SmartMallocEnv) (k : Nat) (hk : k < POOL_COUNT)
    (hmx : (pools k).mutex = true) (hl : (env.pool k).lock = true)
    (hh : (pools k).free_list ≠ 0)
    (hbad : load32 m ((pools k).free_list + OFF_MAGIC) ≠ POOL_MAGIC_FREE ∨
      load32 m ((pools k).free_list + OFF_POOL_ID) ≠ (pools k).pool_id)
    (hsz : (size + 16) % W32 ≤ (pools k).block_size)
    (hsmall : ∀ i, i < k → (pools i).block_size < (size + 16) % W32)
    (hquiet : ∀ j, j < POOL_COUNT → j ≠ k →
      (pool_malloc (pools j) m (env.pool j)).ptr = 0 →
        (pool_malloc (pools j) m (env.pool j)).mem = m) :
    k ∈ (smart_pool_malloc pools m size env).tried ∧
      (smart_pool_malloc pools m size env).served_by =
        (List.range POOL_COUNT).find? (fun j =>
          decide (k < j) && (decide ((size + 16) % W32 ≤ (pools j).block_size) &&
            decide ((pool_malloc (pools j) m (env.pool j)).ptr ≠ 0))) ∧
      (∀ j, (smart_pool_malloc pools m size env).served_by = some j →
        k < j ∧ (smart_pool_malloc pools m size env).ptr =
            (pool_malloc (pools j) m (env.pool j)).ptr ∧
          (smart_pool_malloc pools m size env).ptr ≠ 0) ∧
      ((smart_pool_malloc pools m size env).served_by = none →
        (smart_pool_malloc pools m size env).ptr = env.heap ∧
          Event.heap_caps_malloc size ∈ (smart_pool_malloc pools m size env).events) := by
  have hcor := pool_malloc_corrupt_eq (pools k) m (env.pool k) hmx hl hh hbad
  have hk0 : (pool_malloc (pools k) m (env.pool k)).ptr = 0 := by rw [hcor]
  have hkm : (pool_malloc (pools k) m (env.pool k)).mem = m := by rw [hcor]
  obtain ⟨s1, s2, _, s4, s5, s6⟩ := smart_pool_malloc_loop_spec ((size + 16) % W32) size env
    pools m (List.range POOL_COUNT) (List.pairwise_lt_range _)
    (fun i hi h0 => by
      by_cases e : i = k
      · rw [e]; exact hkm
      · exact hquiet i (List.mem_range.mp hi) e h0)
    pools (fun _ _ => rfl)
  rw [← smart_pool_malloc_eq] at s1 s2 s4 s5 s6
  have hfind : (smart_pool_malloc pools m size env).served_by =
      (List.range POOL_COUNT).find? (fun j =>
        decide (k < j) && (decide ((size + 16) % W32 ≤ (pools j).block_size) &&
          decide ((pool_malloc (pools j) m (env.pool j)).ptr ≠ 0))) := by
    rw [s1]
    apply find?_congr_on
    intro x _
    rcases Nat.lt_trichotomy x k with h' | h' | h'
    · have := hsmall x h'
      have e1 : ¬ (size + 16) % W32 ≤ (pools x).block_size := by omega
      have e2 : ¬ k < x := by omega
      simp [e1, e2]
    · rw [h']
      simp [hk0]
    · simp [h']
  have hlt : ∀ j, (smart_pool_malloc pools m size env).served_by = some j → k < j := by
    intro j hj
    rw [hfind] at hj
    have := List.find?_some hj
    simp only [Bool.and_eq_true, decide_eq_true_eq] at this
    exact this.1
  refine ⟨?_, hfind, ?_, ?_⟩
  · rcases s4 k (List.mem_range.mpr hk) hsz with h' | ⟨j, hj, hjk⟩
    · exact h'
    · have := hlt j hj
      omega
  · intro j hj
    obtain ⟨_, a2, a3, _⟩ := s5 j hj
    exact ⟨hlt j hj, a2, a3⟩
  · intro hn
    obtain ⟨a1, _, a3, _⟩ := s6 hn
    exact ⟨a1, a3⟩

set_option maxRecDepth 100000 in
/-- C18 amended, on the demo registry with the Small tier's head overwritten. -/
theorem smart_pool_malloc_after_corruption_witness :
    0 ∈ (smart_pool_malloc demo_state0.pools demo_tampered_registry_mem 10
        demo_smart_env).tried ∧
      ∀ j, (smart_pool_malloc demo_state0.pools demo_tampered_registry_mem 10
          demo_smart_env).served_by = some j →
        0 < j ∧ (smart_pool_malloc demo_state0.pools demo_tampered_registry_mem 10
            demo_smart_env).ptr =
            (pool_malloc (demo_state0.pools j) demo_tampered_registry_mem
              (demo_smart_env.pool j)).ptr ∧
          (smart_pool_malloc demo_state0.pools demo_tampered_registry_mem 10
            demo_smart_env).ptr ≠ 0 :=
  have h := smart_pool_malloc_after_corruption demo_state0.pools demo_tampered_registry_mem 10
    demo_smart_env 0 (by decide) (by decide) (by decide) (by decide) (Or.inl (by decide))
    (by decide) (fun i hi => absurd hi (Nat.not_lt_zero _))
    (by
      intro j hj hne h0
      unfold POOL_COUNT at hj
      interval_cases j
      · exact absurd rfl hne
      · exact absurd h0 (by decide)
      · exact absurd h0 (by decide)
      · exact absurd h0 (by decide))
  ⟨h.1, h.2.2.1⟩

/-! ## Initialisation and lock timeout -/

/-- C22: after a successful `init_memory_pool` (the platform calls succeed and the sizes do
not wrap) the free list holds exactly the blocks `block_count - 1, ..., 1, 0`, in this
order and ending with a null link, of the arena with stride
`header_size + align_up(block_size, 4)`; every block has magic FREE and the given pool id,
every bitmap bit is clear, and `allocated_blocks`, `peak_usage`, `total_allocations`,
`total_deallocations` and `allocation_failures` are 0. -/
theorem init_memory_pool_post (c : pool_config_t) (id : Nat) (env : InitEnv) (m : Mem)
    (h : InitOK c id env) :
    (init_memory_pool c id env m).ok = true ∧
      (init_memory_pool c id env m).pool.mutex = true ∧
      (init_memory_pool c id env m).pool.pool_memory = env.arena ∧
      (init_memory_pool c id env m).pool.block_count = c.block_count ∧
      stride (init_memory_pool c id env m).pool = header_size + align_up c.block_size 4 ∧
      Chain (init_memory_pool c id env m).mem (init_memory_pool c id env m).pool.free_list
        ((List.range c.block_count).reverse.map
          (fun i => env.arena + i * (header_size + align_up c.block_size 4))) ∧
      (0 < c.block_count →
        (init_memory_pool c id env m).pool.free_list =
          env.arena + (c.block_count - 1) * (header_size + align_up c.block_size 4)) ∧
      (∀ i, i < c.block_count →
        load32 (init_memory_pool c id env m).mem
            (env.arena + i * (header_size + align_up c.block_size 4) + OFF_MAGIC) =
            POOL_MAGIC_FREE ∧
          load32 (init_memory_pool c id env m).mem
            (env.arena + i * (header_size + align_up c.block_size 4) + OFF_POOL_ID) = id) ∧
      (∀ j, bit_at (init_memory_pool c id env m).pool.usage_bitmap j = false) ∧
      (init_memory_pool c id env m).pool.allocated_blocks = 0 ∧
      (init_memory_pool c id env m).pool.peak_usage = 0 ∧
      (init_memory_pool c id env m).pool.total_allocations = 0 ∧
      (init_memory_pool c id env m).pool.total_deallocations = 0 ∧
      (init_memory_pool c id env m).pool.allocation_failures = 0 := by
  obtain ⟨hok, hinv, _, hbs, hcount, hal, hpm, _, h9, h10, h11, h12, h13⟩ :=
    init_memory_pool_ok c id env m h
  have hg := hinv.geom
  have hstride : stride (init_memory_pool c id env m).pool =
      header_size + align_up c.block_size 4 := by
    rw [stride_eq _ hg, hbs, hal]
  have haddr : block_addr (init_memory_pool c id env m).pool =
      fun i => env.arena + i * (header_size + align_up c.block_size 4) := by
    funext i
    unfold block_addr
    rw [hstride, hpm]
  have hchain := hinv.chain
  unfold FreeList at hchain
  rw [haddr] at hchain
  have hbits : ∀ j, bit_at (init_memory_pool c id env m).pool.usage_bitmap j = false := by
    intro j
    rw [init_memory_pool_eq c id env m h.1 h.2.1 h.2.2.2.1]
    exact bit_at_replicate_zero _ _
  refine ⟨hok, hinv.mutex, hpm, hcount, hstride, hchain, ?_, ?_, hbits, h9, h10, h11, h12,
    h13⟩
  · intro hn
    obtain ⟨k, hk⟩ : ∃ k, c.block_count = k + 1 := ⟨c.block_count - 1, by omega⟩
    rw [hk, List.range_succ, List.reverse_append] at hchain
    rw [hk]
    exact hchain.1
  · intro i hi
    have hi' : i < (init_memory_pool c id env m).pool.block_count := by rw [hcount]; exact hi
    have hmem : i ∈ (List.range c.block_count).reverse := by
      rw [List.mem_reverse, List.mem_range]; exact hi
    have h1 := hinv.magic_free i hmem
    have h2 := hinv.ids i hi'
    rw [haddr] at h1 h2
    rw [init_memory_pool_ok c id env m h |>.2.2.2.2.2.2.2.1] at h2
    exact ⟨h1, h2⟩

/-- C22 on the demo pool: the head of the free list is block 1, at 4152. -/
theorem init_memory_pool_post_witness :
    (init_memory_pool demo_config 1 demo_init_env (fun _ => 0)).ok = true ∧
      (init_memory_pool demo_config 1 demo_init_env (fun _ => 0)).pool.free_list = 4152 :=
  have h := init_memory_pool_post demo_config 1 demo_init_env (fun _ => 0) (by decide)
  ⟨h.1, h.2.2.2.2.2.2.1 (by decide)⟩

/-- C24: when the lock of an initialised pool is not acquired in time, `pool_malloc` returns
null and leaves `allocation_failures`, `allocated_blocks`, `total_allocations`, `peak_usage`,
the free list, the bitmap and the memory, hence every block header, unchanged. -/
theorem pool_malloc_lock_timeout (p : memory_pool_t) (m : Mem) (env : MallocEnv)
    (hmx : p.mutex = true) (hl : env.lock = false) :
    (pool_malloc p m env).ptr = 0 ∧
      (pool_malloc p m env).pool.allocation_failures = p.allocation_failures ∧
      (pool_malloc p m env).pool.allocated_blocks = p.allocated_blocks ∧
      (pool_malloc p m env).pool.total_allocations = p.total_allocations ∧
      (pool_malloc p m env).pool.peak_usage = p.peak_usage ∧
      (pool_malloc p m env).pool.free_list = p.free_list ∧
      (pool_malloc p m env).pool.usage_bitmap = p.usage_bitmap ∧
      (pool_malloc p m env).mem = m := by
  rw [pool_malloc_timeout_eq p m env hmx hl]
  exact ⟨rfl, rfl, rfl, rfl, rfl, rfl, rfl, rfl⟩

/-- C24 on the demo pool with a lock that is not acquired. -/
theorem pool_malloc_lock_timeout_witness :
    (pool_malloc demo_pool demo_mem ⟨false, 10, 11, 12⟩).ptr = 0 ∧
      (pool_malloc demo_pool demo_mem ⟨false, 10, 11, 12⟩).pool.free_list =
        demo_pool.free_list :=
  have h := pool_malloc_lock_timeout demo_pool demo_mem ⟨false, 10, 11, 12⟩ (by decide) rfl
  ⟨h.1, h.2.2.2.2.2.1⟩

/-! ## Lock discipline -/

theorem lock_run_append (a b : List Event) :
    ∀ held, lock_run held (a ++ b) =
      (lock_run held a).bind (fun h => lock_run h b) := by
  induction a with
  | nil => intro held; rfl
  | cons e a ih =>
    intro held
    cases e with
    | sem_take id ok =>
      simp only [List.cons_append, lock_run]
      by_cases hh : held = none
      · rw [if_pos hh, if_pos hh]
        exact ih _
      · rw [if_neg hh, if_neg hh]
        rfl
    | sem_give id =>
      simp only [List.cons_append, lock_run]
      by_cases hh : held = some id
      · rw [if_pos hh, if_pos hh]
        exact ih _
      · rw [if_neg hh, if_neg hh]
        rfl
    | gpio_set_level pin level => simp only [List.cons_append, lock_run]; exact ih _
    | task_delay ms => simp only [List.cons_append, lock_run]; exact ih _
    | heap_caps_malloc size => simp only [List.cons_append, lock_run]; exact ih _
    | heap_caps_free ptr => simp only [List.cons_append, lock_run]; exact ih _

theorem LockDiscipline_append (a b : List Event) (ha : LockDiscipline a)
    (hb : LockDiscipline b) : LockDiscipline (a ++ b) := by
  unfold LockDiscipline at *
  rw [lock_run_append, ha]
  exact hb

theorem pool_malloc_LockDiscipline (p : memory_pool_t) (m : Mem) (env : MallocEnv) :
    LockDiscipline (pool_malloc p m env).events := by
  unfold pool_malloc LockDiscipline
  dsimp only
  split_ifs <;> simp [lock_run]

theorem pool_free_LockDiscipline (p : memory_pool_t) (m : Mem) (ptr : Nat) (env : FreeEnv) :
    LockDiscipline (pool_free p m ptr env).events := by
  unfold pool_free LockDiscipline
  dsimp only
  split_ifs <;> simp [lock_run]

theorem smart_pool_malloc_loop_LockDiscipline (req size : Nat) (env : SmartMallocEnv)
    (is : List Nat) :
    ∀ (pools : Pools) (m : Mem),
      LockDiscipline (smart_pool_malloc_loop req size env is pools m).events := by
  induction is with
  | nil =>
    intro pools m
    show lock_run none [Event.heap_caps_malloc size] = some none
    rfl
  | cons i is ih =>
    intro pools m
    rw [smart_pool_malloc_loop_cons]
    split_ifs
    · exact LockDiscipline_append _ _ (pool_malloc_LockDiscipline _ _ _) rfl
    · exact LockDiscipline_append _ _ (pool_malloc_LockDiscipline _ _ _) (ih _ _)
    · exact ih _ _

theorem smart_pool_free_loop_LockDiscipline (ptr : Nat) (env : Nat → FreeEnv) (is : List Nat) :
    ∀ (pools : Pools) (m : Mem),
      LockDiscipline (smart_pool_free_loop ptr env is pools m).events := by
  induction is with
  | nil =>
    intro pools m
    show lock_run none [Event.heap_caps_free ptr] = some none
    rfl
  | cons i is ih =>
    intro pools m
    rw [smart_pool_free_loop_cons]
    split_ifs
    · exact pool_free_LockDiscipline _ _ _ _
    · exact LockDiscipline_append _ _ (pool_free_LockDiscipline _ _ _ _) (ih _ _)

theorem check_pool_loop_LockDiscipline (pools : Pools) (m : Mem) (lock : Nat → Bool)
    (is : List Nat) : LockDiscipline (check_pool_loop pools m lock is).events := by
  induction is with
  | nil => rfl
  | cons i is ih =>
    unfold check_pool_loop
    dsimp only
    split_ifs
    · exact LockDiscipline_append _ _ (by simp [LockDiscipline, lock_run]) ih
    · exact LockDiscipline_append _ _ (by simp [LockDiscipline, lock_run]) ih
    · exact LockDiscipline_append [Event.sem_take (pools i).pool_id false] _
        (by simp [LockDiscipline, lock_run]) ih
    · exact ih

/-- C26: with the lock held modelled as explicit state over the trace of semaphore calls,
every call of `pool_malloc`, `pool_free`, `check_pool_integrity`, `smart_pool_malloc` and
`smart_pool_free` starts and ends with no lock held, releases each lock it has acquired
before anything else happens to a lock, and never requests a lock while it holds one; this
holds on every path and for every answer of the platform. -/
theorem lock_discipline :
    (∀ (p : memory_pool_t) (m : Mem) (env : MallocEnv),
        LockDiscipline (pool_malloc p m env).events) ∧
      (∀ (p : memory_pool_t) (m : Mem) (ptr : Nat) (env : FreeEnv),
        LockDiscipline (pool_free p m ptr env).events) ∧
      (∀ (pools : Pools) (m : Mem) (lock : Nat → Bool),
        LockDiscipline (check_pool_integrity pools m lock).events) ∧
      (∀ (pools : Pools) (m : Mem) (size : Nat) (env : SmartMallocEnv),
        LockDiscipline (smart_pool_malloc pools m size env).events) ∧
      (∀ (pools : Pools) (m : Mem) (ptr : Nat) (env : Nat → FreeEnv),
        LockDiscipline (smart_pool_free pools m ptr env).events) := by
  refine ⟨pool_malloc_LockDiscipline, pool_free_LockDiscipline, ?_, ?_, ?_⟩
  · intro pools m lock
    unfold check_pool_integrity
    dsimp only
    apply LockDiscipline_append _ _ (check_pool_loop_LockDiscipline pools m lock _)
    split_ifs <;> rfl
  · intro pools m size env
    exact smart_pool_malloc_loop_LockDiscipline _ _ _ _ _ _
  · intro pools m ptr env
    unfold smart_pool_free
    split_ifs
    · rfl
    · exact smart_pool_free_loop_LockDiscipline _ _ _ _ _

/-! ## The integrity check -/

theorem nth_node_zero (m : Mem) : ∀ j, nth_node m 0 j = 0
  | 0 => rfl
  | j + 1 => by simp [nth_node]

theorem integrity_walk_fail_iff (m : Mem) (id : Nat) :
    ∀ (fuel head c : Nat), (integrity_walk m id fuel head c).1 = false ↔
      ∃ j, j < fuel ∧ BadNode m id (nth_node m head j) := by
  intro fuel
  induction fuel with
  | zero =>
    intro head c
    constructor
    · intro h
      exact absurd h (by simp [integrity_walk])
    · rintro ⟨j, hj, _⟩
      exact absurd hj (Nat.not_lt_zero _)
  | succ n ih =>
    intro head c
    unfold integrity_walk
    by_cases h0 : head = 0
    · rw [if_pos h0]
      constructor
      · intro h
        exact absurd h (by simp)
      · rintro ⟨j, _, hb⟩
        rw [h0, nth_node_zero] at hb
        exact absurd rfl hb.1
    · rw [if_neg h0]
      by_cases hbad : load32 m (head + OFF_MAGIC) ≠ POOL_MAGIC_FREE ∨
          load32 m (head + OFF_POOL_ID) ≠ id
      · rw [if_pos hbad]
        constructor
        · intro _
          exact ⟨0, Nat.succ_pos _, h0, hbad⟩
        · intro _
          rfl
      · rw [if_neg hbad, ih]
        constructor
        · rintro ⟨j, hj, hb⟩
          refine ⟨j + 1, Nat.succ_lt_succ hj, ?_⟩
          show BadNode m id (if head = 0 then 0 else nth_node m (load32 m (head + OFF_NEXT)) j)
          rw [if_neg h0]
          exact hb
        · rintro ⟨j, hj, hb⟩
          cases j with
          | zero => exact absurd hb.2 hbad
          | succ k =>
            refine ⟨k, Nat.lt_of_succ_lt_succ hj, ?_⟩
            have hb2 : BadNode m id
                (if head = 0 then 0 else nth_node m (load32 m (head + OFF_NEXT)) k) := hb
            rw [if_neg h0] at hb2
            exact hb2

theorem integrity_walk_count (m : Mem) (id : Nat) :
    ∀ (fuel head c : Nat), (integrity_walk m id fuel head c).2 ≤ c + fuel := by
  intro fuel
  induction fuel with
  | zero =>
    intro head c
    exact Nat.le_refl _
  | succ n ih =>
    intro head c
    unfold integrity_walk
    split_ifs
    · exact Nat.le_add_right _ _
    · exact Nat.le_add_right _ _
    · have := ih (load32 m (head + OFF_NEXT)) (c + 1)
      omega

theorem integrity_walk_chain (m : Mem) (id : Nat) :
    ∀ (l : List Nat) (fuel head c : Nat), Chain m head l →
      (∀ a ∈ l, load32 m (a + OFF_MAGIC) = POOL_MAGIC_FREE ∧ load32 m (a + OFF_POOL_ID) = id) →
      l.length ≤ fuel → integrity_walk m id fuel head c = (true, c + l.length) := by
  intro l
  induction l with
  | nil =>
    intro fuel head c hc _ _
    have h0 : head = 0 := hc
    cases fuel with
    | zero => rfl
    | succ n =>
      unfold integrity_walk
      rw [if_pos h0]
      rfl
  | cons a l ih =>
    intro fuel head c hc hall hlen
    obtain ⟨hh, ha, hrest⟩ := hc
    cases fuel with
    | zero => exact absurd hlen (by simp)
    | succ n =>
      have hgood := hall a (List.mem_cons_self _ _)
      unfold integrity_walk
      rw [if_neg (by rw [hh]; exact ha), if_neg (by rw [hh]; simp [hgood.1, hgood.2]), hh,
        ih n _ (c + 1) hrest (fun b hb => hall b (List.mem_cons_of_mem _ hb))
          (Nat.le_of_succ_le_succ hlen)]
      simp only [List.length_cons, Prod.mk.injEq, true_and]
      omega

theorem check_pool_loop_fail_iff (pools : Pools) (m : Mem) (lock : Nat → Bool) (is : List Nat) :
    (check_pool_loop pools m lock is).all_ok = false ↔
      ∃ i, i ∈ is ∧ (pools i).mutex = true ∧ lock i = true ∧
        ∃ j, j < (pools i).block_count ∧
          BadNode m (pools i).pool_id (nth_node m (pools i).free_list j) := by
  induction is with
  | nil =>
    constructor
    · intro h
      exact absurd h (by simp [check_pool_loop])
    · rintro ⟨i, hi, _⟩
      exact absurd hi (List.not_mem_nil _)
  | cons i is ih =>
    have hrest : (∃ k, k ∈ is ∧ (pools k).mutex = true ∧ lock k = true ∧
          ∃ j, j < (pools k).block_count ∧
            BadNode m (pools k).pool_id (nth_node m (pools k).free_list j)) →
        ∃ k, k ∈ i :: is ∧ (pools k).mutex = true ∧ lock k = true ∧
          ∃ j, j < (pools k).block_count ∧
            BadNode m (pools k).pool_id (nth_node m (pools k).free_list j) := by
      rintro ⟨k, hk, h⟩
      exact ⟨k, List.mem_cons_of_mem _ hk, h⟩
    unfold check_pool_loop
    dsimp only
    by_cases hmx : (pools i).mutex = true
    · rw [if_pos hmx]
      by_cases hl : lock i = true
      · rw [if_pos hl]
        by_cases hw : (integrity_walk m (pools i).pool_id (pools i).block_count
            (pools i).free_list 0).1 = true
        · rw [if_pos hw]
          constructor
          · intro h
            exact hrest (ih.mp h)
          · rintro ⟨k, hk, hkm, hkl, hj⟩
            rcases List.mem_cons.mp hk with rfl | hk2
            · have := (integrity_walk_fail_iff m _ _ _ 0).mpr hj
              rw [hw] at this
              exact absurd this (by simp)
            · exact ih.mpr ⟨k, hk2, hkm, hkl, hj⟩
        · rw [if_neg hw]
          constructor
          · intro _
            refine ⟨i, List.mem_cons_self _ _, hmx, hl, ?_⟩
            apply (integrity_walk_fail_iff m _ _ _ 0).mp
            simpa using hw
          · intro _
            rfl
      · rw [if_neg hl]
        constructor
        · intro h
          exact hrest (ih.mp h)
        · rintro ⟨k, hk, hkm, hkl, hj⟩
          rcases List.mem_cons.mp hk with rfl | hk2
          · exact absurd hkl hl
          · exact ih.mpr ⟨k, hk2, hkm, hkl, hj⟩
    · rw [if_neg hmx]
      constructor
      · intro h
        exact hrest (ih.mp h)
      · rintro ⟨k, hk, hkm, hkl, hj⟩
        rcases List.mem_cons.mp hk with rfl | hk2
        · exact absurd hkm hmx
        · exact ih.mpr ⟨k, hk2, hkm, hkl, hj⟩

theorem check_pool_loop_verified_le (pools : Pools) (m : Mem) (lock : Nat → Bool)
    (is : List Nat) :
    ∀ i n, (i, n) ∈ (check_pool_loop pools m lock is).verified →
      i ∈ is ∧ n ≤ (pools i).block_count := by
  induction is with
  | nil =>
    intro i n h
    exact absurd h (List.not_mem_nil _)
  | cons k is ih =>
    have hrest : ∀ i n, (i, n) ∈ (check_pool_loop pools m lock is).verified →
        i ∈ k :: is ∧ n ≤ (pools i).block_count :=
      fun i n h => ⟨List.mem_cons_of_mem _ (ih i n h).1, (ih i n h).2⟩
    intro i n
    unfold check_pool_loop
    dsimp only
    split_ifs
    · intro h
      rcases List.mem_cons.mp h with heq | h2
      · have h1 : i = k := congrArg Prod.fst heq
        have h2 : n = _ := congrArg Prod.snd heq
        rw [h2, h1]
        have := integrity_walk_count m (pools k).pool_id (pools k).block_count
          (pools k).free_list 0
        exact ⟨List.mem_cons_self _ _, by omega⟩
      · exact hrest i n h2
    · exact hrest i n
    · exact hrest i n
    · exact hrest i n

/-- C21: on pools whose `block_count` fits the `int` counter of the walk,
`check_pool_integrity` returns false exactly when, for some tier that is initialised and
whose lock is acquired, one of the first `block_count` nodes reached from the head of its
free list is a node (not `NULL`) whose magic is not FREE or whose `pool_id` is not the id of
the tier; the walk is a total function that counts at most `block_count` nodes per tier
whatever the links are, so its counter stays below `2 ^ 31`, and the call leaves the pools
and the memory as they were. -/
theorem check_pool_integrity_contract (pools : Pools) (m : Mem) (lock : Nat → Bool)
    (hcount : ∀ i, i < POOL_COUNT → (pools i).block_count < 2 ^ 31) :
    ((check_pool_integrity pools m lock).all_ok = false ↔
        ∃ i, i < POOL_COUNT ∧ (pools i).mutex = true ∧ lock i = true ∧
          ∃ j, j < (pools i).block_count ∧
            BadNode m (pools i).pool_id (nth_node m (pools i).free_list j)) ∧
      (∀ i n, (i, n) ∈ (check_pool_integrity pools m lock).verified →
        n ≤ (pools i).block_count ∧ n < 2 ^ 31) ∧
      (∀ (id fuel head : Nat), (integrity_walk m id fuel head 0).2 ≤ fuel) ∧
      (check_pool_integrity pools m lock).pools = pools ∧
      (check_pool_integrity pools m lock).mem = m := by
  refine ⟨?_, ?_, ?_, rfl, rfl⟩
  · show (check_pool_loop pools m lock (List.range POOL_COUNT)).all_ok = false ↔ _
    rw [check_pool_loop_fail_iff]
    constructor
    · rintro ⟨i, hi, h⟩
      exact ⟨i, List.mem_range.mp hi, h⟩
    · rintro ⟨i, hi, h⟩
      exact ⟨i, List.mem_range.mpr hi, h⟩
  · intro i n hmem
    obtain ⟨hi, hn⟩ := check_pool_loop_verified_le pools m lock _ i n hmem
    exact ⟨hn, Nat.lt_of_le_of_lt hn (hcount i (List.mem_range.mp hi))⟩
  · intro id fuel head
    have := integrity_walk_count m id fuel head 0
    omega

set_option maxRecDepth 100000 in
/-- C21 on the demo registry with the magic of the head of the Small tier overwritten: the
check returns false and the head of tier 0 is the offending node. -/
theorem check_pool_integrity_contract_witness :
    (check_pool_integrity demo_state0.pools demo_tampered_registry_mem
        (fun _ => true)).all_ok = false ∧
      ∃ i, i < POOL_COUNT ∧ (demo_state0.pools i).mutex = true ∧ (fun _ => true) i = true ∧
        ∃ j, j < (demo_state0.pools i).block_count ∧
          BadNode demo_tampered_registry_mem (demo_state0.pools i).pool_id
            (nth_node demo_tampered_registry_mem (demo_state0.pools i).free_list j) :=
  have h := check_pool_integrity_contract demo_state0.pools demo_tampered_registry_mem
    (fun _ => true) (by decide)
  ⟨by decide, h.1.mp (by decide)⟩

theorem check_pool_loop_sound (pools : Pools) (m : Mem) (lock : Nat → Bool)
    (fl : Nat → List Nat) (hc : CoreInv pools m fl) (is : List Nat)
    (his : ∀ i ∈ is, i < POOL_COUNT) :
    (check_pool_loop pools m lock is).all_ok = true ∧
      (check_pool_loop pools m lock is).verified =
        (is.filter (fun i => (pools i).mutex && lock i)).map
          (fun i => (i, (pools i).block_count - (pools i).allocated_blocks)) := by
  induction is with
  | nil => exact ⟨rfl, rfl⟩
  | cons i is ih =>
    have ih2 := ih (fun k hk => his k (List.mem_cons_of_mem _ hk))
    unfold check_pool_loop
    dsimp only
    by_cases hmx : (pools i).mutex = true
    · rw [if_pos hmx]
      by_cases hl : lock i = true
      · rw [if_pos hl]
        have hinv := hc.inv i (his i (List.mem_cons_self _ _)) hmx
        have hcnt := hinv.count
        have hw := integrity_walk_chain m (pools i).pool_id ((fl i).map (block_addr (pools i)))
          (pools i).block_count (pools i).free_list 0 hinv.chain
          (by
            intro a ha
            obtain ⟨b, hb, rfl⟩ := List.mem_map.mp ha
            exact ⟨hinv.magic_free b hb, hinv.ids b (hinv.in_range b hb)⟩)
          (by rw [List.length_map]; omega)
        rw [hw]
        rw [if_pos rfl, List.filter_cons_of_pos (by simp [hmx, hl]), List.map_cons]
        refine ⟨ih2.1, ?_⟩
        have hn : 0 + (fl i).length = (pools i).block_count - (pools i).allocated_blocks := by
          omega
        rw [ih2.2, List.length_map, hn]
      · rw [if_neg hl, List.filter_cons_of_neg (by simp [hl])]
        exact ih2
    · rw [if_neg hmx, List.filter_cons_of_neg (by simp [hmx])]
      exact ih2

/-- C30: in every reachable state of the registry, whichever locks are acquired,
`check_pool_integrity` returns true, and for every initialised tier whose lock is acquired
the number of free blocks it reports as verified is `block_count - allocated_blocks`. -/
theorem check_pool_integrity_no_false_alarm (s : State) (lock : Nat → Bool)
    (hs : Reachable s) :
    (check_pool_integrity s.pools s.mem lock).all_ok = true ∧
      (check_pool_integrity s.pools s.mem lock).verified =
        ((List.range POOL_COUNT).filter (fun i => (s.pools i).mutex && lock i)).map
          (fun i => (i, (s.pools i).block_count - (s.pools i).allocated_blocks)) := by
  obtain ⟨fl, h⟩ := Reachable_RegInv s hs
  exact check_pool_loop_sound s.pools s.mem lock fl h.core _
    (fun i hi => List.mem_range.mp hi)

set_option maxRecDepth 100000 in
/-- C30 on the demo registry after one allocation from the Small tier, all locks acquired. -/
theorem check_pool_integrity_no_false_alarm_witness :
    (demo_state1.pools 0).allocated_blocks = 1 ∧
      (check_pool_integrity demo_state1.pools demo_state1.mem (fun _ => true)).all_ok = true ∧
      (check_pool_integrity demo_state1.pools demo_state1.mem (fun _ => true)).verified =
        ((List.range POOL_COUNT).filter
          (fun i => (demo_state1.pools i).mutex && (fun _ => true) i)).map
          (fun i => (i, (demo_state1.pools i).block_count -
            (demo_state1.pools i).allocated_blocks)) :=
  ⟨by decide, check_pool_integrity_no_false_alarm demo_state1 (fun _ => true)
    demo_state1_Reachable⟩

set_option maxRecDepth 100000 in
/-- On the demo registry with the magic of the head of the Small tier overwritten, the check
returns false and switches the error LED on. -/
theorem check_pool_integrity_detects_tampering :
    (check_pool_integrity demo_state0.pools demo_tampered_registry_mem
        (fun _ => true)).all_ok = false ∧
      Event.gpio_set_level LED_POOL_ERROR 1 ∈
        ((check_pool_loop demo_state0.pools demo_tampered_registry_mem (fun _ => true)
          [0]).events) := by
  decide

/-! ## Failed initialisation -/

theorem init_memory_pool_flags (c : pool_config_t) (id : Nat) (env : InitEnv) (m : Mem) :
    (init_memory_pool c id env m).ok =
        (decide (env.arena ≠ 0) && env.bitmap_ok && env.mutex_ok) ∧
      (init_memory_pool c id env m).pool.mutex =
        (decide (env.arena ≠ 0) && env.bitmap_ok && env.mutex_ok) ∧
      ((init_memory_pool c id env m).ok = false →
        (init_memory_pool c id env m).arena_released = decide (env.arena ≠ 0) ∧
          (init_memory_pool c id env m).bitmap_released =
            (decide (env.arena ≠ 0) && env.bitmap_ok)) := by
  unfold init_memory_pool
  dsimp only
  by_cases h0 : env.arena = 0
  · rw [if_pos h0]
    simp [h0]
  · rw [if_neg h0]
    cases hb : env.bitmap_ok
    · simp [h0]
    · cases hm : env.mutex_ok <;> simp [h0]

theorem smart_pool_malloc_loop_SameArena (req size : Nat) (env : SmartMallocEnv)
    (is : List Nat) :
    ∀ (pools : Pools) (m : Mem) (j : Nat),
      SameArena (pools j) ((smart_pool_malloc_loop req size env is pools m).pools j) := by
  induction is with
  | nil =>
    intro pools m j
    exact SameArena_refl _
  | cons i is ih =>
    intro pools m j
    rw [smart_pool_malloc_loop_cons]
    split_ifs
    · exact set_pool_SameArena pools i _ (pool_malloc_SameArena _ _ _) j
    · exact SameArena_trans _ _ _
        (set_pool_SameArena pools i _ (pool_malloc_SameArena _ _ _) j) (ih _ _ j)
    · exact ih _ _ j

theorem smart_pool_free_loop_SameArena (ptr : Nat) (env : Nat → FreeEnv) (is : List Nat) :
    ∀ (pools : Pools) (m : Mem) (j : Nat),
      SameArena (pools j) ((smart_pool_free_loop ptr env is pools m).pools j) := by
  induction is with
  | nil =>
    intro pools m j
    exact SameArena_refl _
  | cons i is ih =>
    intro pools m j
    rw [smart_pool_free_loop_cons]
    split_ifs
    · exact set_pool_SameArena pools i _ (pool_free_SameArena _ _ _ _) j
    · exact SameArena_trans _ _ _
        (set_pool_SameArena pools i _ (pool_free_SameArena _ _ _ _) j) (ih _ _ j)

theorem step_SameArena (s : State) (op : Op) (j : Nat) :
    SameArena (s.pools j) ((step s op).pools j) := by
  cases op with
  | malloc k env =>
    rw [step_malloc_eq]
    exact set_pool_SameArena s.pools k _ (pool_malloc_SameArena _ _ _) j
  | free k ptr env =>
    rw [step_free_eq]
    exact set_pool_SameArena s.pools k _ (pool_free_SameArena _ _ _ _) j
  | smart_malloc size env =>
    exact smart_pool_malloc_loop_SameArena _ _ _ _ _ _ j
  | smart_free ptr env =>
    show SameArena (s.pools j) ((smart_pool_free s.pools s.mem ptr env).pools j)
    unfold smart_pool_free
    split_ifs
    · exact SameArena_refl _
    · exact smart_pool_free_loop_SameArena _ _ _ _ _ j

theorem Reach_SameArena (s0 s : State) (h : Reach s0 s) (j : Nat) :
    SameArena (s0.pools j) (s.pools j) := by
  induction h with
  | init => exact SameArena_refl _
  | step op _ _ ih => exact SameArena_trans _ _ _ ih (step_SameArena _ op j)

theorem init_pools_at (envs : Nat → InitEnv) (m : Mem) (i : Nat) (hi : i < POOL_COUNT) :
    ∃ m', (init_pools envs m).1 i =
      (init_memory_pool (config_at i) ((i + 1) % W32) (envs i) m').pool := by
  have hr : List.range POOL_COUNT = [0, 1, 2, 3] := by decide
  unfold init_pools
  rw [hr, init_pools_loop_cons, init_pools_loop_cons, init_pools_loop_cons,
    init_pools_loop_cons]
  unfold POOL_COUNT at hi
  interval_cases i
  · exact ⟨_, rfl⟩
  · exact ⟨_, rfl⟩
  · exact ⟨_, rfl⟩
  · exact ⟨_, rfl⟩

theorem boot_mutex (envs : Nat → InitEnv) (m : Mem) (i : Nat) (hi : i < POOL_COUNT) :
    ((boot envs m).pools i).mutex =
      (decide ((envs i).arena ≠ 0) && (envs i).bitmap_ok && (envs i).mutex_ok) := by
  obtain ⟨m', h⟩ := init_pools_at envs m i hi
  show ((init_pools envs m).1 i).mutex = _
  rw [h]
  exact (init_memory_pool_flags _ _ _ _).2.1

/-- C23: when the arena, the bitmap or the lock cannot be reserved, `init_memory_pool`
returns false, has released what it had reserved (nothing when the arena failed, the arena
when the bitmap failed, the arena and the bitmap when the lock failed) and leaves the pool
without lock; on that pool every `pool_malloc` returns null and every `pool_free` returns
false, whatever the memory holds, with pool and memory unchanged and no call made; and in
every state of the registry reached after a start-up in which tier `i` failed this way, tier
`i` still has no lock, the tiers whose three reservations succeeded have theirs, and
`smart_pool_malloc` is served by the first tier other than `i` that is sufficient and whose
`pool_malloc` returns a block. -/
theorem init_failure_disables_tier (c : pool_config_t) (id : Nat) (env : InitEnv) (m : Mem)
    (hfail : env.arena = 0 ∨ env.bitmap_ok = false ∨ env.mutex_ok = false) :
    (init_memory_pool c id env m).ok = false ∧
      (init_memory_pool c id env m).pool.mutex = false ∧
      (init_memory_pool c id env m).arena_released = decide (env.arena ≠ 0) ∧
      (init_memory_pool c id env m).bitmap_released =
        (decide (env.arena ≠ 0) && env.bitmap_ok) ∧
      (∀ (m' : Mem) (menv : MallocEnv),
        pool_malloc (init_memory_pool c id env m).pool m' menv =
          ⟨0, (init_memory_pool c id env m).pool, m', []⟩) ∧
      (∀ (m' : Mem) (ptr : Nat) (fenv : FreeEnv),
        pool_free (init_memory_pool c id env m).pool m' ptr fenv =
          ⟨false, (init_memory_pool c id env m).pool, m', []⟩) ∧
      (∀ (envs : Nat → InitEnv) (m0 : Mem) (i : Nat) (s : State),
        BootOK envs → i < POOL_COUNT → envs i = env → Reach (boot envs m0) s →
          (s.pools i).mutex = false ∧
            (∀ j, j < POOL_COUNT → (envs j).arena ≠ 0 → (envs j).bitmap_ok = true →
              (envs j).mutex_ok = true → (s.pools j).mutex = true) ∧
            ∀ (size : Nat) (senv : SmartMallocEnv),
              (smart_pool_malloc s.pools s.mem size senv).served_by =
                  (List.range POOL_COUNT).find? (fun j =>
                    decide (j ≠ i) &&
                      (decide ((size + 16) % W32 ≤ (s.pools j).block_size) &&
                        decide ((pool_malloc (s.pools j) s.mem (senv.pool j)).ptr ≠ 0))) ∧
                (smart_pool_malloc s.pools s.mem size senv).served_by ≠ some i) := by
  have hflag : (decide (env.arena ≠ 0) && env.bitmap_ok && env.mutex_ok) = false := by
    rcases hfail with h | h | h
    · simp [h]
    · simp [h]
    · simp [h]
  have hf := init_memory_pool_flags c id env m
  have hok : (init_memory_pool c id env m).ok = false := by rw [hf.1, hflag]
  have hmx : (init_memory_pool c id env m).pool.mutex = false := by rw [hf.2.1, hflag]
  refine ⟨hok, hmx, (hf.2.2 hok).1, (hf.2.2 hok).2, ?_, ?_, ?_⟩
  · intro m' menv
    exact pool_malloc_disabled_eq _ m' menv hmx
  · intro m' ptr fenv
    exact pool_free_disabled_eq _ m' fenv ptr (Or.inr hmx)
  · intro envs m0 i s hboot hi henv hr
    have hsame := Reach_SameArena _ _ hr
    have hoff : (s.pools i).mutex = false := by
      rw [(hsame i).2.2.2.2.1, boot_mutex envs m0 i hi, henv, hflag]
    refine ⟨hoff, ?_, ?_⟩
    · intro j hj h1 h2 h3
      rw [(hsame j).2.2.2.2.1, boot_mutex envs m0 j hj]
      simp [h1, h2, h3]
    · intro size senv
      have hs : Reachable s := ⟨envs, m0, hboot, hr⟩
      have hq := Reachable_malloc_quiet s hs senv.pool
      have hspec := (smart_pool_malloc_loop_spec ((size + 16) % W32) size senv s.pools s.mem
        (List.range POOL_COUNT) (List.pairwise_lt_range _) (fun j _ h0 => (hq j h0).1)
        s.pools (fun _ _ => rfl)).1
      have hnull : (pool_malloc (s.pools i) s.mem (senv.pool i)).ptr = 0 := by
        rw [pool_malloc_disabled_eq _ _ _ hoff]
      have hserved : (smart_pool_malloc s.pools s.mem size senv).served_by =
          (List.range POOL_COUNT).find? (fun j =>
            decide (j ≠ i) &&
              (decide ((size + 16) % W32 ≤ (s.pools j).block_size) &&
                decide ((pool_malloc (s.pools j) s.mem (senv.pool j)).ptr ≠ 0))) := by
        rw [smart_pool_malloc_eq, hspec]
        apply find?_congr_on
        intro j _
        by_cases e : j = i
        · subst e
          simp [hnull]
        · simp [e]
      refine ⟨hserved, ?_⟩
      rw [hserved]
      intro hfind
      have := List.find?_some hfind
      simp at this

theorem demo_failed_BootOK : BootOK demo_failed_envs := by
  intro i hi
  unfold POOL_COUNT at hi
  interval_cases i
  · exact Or.inl rfl
  · refine Or.inr (Or.inr ⟨by decide, fun j hj h0 _ _ => ?_⟩)
    interval_cases j
    exact absurd rfl h0
  · refine Or.inr (Or.inr ⟨by decide, fun j hj h0 _ _ => ?_⟩)
    interval_cases j
    · exact absurd rfl h0
    · decide
  · refine Or.inr (Or.inr ⟨by decide, fun j hj h0 _ _ => ?_⟩)
    interval_cases j
    · exact absurd rfl h0
    · decide
    · decide

set_option maxRecDepth 100000 in
/-- C23 for a start-up in which the arena of the Small tier cannot be reserved: the tier is
left without lock, nothing is released, and a request for 10 bytes is served by the Medium
tier. -/
theorem init_failure_disables_tier_witness :
    (init_memory_pool (config_at 0) 1 ⟨0, true, true⟩ (fun _ => 0)).ok = false ∧
      (init_memory_pool (config_at 0) 1 ⟨0, true, true⟩ (fun _ => 0)).pool.mutex = false ∧
      (init_memory_pool (config_at 0) 1 ⟨0, true, true⟩ (fun _ => 0)).arena_released = false ∧
      (demo_failed_state.pools 0).mutex = false ∧
      (demo_failed_state.pools 1).mutex = true ∧
      (smart_pool_malloc demo_failed_state.pools demo_failed_state.mem 10
        demo_smart_env).served_by ≠ some 0 ∧
      (smart_pool_malloc demo_failed_state.pools demo_failed_state.mem 10
        demo_smart_env).served_by = some 1 :=
  have h := init_failure_disables_tier (config_at 0) 1 ⟨0, true, true⟩ (fun _ => 0)
    (Or.inl rfl)
  have h2 := h.2.2.2.2.2.2 demo_failed_envs (fun _ => 0) 0 demo_failed_state
    demo_failed_BootOK (by decide) rfl Reach.init
  ⟨h.1, h.2.1, h.2.2.1, h2.1, h2.2.1 1 (by decide) (by decide) rfl rfl,
    (h2.2.2 10 demo_smart_env).2, by decide⟩

/-! ## Alignment -/

theorem and_high_mask (x k : Nat) (hx : x < 2 ^ 32) (hk : k ≤ 32) :
    x &&& (2 ^ 32 - 1 - (2 ^ k - 1)) = 2 ^ k * (x / 2 ^ k) := by
  have hpos : 0 < 2 ^ k := Nat.two_pow_pos k
  have hle : 2 ^ k ≤ 2 ^ 32 := Nat.pow_le_pow_right (by norm_num) hk
  have hm : 2 ^ 32 - 1 - (2 ^ k - 1) = 2 ^ 32 - ((2 ^ k - 1) + 1) := by omega
  apply Nat.eq_of_testBit_eq
  intro i
  rw [Nat.testBit_and, hm, Nat.testBit_two_pow_sub_succ (by omega), Nat.testBit_two_pow_sub_one,
    Nat.testBit_mul_pow_two, ← Nat.shiftRight_eq_div_pow, Nat.testBit_shiftRight]
  by_cases hi : i < k
  · simp [hi]
  · have e : k + (i - k) = i := by omega
    rw [e]
    by_cases h32 : i < 32
    · simp [hi, h32]
      omega
    · have hfalse : x.testBit i = false :=
        Nat.testBit_lt_two_pow (Nat.lt_of_lt_of_le hx
          (Nat.pow_le_pow_right (by norm_num) (by omega)))
      simp [hfalse]

theorem align_up_eq (v k : Nat) (hk : k < 32) (hv : v + 2 ^ k - 1 < W32) :
    align_up v (2 ^ k) = 2 ^ k * ((v + 2 ^ k - 1) / 2 ^ k) := by
  have hpos : 0 < 2 ^ k := Nat.two_pow_pos k
  have hlt : 2 ^ k < 2 ^ 32 := Nat.pow_lt_pow_right (by norm_num) hk
  have hW : W32 = 2 ^ 32 := rfl
  have hs : sub32 (2 ^ k) 1 = 2 ^ k - 1 :=
    sub32_eq _ _ (by rw [hW]; exact hlt) hpos
  unfold align_up
  rw [hs]
  have e : v + (2 ^ k - 1) = v + 2 ^ k - 1 := by omega
  rw [e, Nat.mod_eq_of_lt hv, hW]
  rw [hW] at hv
  exact and_high_mask _ k hv (Nat.le_of_lt hk)

/-- C27: for a power of two `a = 2 ^ k` below `2 ^ 32` and `v` with `v + a - 1` not wrapping,
`align_up v a` is the least multiple of `a` that is at least `v`: it is a multiple of `a`, lies
in `[v, v + a)`, is at most every multiple of `a` that is at least `v`, and applying
`align_up` again changes nothing; with `a = 4` the payload region of a block of size `s` has
at least `s` bytes and the stride `header_size + align_up s 4` is a multiple of 4. -/
theorem align_up_least_multiple (v k : Nat) (hk : k < 32) (hv : v + 2 ^ k - 1 < W32) :
    2 ^ k ∣ align_up v (2 ^ k) ∧
      v ≤ align_up v (2 ^ k) ∧
      align_up v (2 ^ k) < v + 2 ^ k ∧
      (∀ n, 2 ^ k ∣ n → v ≤ n → align_up v (2 ^ k) ≤ n) ∧
      align_up (align_up v (2 ^ k)) (2 ^ k) = align_up v (2 ^ k) ∧
      (∀ s, s + 3 < W32 →
        s ≤ align_up s 4 ∧ (header_size + align_up s 4) % 4 = 0 ∧
          total_block_size s 4 % 4 = 0) := by
  have hpos : 0 < 2 ^ k := Nat.two_pow_pos k
  have hW : W32 = 2 ^ 32 := rfl
  have key : ∀ (w j : Nat), j < 32 → w + 2 ^ j - 1 < W32 →
      2 ^ j ∣ align_up w (2 ^ j) ∧ w ≤ align_up w (2 ^ j) ∧
        align_up w (2 ^ j) < w + 2 ^ j := by
    intro w j hj hw
    have hp : 0 < 2 ^ j := Nat.two_pow_pos j
    rw [align_up_eq w j hj hw]
    have hdm := Nat.div_add_mod (w + 2 ^ j - 1) (2 ^ j)
    have hml := Nat.mod_lt (w + 2 ^ j - 1) hp
    refine ⟨Dvd.intro _ rfl, ?_, ?_⟩ <;> omega
  obtain ⟨h1, h2, h3⟩ := key v k hk hv
  refine ⟨h1, h2, h3, ?_, ?_, ?_⟩
  · intro n hn hvn
    obtain ⟨t, rfl⟩ := hn
    rw [align_up_eq v k hk hv]
    apply Nat.mul_le_mul_left
    apply Nat.le_of_lt_succ
    apply (Nat.div_lt_iff_lt_mul hpos).mpr
    rw [Nat.succ_mul, Nat.mul_comm]
    omega
  · have hq : align_up v (2 ^ k) = 2 ^ k * ((v + 2 ^ k - 1) / 2 ^ k) := align_up_eq v k hk hv
    have hsplit : (2 : Nat) ^ 32 = 2 ^ k * 2 ^ (32 - k) := by
      rw [← Nat.pow_add]
      congr 1
      omega
    have hlt : 2 ^ k * ((v + 2 ^ k - 1) / 2 ^ k) < 2 ^ k * 2 ^ (32 - k) := by
      rw [← hsplit, ← hq, ← hW]
      omega
    have hq1 : (v + 2 ^ k - 1) / 2 ^ k + 1 ≤ 2 ^ (32 - k) :=
      Nat.lt_of_mul_lt_mul_left hlt
    have hroom : 2 ^ k * ((v + 2 ^ k - 1) / 2 ^ k + 1) ≤ 2 ^ k * 2 ^ (32 - k) :=
      Nat.mul_le_mul_left _ hq1
    rw [Nat.mul_add, Nat.mul_one, ← hsplit, ← hq, ← hW] at hroom
    have hfit : align_up v (2 ^ k) + 2 ^ k - 1 < W32 := by omega
    rw [align_up_eq (align_up v (2 ^ k)) k hk hfit]
    nth_rewrite 1 [hq]
    rw [hq]
    congr 1
    have e : 2 ^ k * ((v + 2 ^ k - 1) / 2 ^ k) + 2 ^ k - 1 =
        (2 ^ k - 1) + 2 ^ k * ((v + 2 ^ k - 1) / 2 ^ k) := by omega
    rw [e, Nat.add_mul_div_left _ _ hpos, Nat.div_eq_of_lt (by omega), Nat.zero_add]
  · intro s hs
    have h4 := key s 2 (by norm_num) (by norm_num; omega)
    have e4 : (2 : Nat) ^ 2 = 4 := by norm_num
    rw [e4] at h4
    have hmod := align_up_four_mod s
    refine ⟨h4.2.1, ?_, ?_⟩
    · unfold header_size
      omega
    · unfold total_block_size header_size
      have hWm : W32 = 4 * 1073741824 := by decide
      rw [hWm]
      omega

/-- C27 for `v = 33` and `a = 4`. -/
theorem align_up_least_multiple_witness :
    33 + 2 ^ 2 - 1 < W32 ∧ align_up 33 (2 ^ 2) = 36 ∧ 2 ^ 2 ∣ align_up 33 (2 ^ 2) ∧
      33 ≤ align_up 33 (2 ^ 2) ∧ align_up 33 (2 ^ 2) < 33 + 2 ^ 2 :=
  have h := align_up_least_multiple 33 2 (by decide) (by decide)
  ⟨by decide, by decide, h.1, h.2.1, h.2.2.1⟩

/-! ## Bitmap indexing and block layout -/

theorem pool_malloc_bitmap_cases (p : memory_pool_t) (m : Mem) (env : MallocEnv) :
    (pool_malloc p m env).pool.usage_bitmap = p.usage_bitmap ∨
      ∃ i, i < p.block_count ∧ i = sub32 p.free_list p.pool_memory / stride p ∧
        (pool_malloc p m env).pool.usage_bitmap = bitmap_set p.usage_bitmap i := by
  unfold pool_malloc stride
  dsimp only
  split_ifs <;> first | exact Or.inl rfl | exact Or.inr ⟨_, by assumption, rfl, rfl⟩

theorem pool_free_bitmap_cases (p : memory_pool_t) (m : Mem) (ptr : Nat) (env : FreeEnv) :
    (pool_free p m ptr env).pool.usage_bitmap = p.usage_bitmap ∨
      ∃ i, i < p.block_count ∧
        i = sub32 (sub32 ptr header_size) p.pool_memory / stride p ∧
        (pool_free p m ptr env).pool.usage_bitmap = bitmap_clear p.usage_bitmap i := by
  unfold pool_free stride
  dsimp only
  split_ifs <;> first | exact Or.inl rfl | exact Or.inr ⟨_, by assumption, rfl, rfl⟩

/-- C28: on a pool with the geometry that `init_memory_pool` sets up, the bitmap has
`(block_count + 7) / 8` bytes, which is the least number of bytes holding `block_count` bits;
the index computed from an address inside the arena is below `block_count`; the byte index
`i / 8` of every index `i < block_count` lies within the bitmap; `pool_malloc` and `pool_free`
leave the bitmap alone or update it at an index below `block_count`; and such an update keeps
the length of the bitmap, leaves every other byte as it was and changes no bit other than bit
`i`. -/
theorem bitmap_indexing_safe (p : memory_pool_t) (hg : Geometry p) :
    p.usage_bitmap.length = (p.block_count + 7) / 8 ∧
      (∀ q, p.block_count ≤ 8 * q ↔ p.usage_bitmap.length ≤ q) ∧
      (∀ (c : pool_config_t) (id : Nat) (env : InitEnv) (m : Mem), InitOK c id env →
        (init_memory_pool c id env m).pool.usage_bitmap.length = (c.block_count + 7) / 8) ∧
      (∀ a, in_arena p a → sub32 a p.pool_memory / stride p < p.block_count) ∧
      (∀ i, i < p.block_count → i / 8 < p.usage_bitmap.length) ∧
      (∀ (m : Mem) (env : MallocEnv),
        (pool_malloc p m env).pool.usage_bitmap = p.usage_bitmap ∨
          ∃ i, i < p.block_count ∧ i = sub32 p.free_list p.pool_memory / stride p ∧
            (pool_malloc p m env).pool.usage_bitmap = bitmap_set p.usage_bitmap i) ∧
      (∀ (m : Mem) (ptr : Nat) (env : FreeEnv),
        (pool_free p m ptr env).pool.usage_bitmap = p.usage_bitmap ∨
          ∃ i, i < p.block_count ∧
            i = sub32 (sub32 ptr header_size) p.pool_memory / stride p ∧
            (pool_free p m ptr env).pool.usage_bitmap = bitmap_clear p.usage_bitmap i) ∧
      (∀ i, i < p.block_count →
        (bitmap_set p.usage_bitmap i).length = p.usage_bitmap.length ∧
          (bitmap_clear p.usage_bitmap i).length = p.usage_bitmap.length ∧
          (∀ k, k ≠ i / 8 →
            (bitmap_set p.usage_bitmap i).getD k 0 = p.usage_bitmap.getD k 0 ∧
              (bitmap_clear p.usage_bitmap i).getD k 0 = p.usage_bitmap.getD k 0) ∧
          (∀ j, bit_at (bitmap_set p.usage_bitmap i) j =
            (decide (j = i) || bit_at p.usage_bitmap j)) ∧
          (∀ j, bit_at (bitmap_clear p.usage_bitmap i) j =
            (!decide (j = i) && bit_at p.usage_bitmap j))) := by
  have hlen : p.usage_bitmap.length = (p.block_count + 7) / 8 := hg.2.2.2.2
  have hbyte : ∀ i, i < p.block_count → i / 8 < p.usage_bitmap.length := by
    intro i hi
    rw [hlen]
    omega
  refine ⟨hlen, ?_, ?_, ?_, hbyte, pool_malloc_bitmap_cases p, pool_free_bitmap_cases p, ?_⟩
  · intro q
    rw [hlen]
    omega
  · intro c id env m hinit
    exact (init_memory_pool_ok c id env m hinit).2.1.geom.2.2.2.2.trans
      (by rw [(init_memory_pool_ok c id env m hinit).2.2.2.2.1])
  · intro a ha
    have hs := stride_ge p hg
    have hfit : p.pool_memory + p.block_count * stride p < W32 := hg.2.2.1
    obtain ⟨ha1, ha2⟩ := ha
    rw [sub32_eq _ _ (by omega) ha1]
    apply (Nat.div_lt_iff_lt_mul (by omega)).mpr
    omega
  · intro i hi
    refine ⟨bitmap_set_length _ _, bitmap_clear_length _ _, ?_,
      fun j => bit_at_bitmap_set _ i j (hbyte i hi),
      fun j => bit_at_bitmap_clear _ i j (hbyte i hi)⟩
    intro k hk
    exact ⟨getD_set_other _ _ _ _ (Ne.symm hk), getD_set_other _ _ _ _ (Ne.symm hk)⟩

/-- C28 on the demo pool: two blocks, one bitmap byte. -/
theorem bitmap_indexing_safe_witness :
    demo_pool.block_count = 2 ∧ demo_pool.usage_bitmap.length = 1 ∧
      (∀ a, in_arena demo_pool a →
        sub32 a demo_pool.pool_memory / stride demo_pool < demo_pool.block_count) ∧
      ∀ i, i < demo_pool.block_count → i / 8 < demo_pool.usage_bitmap.length :=
  have h := bitmap_indexing_safe demo_pool demo_PoolInv.geom
  ⟨by decide, by decide, h.2.2.2.1, h.2.2.2.2.1⟩

theorem PoolInv_header_frame (p : memory_pool_t) (m m' : Mem) (fl : List Nat)
    (h : PoolInv p m fl)
    (hm : ∀ k, k < p.block_count → ∀ x, block_addr p k ≤ x → x < block_addr p k + 24 →
      m' x = m x) :
    PoolInv p m' fl := by
  have hload : ∀ k off, k < p.block_count → off + 4 ≤ 24 →
      load32 m' (block_addr p k + off) = load32 m (block_addr p k + off) := by
    intro k off hk hoff
    apply load32_congr
    intro x h1 h2
    exact hm k hk x (by omega) (by omega)
  constructor
  · exact h.mutex
  · exact h.geom
  · apply Chain_congr m m' _ _ _ h.chain
    intro a ha
    obtain ⟨j, hj, rfl⟩ := List.mem_map.mp ha
    exact hload j OFF_NEXT (h.in_range j hj) (by decide)
  · exact h.nodup
  · exact h.in_range
  · intro i hi
    rw [hload i OFF_POOL_ID hi (by decide)]
    exact h.ids i hi
  · intro i hi
    rw [hload i OFF_MAGIC (h.in_range i hi) (by decide)]
    exact h.magic_free i hi
  · intro i hi hn
    rw [hload i OFF_MAGIC hi (by decide)]
    exact h.magic_alloc i hi hn
  · exact h.bit_free
  · exact h.bit_alloc
  · exact h.count
  · exact h.pop
  · exact h.bytes

theorem payload_fits (p : memory_pool_t) (hg : Geometry p) (hal : p.alignment = 4)
    (hbs : p.block_size + 3 < W32) :
    stride p = header_size + align_up p.block_size 4 ∧ header_size + p.block_size ≤ stride p := by
  have hs := stride_eq p hg
  rw [hal] at hs
  have hW : W32 = 2 ^ 32 := rfl
  have h4 : align_up p.block_size (2 ^ 2) = 2 ^ 2 * ((p.block_size + 2 ^ 2 - 1) / 2 ^ 2) :=
    align_up_eq p.block_size 2 (by norm_num) (by norm_num; omega)
  have e4 : (2 : Nat) ^ 2 = 4 := by norm_num
  rw [e4] at h4
  refine ⟨hs, ?_⟩
  rw [hs, h4]
  omega

/-- C29: in a pool with the geometry set up by `init_memory_pool`, alignment 4 and a block
size `s` with `s + 3` not wrapping, the stride is `header_size + align_up s 4`, and for
an index `i` below `block_count` the payload range of block `i`, `s` bytes from
`block_addr i + header_size`, lies inside the arena, does not overlap the payload range of
any other block `j` and does not overlap the header of any block; the four configured block sizes
satisfy the bound; and after `pool_malloc` has handed out block `i`, a memory that differs
only inside the `s` bytes at the returned pointer has every header and every other block
unchanged and still satisfies the pool invariant. -/
theorem block_layout_disjoint (p : memory_pool_t) (i j : Nat) (hg : Geometry p)
    (hal : p.alignment = 4) (hbs : p.block_size + 3 < W32) (hi : i < p.block_count)
    (hij : i ≠ j) :
    stride p = header_size + align_up p.block_size 4 ∧
      p.pool_memory ≤ block_addr p i + header_size ∧
      block_addr p i + header_size + p.block_size ≤
        p.pool_memory + p.block_count * stride p ∧
      (block_addr p i + header_size + p.block_size ≤ block_addr p j + header_size ∨
        block_addr p j + header_size + p.block_size ≤ block_addr p i + header_size) ∧
      (∀ k, block_addr p i + header_size + p.block_size ≤ block_addr p k ∨
        block_addr p k + header_size ≤ block_addr p i + header_size) ∧
      (∀ k, k < POOL_COUNT → (config_at k).block_size + 3 < W32) ∧
      (∀ (m : Mem) (env : MallocEnv) (fl : List Nat), PoolInv p m (i :: fl) →
        env.lock = true →
          (pool_malloc p m env).ptr = block_addr p i + header_size ∧
            ∀ m' : Mem,
              (∀ x, x < (pool_malloc p m env).ptr ∨
                  (pool_malloc p m env).ptr + p.block_size ≤ x →
                m' x = (pool_malloc p m env).mem x) →
              (∀ k, k < p.block_count → ∀ x, block_addr p k ≤ x →
                x < block_addr p k + header_size → m' x = (pool_malloc p m env).mem x) ∧
              (∀ k, k < p.block_count → k ≠ i → ∀ x, block_addr p k ≤ x →
                x < block_addr p k + stride p → m' x = (pool_malloc p m env).mem x) ∧
              PoolInv (pool_malloc p m env).pool m' fl) := by
  obtain ⟨hs, hfit⟩ := payload_fits p hg hal hbs
  have hend := block_addr_end p i hi
  have hbi := block_addr_bounds p hg i hi
  have hH : header_size = 24 := rfl
  have hhdr : ∀ k, block_addr p i + header_size + p.block_size ≤ block_addr p k ∨
      block_addr p k + header_size ≤ block_addr p i + header_size := by
    intro k
    rcases Nat.lt_trichotomy i k with h | h | h
    · left
      have := block_addr_step p i k h
      omega
    · right
      rw [h]
    · right
      have := block_addr_step p k i h
      have := stride_ge p hg
      omega
  have hother : ∀ k, k ≠ i → ∀ x, block_addr p k ≤ x → x < block_addr p k + stride p →
      x < block_addr p i + header_size ∨
        block_addr p i + header_size + p.block_size ≤ x := by
    intro k hk x h1 h2
    rcases Nat.lt_or_gt_of_ne hk with h | h
    · have := block_addr_step p k i h
      omega
    · have := block_addr_step p i k h
      omega
  refine ⟨hs, by omega, by omega, ?_, hhdr, ?_, ?_⟩
  · rcases Nat.lt_or_gt_of_ne hij with h | h
    · left
      have := block_addr_step p i j h
      omega
    · right
      have := block_addr_step p j i h
      omega
  · intro k hk
    unfold POOL_COUNT at hk
    interval_cases k <;> decide
  · intro m env fl hinv hl
    obtain ⟨hptr, hinv'⟩ := PoolInv_malloc p m env i fl hinv hl
    refine ⟨hptr, ?_⟩
    intro m' hm'
    rw [hptr] at hm'
    have hheaders : ∀ k, k < p.block_count → ∀ x, block_addr p k ≤ x →
        x < block_addr p k + header_size → m' x = (pool_malloc p m env).mem x := by
      intro k _ x h1 h2
      apply hm'
      rcases hhdr k with h | h
      · omega
      · left
        omega
    refine ⟨hheaders, ?_, ?_⟩
    · intro k _ hki x h1 h2
      exact hm' x (hother k hki x h1 h2)
    · have hsame := pool_malloc_SameArena p m env
      apply PoolInv_header_frame _ _ _ _ hinv'
      intro k hk x h1 h2
      rw [block_addr_congr _ _ hsame] at h1 h2
      rw [hsame.2.1] at hk
      exact hheaders k hk x h1 (by omega)

/-- C29 on the demo pool: 32-byte payloads at 4176 and 4120 in the arena from 4096 to
4208. -/
theorem block_layout_disjoint_witness :
    block_addr demo_pool 1 + header_size = 4176 ∧ block_addr demo_pool 0 + header_size = 4120 ∧
      stride demo_pool = header_size + align_up demo_pool.block_size 4 ∧
      block_addr demo_pool 1 + header_size + demo_pool.block_size ≤
        demo_pool.pool_memory + demo_pool.block_count * stride demo_pool ∧
      (block_addr demo_pool 1 + header_size + demo_pool.block_size ≤
          block_addr demo_pool 0 + header_size ∨
        block_addr demo_pool 0 + header_size + demo_pool.block_size ≤
          block_addr demo_pool 1 + header_size) :=
  have h := block_layout_disjoint demo_pool 1 0 demo_PoolInv.geom (by decide) (by decide)
    (by decide) (by decide)
  ⟨by decide, by decide, h.1, h.2.2.1, h.2.2.2.1⟩

end MemoryPools
